import Mathlib

/-!
# qrenderdoc statistics viewer: report generator

A shallow embedding of `qrenderdoc/Windows/StatisticsViewer.cpp` and the
properties of its histogram formatter, section builders, drawcall-tree
counter and report assembler.

Conventions of the embedding:

* `uint32_t` / `uint` values are natural numbers, every `+=` on them is
  reduced modulo `2 ^ 32`;
* an `rdctype::array<uint32_t>` is a `List Nat`. The source indexes it
  without a check; the embedding checks every `array[i]`, and a function that
  indexes outside the array has the result `none`, which stands for the
  undefined behaviour of the program from that access on: it does not say
  that the program stops or reports the access;
* `float` is IEEE-754 binary32 restricted to the non-negative values, which
  are the only ones the viewer computes (all operands are unsigned counters,
  sizes and dimensions);
* `QString("...%1...").arg(x)` is the concatenation of the pieces of the
  pattern with the rendered arguments wherever the arguments are numbers and
  fixed texts of the program, which hold no place marker; the header of the
  report, whose first argument is the file name of the capture, keeps the
  chain of `arg` calls.
-/

namespace StatisticsViewer

/-! ## Single-precision arithmetic -/

/-- Nearest integer to `t`, ties going to the even neighbour. -/
def roundHalfEven (t : ℚ) : ℤ :=
  let q := ⌊t⌋
  let r := t - q
  if r < 1 / 2 then q
  else if 1 / 2 < r then q + 1
  else if q % 2 = 0 then q else q + 1

/-- Exponent of the unit in the last place of binary32 around `x > 0`:
24 significant bits, and the exponent of subnormals below `2 ^ (-126)`. -/
def f32UlpExp (x : ℚ) : ℤ := max (Int.log 2 x) (-126) - 23

/-- Round a non-negative rational to binary32 (round to nearest, ties to
even) with an unbounded upper exponent range. -/
def f32Round (x : ℚ) : ℚ :=
  if x ≤ 0 then 0
  else (roundHalfEven (x / (2 : ℚ) ^ f32UlpExp x) : ℚ) * (2 : ℚ) ^ f32UlpExp x

/-- The values of a C `float` reachable from non-negative operands. -/
inductive F32 where
  | fin (q : ℚ)
  | inf
  | nan
  deriving DecidableEq, Repr

namespace F32

/-- Result of an operation whose exact value is `x ≥ 0`: the rounded value,
or infinity when that exceeds the largest finite binary32. -/
def ofRat (x : ℚ) : F32 :=
  if (2 : ℚ) ^ (128 : ℕ) ≤ f32Round x then inf else fin (f32Round x)

/-- Conversion `(float)n` of an unsigned (or non-negative signed) integer. -/
def ofNat (n : Nat) : F32 := ofRat (n : ℚ)

/-- Float division `a / b`. -/
def div : F32 → F32 → F32
  | fin a, fin b => if b = 0 then (if a = 0 then nan else inf) else ofRat (a / b)
  | fin _, inf => fin 0
  | inf, fin _ => inf
  | inf, inf => nan
  | nan, _ => nan
  | _, nan => nan

/-- Float multiplication `a * b`. -/
def mul : F32 → F32 → F32
  | fin a, fin b => ofRat (a * b)
  | fin a, inf => if a = 0 then nan else inf
  | inf, fin b => if b = 0 then nan else inf
  | inf, inf => inf
  | nan, _ => nan
  | _, nan => nan

/-- Float addition `a + b`. -/
def add : F32 → F32 → F32
  | fin a, fin b => ofRat (a + b)
  | fin _, inf => inf
  | inf, fin _ => inf
  | inf, inf => inf
  | nan, _ => nan
  | _, nan => nan

/-- Conversion `(int)f`: truncation, defined only when the truncated value
fits a 32-bit `int`. -/
def toInt : F32 → Option Int
  | fin q => if q < (2 : ℚ) ^ (31 : ℕ) then some ⌊q⌋ else none
  | inf => none
  | nan => none

end F32

/-! ## Strings and external formatting -/

/-- The `uint32_t` addition `a + b`. -/
def add32 (a b : Nat) : Nat := (a + b) % 2 ^ 32

/-- Qt `QString::left(n)`: the first `n` characters, the whole string when `n`
is negative or not smaller than the length. -/
def QStringLeft (s : String) (n : Int) : String :=
  if n < 0 ∨ (s.length : Int) ≤ n then s else String.mk (s.data.take n.toNat)

/-- Qt `arg(x, fieldWidth)` for a positive field width: the text right-aligned,
padded with spaces on the left. -/
def argWidth (s : String) (fieldWidth : Nat) : String :=
  String.mk (List.replicate (fieldWidth - s.length) ' ') ++ s

/-- Qt `arg(n)` for an unsigned integer: its decimal digits. -/
def argNat (n : Nat) : String := toString n

/-- Text produced by routines that live outside `StatisticsViewer.cpp`:
the viewer only places their results in the report. -/
structure Formatting where
  /-- The call `Formatter::Format(float)`. -/
  Format : F32 → String
  /-- The call `QString::arg(double, 2, 'f', 2)`. -/
  argFixed : F32 → String
  /-- The call `QString::arg(double)` with its default format. -/
  argFloat : F32 → String
  /-- The call `ToQStr(TextureDim)`, by enumeration index. -/
  ToQStr : Nat → String
  /-- The call `ctx.CurPipelineState().Abbrev(StageFromIndex(s))`. -/
  Abbrev : Nat → String
  /-- The call `QFileInfo(path).fileName()`. -/
  fileName : String → String
  /-- The call `text.arg(a)` of `QString` with a text argument: `text` with
  its lowest-numbered place marker (`%1`, `%2`, ...) replaced by `a`. Kept
  where the argument is text from outside the program, the file name of the
  capture, which may itself hold a place marker. -/
  arg : String → String → String
  /-- The constant `ENUM_ARRAY_SIZE(ShaderStage)`: the number of shader stages,
  which is the length of every per-stage array of the frame statistics. -/
  stageCount : Nat

/-! ## Histogram formatter -/

/-- The constant `HistogramWidth`. -/
def HistogramWidth : Nat := 128

/-- The constant `Stars`: `HistogramWidth` asterisks. -/
def Stars : String := String.mk (List.replicate HistogramWidth '*')

/-- The function `Pow2IndexAsReadable`; the shift `1ULL << index` is defined
for `index < 64` only. -/
def Pow2IndexAsReadable (F : Formatting) (index : Nat) : Option String :=
  if 64 ≤ index then none
  else
    let value := 2 ^ index
    if value ≥ 1024 * 1024 then
      let slice := F32.div (F32.ofNat value) (F32.ofNat (1024 * 1024))
      some (F.Format slice ++ "MB")
    else if value ≥ 1024 then
      let slice := F32.div (F32.ofNat value) (F32.ofNat 1024)
      some (F.Format slice ++ "KB")
    else
      some (F.Format (F32.ofNat value) ++ "B")

/-- The function `SliceForString`. -/
def SliceForString (s : String) (value maximum : Nat) : Option Int :=
  if value = 0 ∨ maximum = 0 then some 0
  else do
    let ratio := F32.div (F32.ofNat value) (F32.ofNat maximum)
    let slice ← F32.toInt (F32.mul ratio (F32.ofNat s.length))
    pure (max 1 slice)

/-- The function `CountOrEmpty`. -/
def CountOrEmpty (count : Nat) : String :=
  if count = 0 then "" else "(" ++ argNat count ++ ")"

/-- The scanning loop shared by every histogram of the file,
`for(int o = start; o < array.count; o++)`, giving
`(maxCount, maxWithValue)`. -/
def scanBuckets (array : List Nat) (start : Nat) : Option (Nat × Nat) :=
  (List.range' start (array.length - start)).foldlM
    (fun (st : Nat × Nat) (o : Nat) => do
      let value ← array[o]?
      let maxWithValue := if value > 0 then o else st.2
      pure (max st.1 value, maxWithValue))
    (0, 0)

/-- One bucket line `"%1: %2 %3\n"`: label, bar and count. -/
def histogramLine (label : String) (slice : Int) (count : Nat) : String :=
  label ++ ": " ++ QStringLeft Stars slice ++ " " ++ CountOrEmpty count ++ "\n"

/-- The body of the printing loops: read the bucket, scale it, format it. -/
def bucketLine (array : List Nat) (maxCount : Nat) (label : Nat → Option String)
    (o : Nat) : Option String := do
  let count ← array[o]?
  let slice ← SliceForString Stars count maxCount
  let l ← label o
  pure (histogramLine l slice count)

/-- The printing loop shared by every histogram of the file,
`for(int o = start; o <= maxWithValue; o++) text += ...`. -/
def appendBars (text : String) (array : List Nat) (start maxWithValue maxCount : Nat)
    (label : Nat → Option String) : Option String :=
  (List.range' start (maxWithValue + 1 - start)).foldlM
    (fun (t : String) (o : Nat) => do
      let line ← bucketLine array maxCount label o
      pure (t ++ line))
    text

/-- The function `CreateSimpleIntegerHistogram`. -/
def CreateSimpleIntegerHistogram (legend : String) (array : List Nat) : Option String := do
  let (maxCount, maxWithValue) ← scanBuckets array 0
  let text := "\n" ++ legend ++ ":\n"
  appendBars text array 0 maxWithValue maxCount (fun o => some (argWidth (argNat o) 4))

/-! ## Frame statistics -/

/-- The record `DrawcallStats`. -/
structure DrawcallStats where
  calls : Nat
  instanced : Nat
  indirect : Nat
  counts : List Nat

/-- The record `DispatchStats`. -/
structure DispatchStats where
  calls : Nat
  indirect : Nat

/-- The records `IndexBindStats` and `LayoutBindStats`. -/
structure BindStats where
  calls : Nat
  sets : Nat
  nulls : Nat

/-- The records `VertexBindStats`, `SamplerBindStats` and `OutputTargetStats`. -/
structure SlotBindStats where
  calls : Nat
  sets : Nat
  nulls : Nat
  bindslots : List Nat

/-- The records `ShaderChangeStats`, `BlendStats` and `DepthStencilStats`. -/
structure ShaderChangeStats where
  calls : Nat
  sets : Nat
  nulls : Nat
  redundants : Nat

/-- The record `ConstantBindStats`. -/
structure ConstantBindStats where
  calls : Nat
  sets : Nat
  nulls : Nat
  bindslots : List Nat
  sizes : List Nat

/-- The record `ResourceBindStats`. -/
structure ResourceBindStats where
  calls : Nat
  sets : Nat
  nulls : Nat
  types : List Nat
  bindslots : List Nat

/-- The record `ResourceUpdateStats`. -/
structure ResourceUpdateStats where
  calls : Nat
  clients : Nat
  servers : Nat
  types : List Nat
  sizes : List Nat

/-- The record `RasterizationStats`. -/
structure RasterizationStats where
  calls : Nat
  sets : Nat
  nulls : Nat
  redundants : Nat
  viewports : List Nat
  rects : List Nat

/-- The record `FrameStatistics`; the per-stage arrays are indexed by the
stage number, below `stageCount`. -/
structure FrameStatistics where
  recorded : Bool
  draws : DrawcallStats
  dispatches : DispatchStats
  indices : BindStats
  layouts : BindStats
  vertices : SlotBindStats
  shaders : Nat → ShaderChangeStats
  constants : Nat → ConstantBindStats
  samplers : Nat → SlotBindStats
  resources : Nat → ResourceBindStats
  updates : ResourceUpdateStats
  blends : ShaderChangeStats
  depths : ShaderChangeStats
  rasters : RasterizationStats
  outputs : SlotBindStats

/-- The record `FrameDescription`, as far as the viewer reads it. -/
structure FrameDescription where
  stats : FrameStatistics
  compressedFileSize : Nat
  uncompressedFileSize : Nat
  persistentSize : Nat
  initDataSize : Nat

/-! ## Section builders -/

/-- The histogram written inline by several builders: heading, scan from
`start`, bars from `start`. -/
def appendHistogram (text : String) (array : List Nat) (start : Nat)
    (label : Nat → Option String) : Option String := do
  let (maxCount, maxWithValue) ← scanBuckets array start
  appendBars text array start maxWithValue maxCount label

/-- The function `AppendDrawStatistics`. -/
def AppendDrawStatistics (statisticsLog : String) (frameInfo : FrameDescription) :
    Option String :=
  let draws := frameInfo.stats.draws
  let log := statisticsLog ++ "\n*** Draw Statistics ***\n\n"
  let log := log ++ ("Total calls: " ++ argNat draws.calls ++ ", instanced: "
    ++ argNat draws.instanced ++ ", indirect: " ++ argNat draws.indirect ++ "\n")
  if draws.instanced > 0 then
    let log := log ++ "\nInstance counts:\n"
    let maximum := draws.counts.length
    appendHistogram log draws.counts 1
      (fun s => some ((if s + 1 = maximum then ">=" else "  ") ++ argWidth (argNat s) 2))
  else some log

/-- The function `AppendDispatchStatistics`. -/
def AppendDispatchStatistics (statisticsLog : String) (frameInfo : FrameDescription) :
    Option String :=
  let log := statisticsLog ++ "\n*** Dispatch Statistics ***\n\n"
  some (log ++ ("Total calls: " ++ argNat frameInfo.stats.dispatches.calls ++ ", indirect: "
    ++ argNat frameInfo.stats.dispatches.indirect ++ "\n"))

/-- The function `AppendInputAssemblerStatistics`. -/
def AppendInputAssemblerStatistics (statisticsLog : String) (frameInfo : FrameDescription) :
    Option String := do
  let indices := frameInfo.stats.indices
  let layouts := frameInfo.stats.layouts
  let vertices := frameInfo.stats.vertices
  let log := statisticsLog ++ "\n*** Input Assembler Statistics ***\n\n"
  let log := log ++ ("Total index calls: " ++ argNat indices.calls ++ ", non-null index sets: "
    ++ argNat indices.sets ++ ", null index sets: " ++ argNat indices.nulls ++ "\n")
  let log := log ++ ("Total layout calls: " ++ argNat layouts.calls ++ ", non-null layout sets: "
    ++ argNat layouts.sets ++ ", null layout sets: " ++ argNat layouts.nulls ++ "\n")
  let log := log ++ ("Total vertex calls: " ++ argNat vertices.calls ++ ", non-null vertex sets: "
    ++ argNat vertices.sets ++ ", null vertex sets: " ++ argNat vertices.nulls ++ "\n")
  let hist ← CreateSimpleIntegerHistogram "Aggregate vertex slot counts per invocation"
    vertices.bindslots
  pure (log ++ hist)

/-- The accumulation of `AppendShaderStatistics`: `totalShadersPerStage`, which
sums the four counters over the stages. -/
def totalShadersPerStage (F : Formatting) (stats : FrameStatistics) : ShaderChangeStats :=
  (List.range F.stageCount).foldl
    (fun (t : ShaderChangeStats) (s : Nat) =>
      { calls := add32 t.calls (stats.shaders s).calls
        sets := add32 t.sets (stats.shaders s).sets
        nulls := add32 t.nulls (stats.shaders s).nulls
        redundants := add32 t.redundants (stats.shaders s).redundants })
    { calls := 0, sets := 0, nulls := 0, redundants := 0 }

/-- The function `AppendShaderStatistics`. -/
def AppendShaderStatistics (F : Formatting) (statisticsLog : String)
    (frameInfo : FrameDescription) : Option String :=
  let shaders := frameInfo.stats.shaders
  let total := totalShadersPerStage F frameInfo.stats
  let log := statisticsLog ++ "\n*** Shader Set Statistics ***\n\n"
  let log := (List.range F.stageCount).foldl
    (fun (log : String) (s : Nat) =>
      log ++ (F.Abbrev s ++ " calls: " ++ argNat (shaders s).calls
        ++ ", non-null shader sets: " ++ argNat (shaders s).sets
        ++ ", null shader sets: " ++ argNat (shaders s).nulls
        ++ ", redundant shader sets: " ++ argNat (shaders s).redundants ++ "\n"))
    log
  some (log ++ ("Total calls: " ++ argNat total.calls
    ++ ", non-null shader sets: " ++ argNat total.sets
    ++ ", null shader sets: " ++ argNat total.nulls
    ++ ", reundant shader sets: " ++ argNat total.redundants ++ "\n"))

/-- The call `array.create(n)` on zeroed memory: `n` zero buckets. -/
def createArray (n : Nat) : List Nat := List.replicate n 0

/-- The loop `for(int l = 0; l < src.count; l++) dst[l] += src[l];`. The
source does not compare `l` with the size of `dst`: the result `none` stands
for a write outside `dst`, from which on the behaviour of the program is
undefined. -/
def addBuckets (dst src : List Nat) : Option (List Nat) :=
  (List.range src.length).foldlM
    (fun (d : List Nat) (l : Nat) => do
      let v ← src[l]?
      let old ← d[l]?
      pure (d.set l (add32 old v)))
    dst

/-- The array `totalConstantsPerStage` of `AppendConstantBindStatistics`: for
every stage, zeroed buckets of the lengths of stage 0, to which the buckets
and counters of the stage are added. -/
def totalConstantsPerStage (F : Formatting) (stats : FrameStatistics) :
    Option (List ConstantBindStats) :=
  let reference := stats.constants 0
  (List.range F.stageCount).mapM (fun (s : Nat) => do
    let bindslots ← addBuckets (createArray reference.bindslots.length)
      (stats.constants s).bindslots
    let sizes ← addBuckets (createArray reference.sizes.length) (stats.constants s).sizes
    pure { calls := add32 0 (stats.constants s).calls
           sets := add32 0 (stats.constants s).sets
           nulls := add32 0 (stats.constants s).nulls
           bindslots := bindslots
           sizes := sizes })

/-- The record `totalConstantsForAllStages` of `AppendConstantBindStatistics`:
buckets of the lengths of `totalConstantsPerStage[0]`, to which every stage
total is added. -/
def totalConstantsForAllStages (perStage : List ConstantBindStats) :
    Option ConstantBindStats := do
  let first ← perStage[0]?
  perStage.foldlM
    (fun (t : ConstantBindStats) (p : ConstantBindStats) => do
      let bindslots ← addBuckets t.bindslots p.bindslots
      let sizes ← addBuckets t.sizes p.sizes
      pure { calls := add32 t.calls p.calls
             sets := add32 t.sets p.sets
             nulls := add32 t.nulls p.nulls
             bindslots := bindslots
             sizes := sizes })
    { calls := 0, sets := 0, nulls := 0
      bindslots := createArray first.bindslots.length
      sizes := createArray first.sizes.length }

/-- The function `AppendConstantBindStatistics`. -/
def AppendConstantBindStatistics (F : Formatting) (statisticsLog : String)
    (frameInfo : FrameDescription) : Option String := do
  let perStage ← totalConstantsPerStage F frameInfo.stats
  let total ← totalConstantsForAllStages perStage
  let log := statisticsLog ++ "\n*** Constant Bind Statistics ***\n\n"
  let log := perStage.enum.foldl
    (fun (log : String) (sp : Nat × ConstantBindStats) =>
      log ++ (F.Abbrev sp.1 ++ " calls: " ++ argNat sp.2.calls
        ++ ", non-null buffer sets: " ++ argNat sp.2.sets
        ++ ", null buffer sets: " ++ argNat sp.2.nulls ++ "\n"))
    log
  let log := log ++ ("Total calls: " ++ argNat total.calls
    ++ ", non-null buffer sets: " ++ argNat total.sets
    ++ ", null buffer sets: " ++ argNat total.nulls ++ "\n")
  let hist ← CreateSimpleIntegerHistogram
    "Aggregate slot counts per invocation across all stages" total.bindslots
  let log := log ++ hist
  let log := log ++ "\nAggregate constant buffer sizes across all stages:\n"
  appendHistogram log total.sizes 0
    (fun s => (Pow2IndexAsReadable F s).map (fun l => argWidth l 8))

/-- The array `totalSamplersPerStage` of `AppendSamplerBindStatistics`. -/
def totalSamplersPerStage (F : Formatting) (stats : FrameStatistics) :
    Option (List SlotBindStats) :=
  let reference := stats.samplers 0
  (List.range F.stageCount).mapM (fun (s : Nat) => do
    let bindslots ← addBuckets (createArray reference.bindslots.length)
      (stats.samplers s).bindslots
    pure { calls := add32 0 (stats.samplers s).calls
           sets := add32 0 (stats.samplers s).sets
           nulls := add32 0 (stats.samplers s).nulls
           bindslots := bindslots })

/-- The record `totalSamplersForAllStages` of `AppendSamplerBindStatistics`. -/
def totalSamplersForAllStages (perStage : List SlotBindStats) : Option SlotBindStats := do
  let first ← perStage[0]?
  perStage.foldlM
    (fun (t : SlotBindStats) (p : SlotBindStats) => do
      let bindslots ← addBuckets t.bindslots p.bindslots
      pure { calls := add32 t.calls p.calls
             sets := add32 t.sets p.sets
             nulls := add32 t.nulls p.nulls
             bindslots := bindslots })
    { calls := 0, sets := 0, nulls := 0
      bindslots := createArray first.bindslots.length }

/-- The function `AppendSamplerBindStatistics`. -/
def AppendSamplerBindStatistics (F : Formatting) (statisticsLog : String)
    (frameInfo : FrameDescription) : Option String := do
  let perStage ← totalSamplersPerStage F frameInfo.stats
  let total ← totalSamplersForAllStages perStage
  let log := statisticsLog ++ "\n*** Sampler Bind Statistics ***\n\n"
  let log := perStage.enum.foldl
    (fun (log : String) (sp : Nat × SlotBindStats) =>
      log ++ (F.Abbrev sp.1 ++ " calls: " ++ argNat sp.2.calls
        ++ ", non-null sampler sets: " ++ argNat sp.2.sets
        ++ ", null sampler sets: " ++ argNat sp.2.nulls ++ "\n"))
    log
  let log := log ++ ("Total calls: " ++ argNat total.calls
    ++ ", non-null sampler sets: " ++ argNat total.sets
    ++ ", null sampler sets: " ++ argNat total.nulls ++ "\n")
  let hist ← CreateSimpleIntegerHistogram
    "Aggregate slot counts per invocation across all stages" total.bindslots
  pure (log ++ hist)

/-- The array `totalResourcesPerStage` of `AppendResourceBindStatistics`. -/
def totalResourcesPerStage (F : Formatting) (stats : FrameStatistics) :
    Option (List ResourceBindStats) :=
  let reference := stats.resources 0
  (List.range F.stageCount).mapM (fun (s : Nat) => do
    let types ← addBuckets (createArray reference.types.length) (stats.resources s).types
    let bindslots ← addBuckets (createArray reference.bindslots.length)
      (stats.resources s).bindslots
    pure { calls := add32 0 (stats.resources s).calls
           sets := add32 0 (stats.resources s).sets
           nulls := add32 0 (stats.resources s).nulls
           types := types
           bindslots := bindslots })

/-- The record `totalResourcesForAllStages` of `AppendResourceBindStatistics`. -/
def totalResourcesForAllStages (perStage : List ResourceBindStats) :
    Option ResourceBindStats := do
  let first ← perStage[0]?
  perStage.foldlM
    (fun (t : ResourceBindStats) (p : ResourceBindStats) => do
      let types ← addBuckets t.types p.types
      let bindslots ← addBuckets t.bindslots p.bindslots
      pure { calls := add32 t.calls p.calls
             sets := add32 t.sets p.sets
             nulls := add32 t.nulls p.nulls
             types := types
             bindslots := bindslots })
    { calls := 0, sets := 0, nulls := 0
      types := createArray first.types.length
      bindslots := createArray first.bindslots.length }

/-- The function `AppendResourceBindStatistics`. -/
def AppendResourceBindStatistics (F : Formatting) (statisticsLog : String)
    (frameInfo : FrameDescription) : Option String := do
  let perStage ← totalResourcesPerStage F frameInfo.stats
  let total ← totalResourcesForAllStages perStage
  let log := statisticsLog ++ "\n*** Resource Bind Statistics ***\n\n"
  let log := perStage.enum.foldl
    (fun (log : String) (sp : Nat × ResourceBindStats) =>
      log ++ (F.Abbrev sp.1 ++ " calls: " ++ argNat sp.2.calls
        ++ " non-null resource sets: " ++ argNat sp.2.sets
        ++ " null resource sets: " ++ argNat sp.2.nulls ++ "\n"))
    log
  let log := log ++ ("Total calls: " ++ argNat total.calls
    ++ " non-null resource sets: " ++ argNat total.sets
    ++ " null resource sets: " ++ argNat total.nulls ++ "\n")
  let log := log ++ "\nResource types across all stages:\n"
  let log ← appendHistogram log total.types 0 (fun s => some (argWidth (F.ToQStr s) 20))
  let hist ← CreateSimpleIntegerHistogram
    "Aggregate slot counts per invocation across all stages" total.bindslots
  pure (log ++ hist)

/-- The function `AppendUpdateStatistics`. -/
def AppendUpdateStatistics (F : Formatting) (statisticsLog : String)
    (frameInfo : FrameDescription) : Option String := do
  let reference := frameInfo.stats.updates
  let updates := frameInfo.stats.updates
  let types ← addBuckets (createArray reference.types.length) updates.types
  let sizes ← addBuckets (createArray reference.sizes.length) updates.sizes
  let totalUpdates : ResourceUpdateStats :=
    { calls := add32 0 updates.calls
      clients := add32 0 updates.clients
      servers := add32 0 updates.servers
      types := types
      sizes := sizes }
  let log := statisticsLog ++ "\n*** Resource Update Statistics ***\n\n"
  let log := log ++ ("Total calls: " ++ argNat totalUpdates.calls
    ++ ", client-updated memory: " ++ argNat totalUpdates.clients
    ++ ", server-updated memory: " ++ argNat totalUpdates.servers ++ "\n")
  let log := log ++ "\nUpdated resource types:\n"
  let log ← appendHistogram log totalUpdates.types 1
    (fun s => some (argWidth (F.ToQStr s) 20))
  let log := log ++ "\nUpdated resource sizes:\n"
  appendHistogram log totalUpdates.sizes 0
    (fun s => (Pow2IndexAsReadable F s).map (fun l => argWidth l 8))

/-- The function `AppendBlendStatistics`. -/
def AppendBlendStatistics (statisticsLog : String) (frameInfo : FrameDescription) :
    Option String :=
  let blends := frameInfo.stats.blends
  let log := statisticsLog ++ "\n*** Blend Statistics ***\n"
  some (log ++ ("Blend calls: " ++ argNat blends.calls ++ " non-null sets: "
    ++ argNat blends.sets ++ ", null (default) sets: " ++ argNat blends.nulls
    ++ ", redundant sets: " ++ argNat blends.redundants ++ "\n"))

/-- The function `AppendDepthStencilStatistics`. -/
def AppendDepthStencilStatistics (statisticsLog : String) (frameInfo : FrameDescription) :
    Option String :=
  let depths := frameInfo.stats.depths
  let log := statisticsLog ++ "\n*** Depth Stencil Statistics ***\n"
  some (log ++ ("Depth/stencil calls: " ++ argNat depths.calls ++ " non-null sets: "
    ++ argNat depths.sets ++ ", null (default) sets: " ++ argNat depths.nulls
    ++ ", redundant sets: " ++ argNat depths.redundants ++ "\n"))

/-- The function `AppendRasterizationStatistics`. -/
def AppendRasterizationStatistics (statisticsLog : String) (frameInfo : FrameDescription) :
    Option String := do
  let rasters := frameInfo.stats.rasters
  let log := statisticsLog ++ "\n*** Rasterization Statistics ***\n"
  let log := log ++ ("Rasterization calls: " ++ argNat rasters.calls ++ " non-null sets: "
    ++ argNat rasters.sets ++ ", null (default) sets: " ++ argNat rasters.nulls
    ++ ", redundant sets: " ++ argNat rasters.redundants ++ "\n")
  let viewports ← CreateSimpleIntegerHistogram "Viewports set" rasters.viewports
  let log := log ++ viewports
  let rects ← CreateSimpleIntegerHistogram "Scissors set" rasters.rects
  pure (log ++ rects)

/-- The function `AppendOutputStatistics`. -/
def AppendOutputStatistics (statisticsLog : String) (frameInfo : FrameDescription) :
    Option String := do
  let outputs := frameInfo.stats.outputs
  let log := statisticsLog ++ "\n*** Output Statistics ***\n"
  let log := log ++ ("Output calls: " ++ argNat outputs.calls ++ " non-null sets: "
    ++ argNat outputs.sets ++ ", null sets: " ++ argNat outputs.nulls ++ "\n")
  let hist ← CreateSimpleIntegerHistogram "Outputs set" outputs.bindslots
  pure (log ++ hist)

/-- The twelve section builders, in the order `AppendDetailedInformation`
calls them. -/
def sectionBuilders (F : Formatting) : List (String → FrameDescription → Option String) :=
  [ AppendDrawStatistics, AppendDispatchStatistics, AppendInputAssemblerStatistics,
    AppendShaderStatistics F, AppendConstantBindStatistics F, AppendSamplerBindStatistics F,
    AppendResourceBindStatistics F, AppendBlendStatistics, AppendDepthStencilStatistics,
    AppendRasterizationStatistics, AppendUpdateStatistics F, AppendOutputStatistics ]

/-- The function `AppendDetailedInformation`. -/
def AppendDetailedInformation (F : Formatting) (statisticsLog : String)
    (frameInfo : FrameDescription) : Option String :=
  if !frameInfo.stats.recorded then some statisticsLog
  else do
    let log ← AppendDrawStatistics statisticsLog frameInfo
    let log ← AppendDispatchStatistics log frameInfo
    let log ← AppendInputAssemblerStatistics log frameInfo
    let log ← AppendShaderStatistics F log frameInfo
    let log ← AppendConstantBindStatistics F log frameInfo
    let log ← AppendSamplerBindStatistics F log frameInfo
    let log ← AppendResourceBindStatistics F log frameInfo
    let log ← AppendBlendStatistics log frameInfo
    let log ← AppendDepthStencilStatistics log frameInfo
    let log ← AppendRasterizationStatistics log frameInfo
    let log ← AppendUpdateStatistics F log frameInfo
    AppendOutputStatistics log frameInfo

/-! ## Drawcall tree -/

/-- The bits of `DrawFlags` that the viewer tests, one Boolean per bit. -/
structure DrawFlags where
  SetMarker : Bool
  PushMarker : Bool
  PopMarker : Bool
  Drawcall : Bool
  Dispatch : Bool
  deriving DecidableEq, Repr

/-- The record `DrawcallDescription`: event ID, flags and the ordered children. -/
inductive DrawcallDescription where
  | mk (eventID : Nat) (flags : DrawFlags) (children : List DrawcallDescription)

/-- Field `eventID`. -/
def DrawcallDescription.eventID : DrawcallDescription → Nat
  | .mk e _ _ => e

/-- Field `flags`. -/
def DrawcallDescription.flags : DrawcallDescription → DrawFlags
  | .mk _ f _ => f

/-- Field `children`. -/
def DrawcallDescription.children : DrawcallDescription → List DrawcallDescription
  | .mk _ _ c => c

/-- The three reference parameters of `CountContributingEvents`. -/
structure EventCounts where
  drawCount : Nat
  dispatchCount : Nat
  diagnosticCount : Nat
  deriving DecidableEq, Repr

/-- The classification of one node in `CountContributingEvents`: the three
`if` statements before the loop over the children. -/
def countNode (flags : DrawFlags) (c : EventCounts) : EventCounts :=
  let diagnosticMasked := flags.SetMarker || flags.PushMarker || flags.PopMarker
  let c := if diagnosticMasked then { c with diagnosticCount := add32 c.diagnosticCount 1 } else c
  let c := if flags.Drawcall then { c with drawCount := add32 c.drawCount 1 } else c
  if flags.Dispatch then { c with dispatchCount := add32 c.dispatchCount 1 } else c

mutual
/-- The function `CountContributingEvents`. -/
def CountContributingEvents : DrawcallDescription → EventCounts → EventCounts
  | .mk _ flags children, c => CountContributingEventsList children (countNode flags c)
/-- The loop `for(const DrawcallDescription &c : children)
CountContributingEvents(c, ...)`. -/
def CountContributingEventsList : List DrawcallDescription → EventCounts → EventCounts
  | [], c => c
  | d :: ds, c => CountContributingEventsList ds (CountContributingEvents d c)
end

mutual
/-- The descent `while(!lastDraw->children.empty()) lastDraw =
&lastDraw->children.back();` of `GenerateReport`. -/
def lastLeaf : DrawcallDescription → DrawcallDescription
  | .mk e f children =>
    match lastLeafOfBack children with
    | none => .mk e f children
    | some l => l
/-- The descent continued from `children.back()`, if there is a child. -/
def lastLeafOfBack : List DrawcallDescription → Option DrawcallDescription
  | [] => none
  | [d] => some (lastLeaf d)
  | _ :: d :: ds => lastLeafOfBack (d :: ds)
end

/-! ## Report assembler -/

/-- The record `BufferDescription`, as far as the viewer reads it; `isIndex`
and `isVertex` are the tests `creationFlags & BufferCategory::Index` and
`creationFlags & BufferCategory::Vertex`. -/
structure BufferDescription where
  length : Nat
  isIndex : Bool
  isVertex : Bool

/-- The record `TextureDescription`, as far as the viewer reads it;
`ColorTarget` and `DepthTarget` are the two bits of `creationFlags` tested. -/
structure TextureDescription where
  ColorTarget : Bool
  DepthTarget : Bool
  width : Nat
  height : Nat
  byteSize : Nat

/-- The capture context `ICaptureContext`, as far as the viewer reads it. -/
structure ICaptureContext where
  CurDrawcalls : List DrawcallDescription
  GetTextures : List TextureDescription
  GetBuffers : List BufferDescription
  FrameInfo : FrameDescription
  LogFilename : String

/-- The `uint64_t` addition `a + b`. -/
def add64 (a b : Nat) : Nat := (a + b) % 2 ^ 64

/-- The `uint32_t` subtraction `a - b`. -/
def sub32 (a b : Nat) : Nat := (a % 2 ^ 32 + (2 ^ 32 - b % 2 ^ 32)) % 2 ^ 32

/-- The function `AppendAPICallSummary`. -/
def AppendAPICallSummary (F : Formatting) (frameInfo : FrameDescription) (numAPICalls : Nat) :
    String :=
  if !frameInfo.stats.recorded then ""
  else
    let stages := List.range F.stageCount
    let numConstantSets := stages.foldl (fun n s => add32 n (frameInfo.stats.constants s).calls) 0
    let numSamplerSets := stages.foldl (fun n s => add32 n (frameInfo.stats.samplers s).calls) 0
    let numResourceSets := stages.foldl (fun n s => add32 n (frameInfo.stats.resources s).calls) 0
    let numShaderSets := stages.foldl (fun n s => add32 n (frameInfo.stats.shaders s).calls) 0
    let numResourceUpdates := frameInfo.stats.updates.calls
    let numIndexVertexSets := add32 (add32 frameInfo.stats.indices.calls
      frameInfo.stats.vertices.calls) frameInfo.stats.layouts.calls
    let numBlendSets := frameInfo.stats.blends.calls
    let numDepthStencilSets := frameInfo.stats.depths.calls
    let numRasterizationSets := frameInfo.stats.rasters.calls
    let numOutputSets := frameInfo.stats.outputs.calls
    let calls := ""
    let calls := calls ++ ("API calls: " ++ argNat numAPICalls ++ "\n")
    let calls := calls ++ ("\tIndex/vertex bind calls: " ++ argNat numIndexVertexSets ++ "\n")
    let calls := calls ++ ("\tConstant bind calls: " ++ argNat numConstantSets ++ "\n")
    let calls := calls ++ ("\tSampler bind calls: " ++ argNat numSamplerSets ++ "\n")
    let calls := calls ++ ("\tResource bind calls: " ++ argNat numResourceSets ++ "\n")
    let calls := calls ++ ("\tShader set calls: " ++ argNat numShaderSets ++ "\n")
    let calls := calls ++ ("\tBlend set calls: " ++ argNat numBlendSets ++ "\n")
    let calls := calls ++ ("\tDepth/stencil set calls: " ++ argNat numDepthStencilSets ++ "\n")
    let calls := calls ++ ("\tRasterization set calls: " ++ argNat numRasterizationSets ++ "\n")
    let calls := calls ++ ("\tResource update calls: " ++ argNat numResourceUpdates ++ "\n")
    let calls := calls ++ ("\tOutput set calls: " ++ argNat numOutputSets ++ "\n")
    calls

/-- The buffer totals of `GenerateReport`: `(BufBytes, IBBytes, VBBytes)`. -/
def bufferTotals (buffers : List BufferDescription) : Nat × Nat × Nat :=
  buffers.foldl
    (fun (t : Nat × Nat × Nat) (b : BufferDescription) =>
      (add64 t.1 b.length,
       if b.isIndex then add64 t.2.1 b.length else t.2.1,
       if b.isVertex then add64 t.2.2 b.length else t.2.2))
    (0, 0, 0)

/-- The accumulators of the texture loop of `GenerateReport`. -/
structure TextureTotals where
  RTBytes : Nat
  TexBytes : Nat
  LargeTexBytes : Nat
  numRTs : Nat
  texW : F32
  texH : F32
  largeTexW : F32
  largeTexH : F32
  texCount : Nat
  largeTexCount : Nat

/-- One iteration of the texture loop of `GenerateReport`. -/
def textureStep (a : TextureTotals) (t : TextureDescription) : TextureTotals :=
  if t.ColorTarget || t.DepthTarget then
    { a with numRTs := a.numRTs + 1, RTBytes := add64 a.RTBytes t.byteSize }
  else
    let a := { a with
      texW := F32.add a.texW (F32.ofNat t.width)
      texH := F32.add a.texH (F32.ofNat t.height)
      texCount := a.texCount + 1
      TexBytes := add64 a.TexBytes t.byteSize }
    if t.width > 32 ∧ t.height > 32 then
      { a with
        largeTexW := F32.add a.largeTexW (F32.ofNat t.width)
        largeTexH := F32.add a.largeTexH (F32.ofNat t.height)
        largeTexCount := a.largeTexCount + 1
        LargeTexBytes := add64 a.LargeTexBytes t.byteSize }
    else a

/-- The texture loop of `GenerateReport`. -/
def textureTotals (textures : List TextureDescription) : TextureTotals :=
  textures.foldl textureStep
    { RTBytes := 0, TexBytes := 0, LargeTexBytes := 0, numRTs := 0
      texW := F32.fin 0, texH := F32.fin 0, largeTexW := F32.fin 0, largeTexH := F32.fin 0
      texCount := 0, largeTexCount := 0 }

/-- The loop `for(const DrawcallDescription &d : curDraws)
CountContributingEvents(d, ...)` of `GenerateReport`, from zeroed counters. -/
def countAllEvents (curDraws : List DrawcallDescription) : EventCounts :=
  CountContributingEventsList curDraws { drawCount := 0, dispatchCount := 0, diagnosticCount := 0 }

/-- The value `numAPIcalls` of `GenerateReport`. -/
def numAPIcalls (lastDraw : DrawcallDescription) (c : EventCounts) : Nat :=
  sub32 lastDraw.eventID (add32 (add32 c.drawCount c.dispatchCount) c.diagnosticCount)

/-- The constant `1024.0f * 1024.0f`. -/
def MB : F32 := F32.mul (F32.ofNat 1024) (F32.ofNat 1024)

/-- The string `header` of `GenerateReport`: the format text with its six
place markers filled by the chain of `arg` calls, the file name first. -/
def reportHeader (F : Formatting) (ctx : ICaptureContext) : String :=
  let frameInfo := ctx.FrameInfo
  let compressedMB := F32.div (F32.ofNat frameInfo.compressedFileSize) MB
  let uncompressedMB := F32.div (F32.ofNat frameInfo.uncompressedFileSize) MB
  let compressRatio := F32.div uncompressedMB compressedMB
  let persistentMB := F32.div (F32.ofNat frameInfo.persistentSize) MB
  let initDataMB := F32.div (F32.ofNat frameInfo.initDataSize) MB
  let header := "Stats for %1.\n\nFile size: %2MB (%3MB uncompressed, compression ratio %4:1)\n"
    ++ "Persistent Data (approx): %5MB, Frame-initial data (approx): %6MB\n"
  let header := F.arg header (F.fileName ctx.LogFilename)
  let header := F.arg header (F.argFixed compressedMB)
  let header := F.arg header (F.argFixed uncompressedMB)
  let header := F.arg header (F.argFixed compressRatio)
  let header := F.arg header (F.argFixed persistentMB)
  F.arg header (F.argFixed initDataMB)

/-- The strings `drawList`, `calls`, `ratio`, `textures`, `buffers` and `load`
of `GenerateReport`, in the order in which they are appended after the
summary heading. -/
def summaryParts (F : Formatting) (ctx : ICaptureContext) (lastDraw : DrawcallDescription) :
    List String :=
  let c := countAllEvents ctx.CurDrawcalls
  let numAPI := numAPIcalls lastDraw c
  let numTextures := ctx.GetTextures.length
  let numBuffers := ctx.GetBuffers.length
  let (BufBytes, IBBytes, VBBytes) := bufferTotals ctx.GetBuffers
  let t := textureTotals ctx.GetTextures
  let texW := F32.div t.texW (F32.ofNat t.texCount)
  let texH := F32.div t.texH (F32.ofNat t.texCount)
  let largeTexW := F32.div t.largeTexW (F32.ofNat t.largeTexCount)
  let largeTexH := F32.div t.largeTexH (F32.ofNat t.largeTexCount)
  let drawList := "Draw calls: " ++ argNat c.drawCount ++ "\nDispatch calls: "
    ++ argNat c.dispatchCount ++ "\n"
  let calls := AppendAPICallSummary F ctx.FrameInfo numAPI
  let ratio := "API:Draw/Dispatch call ratio: "
    ++ F.argFloat (F32.div (F32.ofNat numAPI) (F32.ofNat (add32 c.drawCount c.dispatchCount)))
    ++ "\n\n"
  let textures := argNat numTextures ++ " Textures - "
    ++ F.argFixed (F32.div (F32.ofNat t.TexBytes) MB) ++ " MB ("
    ++ F.argFixed (F32.div (F32.ofNat t.LargeTexBytes) MB) ++ " MB over 32x32), "
    ++ argNat t.numRTs ++ " RTs - " ++ F.argFixed (F32.div (F32.ofNat t.RTBytes) MB)
    ++ " MB.\nAvg. tex dimension: " ++ F.argFloat texW ++ "x" ++ F.argFloat texH ++ " ("
    ++ F.argFloat largeTexW ++ "x" ++ F.argFloat largeTexH ++ " over 32x32)\n"
  let buffers := argNat numBuffers ++ " Buffers - " ++ F.argFixed (F32.div (F32.ofNat BufBytes) MB)
    ++ " MB total " ++ F.argFixed (F32.div (F32.ofNat IBBytes) MB) ++ " MB IBs "
    ++ F.argFixed (F32.div (F32.ofNat VBBytes) MB) ++ " MB VBs.\n"
  let load := F.argFixed (F32.div
      (F32.ofNat (add64 (add64 t.TexBytes BufBytes) t.RTBytes)) MB)
    ++ " MB - Grand total GPU buffer + texture load.\n"
  [drawList, calls, ratio, textures, buffers, load]

/-- The log of `GenerateReport` before the call of `AppendDetailedInformation`:
header, summary heading and the summary strings. -/
def summaryLog (F : Formatting) (ctx : ICaptureContext) (lastDraw : DrawcallDescription) :
    String :=
  (summaryParts F ctx lastDraw).foldl (fun log part => log ++ part)
    ("" ++ reportHeader F ctx ++ "\n*** Summary ***\n\n")

/-- The function `GenerateReport`; the call `curDraws.back()` reads the last
top-level drawcall. -/
def GenerateReport (F : Formatting) (ctx : ICaptureContext) : Option String := do
  let back ← ctx.CurDrawcalls.getLast?
  let lastDraw := lastLeaf back
  AppendDetailedInformation F (summaryLog F ctx lastDraw) ctx.FrameInfo

/-! ## Auxiliary definitions

Pure forms of the loops, the quantities named in the statements, and
example data. -/

/-- The single-precision product `ratio * s.length()` of `SliceForString` for
the 128-character string. -/
def barProduct (value maximum : Nat) : ℚ :=
  f32Round (f32Round (f32Round value / f32Round maximum) * 128)

/-- One step of the scanning loop on a bucket that is in range. -/
def scanStep (array : List Nat) (st : Nat × Nat) (o : Nat) : Nat × Nat :=
  (max st.1 (array.getD o 0), if array.getD o 0 > 0 then o else st.2)

/-- The pure result of the scanning loop. -/
def scanResult (array : List Nat) (start : Nat) : Nat × Nat :=
  (List.range' start (array.length - start)).foldl (scanStep array) (0, 0)

/-- The value of `SliceForString(Stars, c, m)` when the conversion to `int`
is defined. -/
def barSlice (c m : Nat) : Int :=
  if c = 0 ∨ m = 0 then 0 else max 1 ⌊barProduct c m⌋

/-- The line printed for bucket `o`, given the label text of the bucket. -/
def barLine (array : List Nat) (maxCount : Nat) (label : Nat → String) (o : Nat) : String :=
  histogramLine (label o) (barSlice (array.getD o 0) maxCount) (array.getD o 0)

/-- The label of `CreateSimpleIntegerHistogram`: the index in a field of width 4. -/
def indexLabel (o : Nat) : String := argWidth (argNat o) 4

/-- The bar length in the words of the specification:
`max(1, round(c / m * 128))`, rounding to the nearest integer. -/
def specBarLength (c m : Nat) : Int := max 1 (round ((c : ℚ) / (m : ℚ) * 128))

/-- The test of the diagnostic mask: one of `SetMarker`, `PushMarker`,
`PopMarker` is set. -/
def isDiagnostic (f : DrawFlags) : Bool := f.SetMarker || f.PushMarker || f.PopMarker

mutual
/-- Number of nodes of a drawcall tree, root included, whose flags satisfy `p`. -/
def nodeCount (p : DrawFlags → Bool) : DrawcallDescription → Nat
  | .mk _ flags children => (if p flags then 1 else 0) + nodeCountList p children
/-- Number of nodes of a list of drawcall trees whose flags satisfy `p`. -/
def nodeCountList (p : DrawFlags → Bool) : List DrawcallDescription → Nat
  | [] => 0
  | d :: ds => nodeCount p d + nodeCountList p ds
end

/-- The counters `c` advanced by `a`, `b` and `d` in `uint32_t` arithmetic. -/
def advance (c : EventCounts) (a b d : Nat) : EventCounts :=
  { drawCount := (c.drawCount + a) % 2 ^ 32
    dispatchCount := (c.dispatchCount + b) % 2 ^ 32
    diagnosticCount := (c.diagnosticCount + d) % 2 ^ 32 }

/-- The flags with no bit set. -/
def NoFlags : DrawFlags :=
  { SetMarker := false, PushMarker := false, PopMarker := false
    Drawcall := false, Dispatch := false }

/-- The result of `dst[l] += src[l]` over the buckets of `src`, when they all
exist in `dst`. -/
def addedBuckets (dst src : List Nat) : List Nat :=
  (List.range dst.length).map
    (fun i => if i < src.length then add32 (dst.getD i 0) (src.getD i 0) else dst.getD i 0)

/-- State of the accumulation loop after the first `n` buckets of `src`. -/
def addedUpTo (dst src : List Nat) (n : Nat) : List Nat :=
  (List.range dst.length).map
    (fun i => if i < n then add32 (dst.getD i 0) (src.getD i 0) else dst.getD i 0)

/-- Buckets accumulated from `init` over a list of arrays, in pure form. -/
def sumBuckets (init : List Nat) (arrays : List (List Nat)) : List Nat :=
  arrays.foldl addedBuckets init

/-- Entry `s` of `totalConstantsPerStage`, in pure form. -/
def stageConstants (stats : FrameStatistics) (s : Nat) : ConstantBindStats :=
  { calls := add32 0 (stats.constants s).calls
    sets := add32 0 (stats.constants s).sets
    nulls := add32 0 (stats.constants s).nulls
    bindslots := addedBuckets (createArray (stats.constants 0).bindslots.length)
      (stats.constants s).bindslots
    sizes := addedBuckets (createArray (stats.constants 0).sizes.length)
      (stats.constants s).sizes }

/-- One step of the accumulation of `totalConstantsForAllStages`, in pure form. -/
def addConstants (t p : ConstantBindStats) : ConstantBindStats :=
  { calls := add32 t.calls p.calls
    sets := add32 t.sets p.sets
    nulls := add32 t.nulls p.nulls
    bindslots := addedBuckets t.bindslots p.bindslots
    sizes := addedBuckets t.sizes p.sizes }

/-- Entry `s` of `totalSamplersPerStage`, in pure form. -/
def stageSamplers (stats : FrameStatistics) (s : Nat) : SlotBindStats :=
  { calls := add32 0 (stats.samplers s).calls
    sets := add32 0 (stats.samplers s).sets
    nulls := add32 0 (stats.samplers s).nulls
    bindslots := addedBuckets (createArray (stats.samplers 0).bindslots.length)
      (stats.samplers s).bindslots }

/-- One step of the accumulation of `totalSamplersForAllStages`, in pure form. -/
def addSamplers (t p : SlotBindStats) : SlotBindStats :=
  { calls := add32 t.calls p.calls
    sets := add32 t.sets p.sets
    nulls := add32 t.nulls p.nulls
    bindslots := addedBuckets t.bindslots p.bindslots }

/-- Entry `s` of `totalResourcesPerStage`, in pure form. -/
def stageResources (stats : FrameStatistics) (s : Nat) : ResourceBindStats :=
  { calls := add32 0 (stats.resources s).calls
    sets := add32 0 (stats.resources s).sets
    nulls := add32 0 (stats.resources s).nulls
    types := addedBuckets (createArray (stats.resources 0).types.length)
      (stats.resources s).types
    bindslots := addedBuckets (createArray (stats.resources 0).bindslots.length)
      (stats.resources s).bindslots }

/-- One step of the accumulation of `totalResourcesForAllStages`, in pure form. -/
def addResources (t p : ResourceBindStats) : ResourceBindStats :=
  { calls := add32 t.calls p.calls
    sets := add32 t.sets p.sets
    nulls := add32 t.nulls p.nulls
    types := addedBuckets t.types p.types
    bindslots := addedBuckets t.bindslots p.bindslots }

/-- Sum over the shader stages of a per-stage quantity. -/
def stageSum (F : Formatting) (f : Nat → Nat) : Nat :=
  ((List.range F.stageCount).map f).sum

/-- The value of a decimal digit. -/
def digitValue (c : Char) : Option Nat :=
  if c.isDigit then some (c.toNat - '0'.toNat) else none

/-- The number written by one or two digits at the start of the text, with
the count of digits read. -/
def markerDigits : List Char → Option (Nat × Nat)
  | [] => none
  | [d] => (digitValue d).map (fun a => (a, 1))
  | d :: e :: _ =>
    match digitValue d, digitValue e with
    | some a, some b => some (10 * a + b, 2)
    | some a, none => some (a, 1)
    | none, _ => none

/-- The place marker that starts right after a `%`: an optional `L` and one
or two digits; its number and the count of characters it takes after the `%`. -/
def markerAt : List Char → Option (Nat × Nat)
  | 'L' :: rest => (markerDigits rest).map (fun p => (p.1, p.2 + 1))
  | cs => markerDigits cs

/-- The lowest number of a place marker of the text; `skip` characters are
passed over first. -/
def lowestMarker : Nat → List Char → Option Nat
  | _, [] => none
  | skip + 1, _ :: cs => lowestMarker skip cs
  | 0, c :: cs =>
    if c = '%' then
      match markerAt cs with
      | some (n, len) =>
        match lowestMarker len cs with
        | some k => some (min n k)
        | none => some n
      | none => lowestMarker 0 cs
    else lowestMarker 0 cs

/-- The text with every place marker of number `n` replaced by `a`. -/
def replaceMarker (n : Nat) (a : List Char) : Nat → List Char → List Char
  | _, [] => []
  | skip + 1, _ :: cs => replaceMarker n a skip cs
  | 0, c :: cs =>
    if c = '%' then
      match markerAt cs with
      | some (k, len) =>
        if k = n then a ++ replaceMarker n a len cs else c :: replaceMarker n a 0 cs
      | none => c :: replaceMarker n a 0 cs
    else c :: replaceMarker n a 0 cs

/-- Qt `QString::arg(a)` on texts of ASCII characters, as used by the example
formatting: every occurrence of the lowest-numbered place marker is replaced
by `a`, and a text without place marker is left as it is. -/
def QStringArg (s a : String) : String :=
  match lowestMarker 0 s.data with
  | none => s
  | some n => String.mk (replaceMarker n a.data 0 s.data)

/-- Formatting routines used in examples: fixed texts and `n` shader stages. -/
def exampleFormatting (n : Nat) : Formatting :=
  { Format := fun _ => "1"
    argFixed := fun _ => "0.00"
    argFloat := fun _ => "0"
    ToQStr := fun _ => "Texture2D"
    Abbrev := fun _ => "VS"
    fileName := fun path => path
    arg := QStringArg
    stageCount := n }

/-- Frame statistics with every counter zero and every bucket array empty. -/
def zeroStatistics : FrameStatistics :=
  { recorded := true
    draws := { calls := 0, instanced := 0, indirect := 0, counts := [] }
    dispatches := { calls := 0, indirect := 0 }
    indices := { calls := 0, sets := 0, nulls := 0 }
    layouts := { calls := 0, sets := 0, nulls := 0 }
    vertices := { calls := 0, sets := 0, nulls := 0, bindslots := [] }
    shaders := fun _ => { calls := 0, sets := 0, nulls := 0, redundants := 0 }
    constants := fun _ => { calls := 0, sets := 0, nulls := 0, bindslots := [], sizes := [] }
    samplers := fun _ => { calls := 0, sets := 0, nulls := 0, bindslots := [] }
    resources := fun _ => { calls := 0, sets := 0, nulls := 0, types := [], bindslots := [] }
    updates := { calls := 0, clients := 0, servers := 0, types := [], sizes := [] }
    blends := { calls := 0, sets := 0, nulls := 0, redundants := 0 }
    depths := { calls := 0, sets := 0, nulls := 0, redundants := 0 }
    rasters := { calls := 0, sets := 0, nulls := 0, redundants := 0, viewports := [], rects := [] }
    outputs := { calls := 0, sets := 0, nulls := 0, bindslots := [] } }

/-- Two stages whose shader call counts are `2 ^ 32 - 1` and 1. -/
def overflowShaders : FrameStatistics :=
  { zeroStatistics with
    shaders := fun s =>
      { calls := if s = 0 then 4294967295 else 1, sets := 0, nulls := 0, redundants := 0 } }

/-- Two stages whose sampler slot histograms are `[2 ^ 32 - 1, 5]` and `[1, 7]`. -/
def overflowSamplers : FrameStatistics :=
  { zeroStatistics with
    samplers := fun s =>
      { calls := 0, sets := 0, nulls := 0
        bindslots := if s = 0 then [4294967295, 5] else [1, 7] } }

/-- A section builder appends: its result on a log is the log followed by
its result on the empty log. -/
def Appends (f : String → FrameDescription → Option String) : Prop :=
  ∀ (log : String) (frameInfo : FrameDescription),
    f log frameInfo = (f "" frameInfo).map (fun sec => log ++ sec)

/-- The builders of a list applied one after the other to the log. -/
def runBuilders (bs : List (String → FrameDescription → Option String))
    (frameInfo : FrameDescription) (log : String) : Option String :=
  bs.foldlM (fun (l : String) (b : String → FrameDescription → Option String) =>
    b l frameInfo) log

/-- The text has no asterisk. -/
def starFree (s : String) : Prop := '*' ∉ s.data

/-- Frame statistics with every counter zero and one zero bucket per array. -/
def oneBucketStatistics : FrameStatistics :=
  { recorded := true
    draws := { calls := 0, instanced := 0, indirect := 0, counts := [0] }
    dispatches := { calls := 0, indirect := 0 }
    indices := { calls := 0, sets := 0, nulls := 0 }
    layouts := { calls := 0, sets := 0, nulls := 0 }
    vertices := { calls := 0, sets := 0, nulls := 0, bindslots := [0] }
    shaders := fun _ => { calls := 0, sets := 0, nulls := 0, redundants := 0 }
    constants := fun _ => { calls := 0, sets := 0, nulls := 0, bindslots := [0], sizes := [0] }
    samplers := fun _ => { calls := 0, sets := 0, nulls := 0, bindslots := [0] }
    resources := fun _ => { calls := 0, sets := 0, nulls := 0, types := [0], bindslots := [0] }
    updates := { calls := 0, clients := 0, servers := 0, types := [0], sizes := [0] }
    blends := { calls := 0, sets := 0, nulls := 0, redundants := 0 }
    depths := { calls := 0, sets := 0, nulls := 0, redundants := 0 }
    rasters := { calls := 0, sets := 0, nulls := 0, redundants := 0, viewports := [0], rects := [0] }
    outputs := { calls := 0, sets := 0, nulls := 0, bindslots := [0] } }

/-- A capture with one drawcall, no resource and the given statistics, used
in examples. -/
def exampleContext (stats : FrameStatistics) : ICaptureContext :=
  { CurDrawcalls := [.mk 1 { NoFlags with Drawcall := true } []]
    GetTextures := []
    GetBuffers := []
    FrameInfo :=
      { stats := stats
        compressedFileSize := 0
        uncompressedFileSize := 0
        persistentSize := 0
        initDataSize := 0 }
    LogFilename := "capture.rdc" }

/-- Statistics that were not recorded. -/
def notRecorded : FrameStatistics := { zeroStatistics with recorded := false }

/-- The string `drawList` of `GenerateReport`. -/
def drawListText (c : EventCounts) : String :=
  "Draw calls: " ++ argNat c.drawCount ++ "\nDispatch calls: " ++ argNat c.dispatchCount ++ "\n"

/-- The string `ratio` of `GenerateReport`. -/
def ratioText (F : Formatting) (numAPI : Nat) (c : EventCounts) : String :=
  "API:Draw/Dispatch call ratio: "
    ++ F.argFloat (F32.div (F32.ofNat numAPI) (F32.ofNat (add32 c.drawCount c.dispatchCount)))
    ++ "\n\n"

/-- The string `textures` of `GenerateReport`, from the accumulators of the
texture loop. -/
def texturesText (F : Formatting) (numTextures : Nat) (t : TextureTotals) : String :=
  argNat numTextures ++ " Textures - "
    ++ F.argFixed (F32.div (F32.ofNat t.TexBytes) MB) ++ " MB ("
    ++ F.argFixed (F32.div (F32.ofNat t.LargeTexBytes) MB) ++ " MB over 32x32), "
    ++ argNat t.numRTs ++ " RTs - " ++ F.argFixed (F32.div (F32.ofNat t.RTBytes) MB)
    ++ " MB.\nAvg. tex dimension: " ++ F.argFloat (F32.div t.texW (F32.ofNat t.texCount)) ++ "x"
    ++ F.argFloat (F32.div t.texH (F32.ofNat t.texCount)) ++ " ("
    ++ F.argFloat (F32.div t.largeTexW (F32.ofNat t.largeTexCount)) ++ "x"
    ++ F.argFloat (F32.div t.largeTexH (F32.ofNat t.largeTexCount)) ++ " over 32x32)\n"

/-- The string `buffers` of `GenerateReport`, from the totals of the buffer loop. -/
def buffersText (F : Formatting) (numBuffers : Nat) (b : Nat × Nat × Nat) : String :=
  argNat numBuffers ++ " Buffers - " ++ F.argFixed (F32.div (F32.ofNat b.1) MB)
    ++ " MB total " ++ F.argFixed (F32.div (F32.ofNat b.2.1) MB) ++ " MB IBs "
    ++ F.argFixed (F32.div (F32.ofNat b.2.2) MB) ++ " MB VBs.\n"

/-- The string `load` of `GenerateReport`. -/
def loadText (F : Formatting) (t : TextureTotals) (b : Nat × Nat × Nat) : String :=
  F.argFixed (F32.div (F32.ofNat (add64 (add64 t.TexBytes b.1) t.RTBytes)) MB)
    ++ " MB - Grand total GPU buffer + texture load.\n"

/-- The text of `AppendAPICallSummary` when the statistics were recorded. -/
def apiCallSummaryText (F : Formatting) (stats : FrameStatistics) (numAPICalls : Nat) : String :=
  "" ++ ("API calls: " ++ argNat numAPICalls ++ "\n")
    ++ ("\tIndex/vertex bind calls: "
      ++ argNat (add32 (add32 stats.indices.calls stats.vertices.calls) stats.layouts.calls)
      ++ "\n")
    ++ ("\tConstant bind calls: "
      ++ argNat (stageSum F (fun s => (stats.constants s).calls) % 2 ^ 32) ++ "\n")
    ++ ("\tSampler bind calls: "
      ++ argNat (stageSum F (fun s => (stats.samplers s).calls) % 2 ^ 32) ++ "\n")
    ++ ("\tResource bind calls: "
      ++ argNat (stageSum F (fun s => (stats.resources s).calls) % 2 ^ 32) ++ "\n")
    ++ ("\tShader set calls: "
      ++ argNat (stageSum F (fun s => (stats.shaders s).calls) % 2 ^ 32) ++ "\n")
    ++ ("\tBlend set calls: " ++ argNat stats.blends.calls ++ "\n")
    ++ ("\tDepth/stencil set calls: " ++ argNat stats.depths.calls ++ "\n")
    ++ ("\tRasterization set calls: " ++ argNat stats.rasters.calls ++ "\n")
    ++ ("\tResource update calls: " ++ argNat stats.updates.calls ++ "\n")
    ++ ("\tOutput set calls: " ++ argNat stats.outputs.calls ++ "\n")

/-- The label of a line of the instance-count histogram: the overflow mark
for the last index of the array, two spaces otherwise, then the index in a
field of width 2. -/
def instanceLabel (maximum s : Nat) : String :=
  (if s + 1 = maximum then ">=" else "  ") ++ argWidth (argNat s) 2

/-- The heading and the totals line of the draw section. -/
def drawHeading (draws : DrawcallStats) : String :=
  "\n*** Draw Statistics ***\n\n" ++ ("Total calls: " ++ argNat draws.calls ++ ", instanced: "
    ++ argNat draws.instanced ++ ", indirect: " ++ argNat draws.indirect ++ "\n")

/-- Draw statistics with one instanced draw and the instance counts
`[0, 2, 0, 1]`. -/
def instancedDraws : FrameDescription :=
  { stats :=
      { zeroStatistics with
        draws := { calls := 3, instanced := 3, indirect := 0, counts := [0, 2, 0, 1] } }
    compressedFileSize := 0
    uncompressedFileSize := 0
    persistentSize := 0
    initDataSize := 0 }

/-- The label of a line of a resource-type histogram: the name of the type
in a field of width 20. -/
def typeLabel (F : Formatting) (s : Nat) : String := argWidth (F.ToQStr s) 20

/-- The heading and the totals line of the update section. -/
def updateHeading (updates : ResourceUpdateStats) : String :=
  "\n*** Resource Update Statistics ***\n\n" ++ ("Total calls: " ++ argNat (add32 0 updates.calls)
    ++ ", client-updated memory: " ++ argNat (add32 0 updates.clients)
    ++ ", server-updated memory: " ++ argNat (add32 0 updates.servers) ++ "\n")

/-- The frame description with the update-type histogram replaced. -/
def withUpdateTypes (frameInfo : FrameDescription) (types : List Nat) : FrameDescription :=
  { frameInfo with
    stats := { frameInfo.stats with updates := { frameInfo.stats.updates with types := types } } }

/-- The label of a line of the update-size histogram. -/
def sizeLabel (F : Formatting) (s : Nat) : Option String :=
  (Pow2IndexAsReadable F s).map (fun l => argWidth l 8)

/-- A frame whose update-type histogram and whose resource-type histogram of
every stage are `[5, 1, 0, 2]`. -/
def typedFrame : FrameDescription :=
  { stats :=
      { zeroStatistics with
        resources := fun _ =>
          { calls := 0, sets := 0, nulls := 0, types := [5, 1, 0, 2], bindslots := [1] }
        updates := { calls := 0, clients := 0, servers := 0, types := [5, 1, 0, 2], sizes := [1] } }
    compressedFileSize := 0
    uncompressedFileSize := 0
    persistentSize := 0
    initDataSize := 0 }

/-- The test `t.creationFlags & (ColorTarget | DepthTarget)` of the texture loop. -/
def isRenderTarget (t : TextureDescription) : Bool := t.ColorTarget || t.DepthTarget

/-- The textures the loop counts as large: not a render target, and both
dimensions above 32. -/
def isLargeTexture (t : TextureDescription) : Bool :=
  !isRenderTarget t && (decide (t.width > 32) && decide (t.height > 32))

/-- A render target of 64 by 64 and one small and one large texture. -/
def exampleTextures : List TextureDescription :=
  [ { ColorTarget := true, DepthTarget := false, width := 64, height := 64, byteSize := 16384 },
    { ColorTarget := false, DepthTarget := false, width := 16, height := 64, byteSize := 4096 },
    { ColorTarget := false, DepthTarget := false, width := 64, height := 64, byteSize := 16384 } ]

/-- The flags of a node that is a marker of the three kinds and a draw. -/
def markersAndDraw : DrawFlags :=
  { SetMarker := true, PushMarker := true, PopMarker := true, Drawcall := true
    Dispatch := false }

/-- Two lists of drawcall trees that differ only in the order in which
children are listed, at the top level or below any node: the closure of
swapping two neighbours under reordering inside the children of a node,
reordering the rest of a list, and composition. -/
inductive Reorder : List DrawcallDescription → List DrawcallDescription → Prop where
  | nil : Reorder [] []
  | node (eventID : Nat) (flags : DrawFlags) (cs cs2 ds ds2 : List DrawcallDescription) :
      Reorder cs cs2 → Reorder ds ds2 →
      Reorder (DrawcallDescription.mk eventID flags cs :: ds)
        (DrawcallDescription.mk eventID flags cs2 :: ds2)
  | swap (a b : DrawcallDescription) (ds : List DrawcallDescription) :
      Reorder (a :: b :: ds) (b :: a :: ds)
  | trans (l1 l2 l3 : List DrawcallDescription) : Reorder l1 l2 → Reorder l2 l3 → Reorder l1 l3

/-- A draw node with a dispatch child and a marker child, followed by a node
without flags. -/
def orderedDraws : List DrawcallDescription :=
  [ .mk 1 { NoFlags with Drawcall := true }
      [.mk 2 { NoFlags with Dispatch := true } [], .mk 3 { NoFlags with PushMarker := true } []],
    .mk 4 NoFlags [] ]

/-- The trees of `orderedDraws` with the two top-level nodes exchanged and the
two children exchanged. -/
def reorderedDraws : List DrawcallDescription :=
  [ .mk 4 NoFlags [],
    .mk 1 { NoFlags with Drawcall := true }
      [.mk 3 { NoFlags with PushMarker := true } [], .mk 2 { NoFlags with Dispatch := true } []] ]

mutual
/-- The height of a drawcall tree: 1 for a node without children. -/
def height : DrawcallDescription → Nat
  | .mk _ _ children => heightList children + 1
/-- The largest height of the trees of a list, 0 for the empty list. -/
def heightList : List DrawcallDescription → Nat
  | [] => 0
  | d :: ds => max (height d) (heightList ds)
end

/-- The function `CountContributingEvents` run with a bound on the depth of
the recursion: no result when the bound is reached. -/
def CountContributingEventsDepth :
    Nat → DrawcallDescription → EventCounts → Option EventCounts
  | 0, _, _ => none
  | depth + 1, .mk _ flags children, c =>
    children.foldlM (fun (c : EventCounts) (d : DrawcallDescription) =>
      CountContributingEventsDepth depth d c) (countNode flags c)

/-- The loop `while(!lastDraw->children.empty()) lastDraw =
&lastDraw->children.back();` run with a bound on the number of tests of the
loop condition: no result when the bound is reached. -/
def lastDrawLoop : Nat → DrawcallDescription → Option DrawcallDescription
  | 0, _ => none
  | steps + 1, d =>
    match d.children.getLast? with
    | none => some d
    | some c => lastDrawLoop steps c

/-- A drawcall tree of height 3: a root, a marker child, and a draw child
with a dispatch child. -/
def exampleTree : DrawcallDescription :=
  .mk 1 NoFlags
    [ .mk 2 { NoFlags with PushMarker := true } [],
      .mk 3 { NoFlags with Drawcall := true } [.mk 4 { NoFlags with Dispatch := true } []] ]

/-- The heading and the totals line of the output section. -/
def outputHeading (outputs : SlotBindStats) : String :=
  "\n*** Output Statistics ***\n" ++ ("Output calls: " ++ argNat outputs.calls
    ++ " non-null sets: " ++ argNat outputs.sets ++ ", null sets: " ++ argNat outputs.nulls
    ++ "\n")

/-- The heading and the three totals lines of the input assembler section. -/
def inputAssemblerHeading (stats : FrameStatistics) : String :=
  "\n*** Input Assembler Statistics ***\n\n"
    ++ ("Total index calls: " ++ argNat stats.indices.calls ++ ", non-null index sets: "
      ++ argNat stats.indices.sets ++ ", null index sets: " ++ argNat stats.indices.nulls ++ "\n")
    ++ ("Total layout calls: " ++ argNat stats.layouts.calls ++ ", non-null layout sets: "
      ++ argNat stats.layouts.sets ++ ", null layout sets: " ++ argNat stats.layouts.nulls ++ "\n")
    ++ ("Total vertex calls: " ++ argNat stats.vertices.calls ++ ", non-null vertex sets: "
      ++ argNat stats.vertices.sets ++ ", null vertex sets: " ++ argNat stats.vertices.nulls
      ++ "\n")

/-- The heading and the totals line of the rasterization section. -/
def rasterizationHeading (rasters : RasterizationStats) : String :=
  "\n*** Rasterization Statistics ***\n" ++ ("Rasterization calls: " ++ argNat rasters.calls
    ++ " non-null sets: " ++ argNat rasters.sets ++ ", null (default) sets: "
    ++ argNat rasters.nulls ++ ", redundant sets: " ++ argNat rasters.redundants ++ "\n")

/-- A frame whose output slot histogram is `[2, 2]`: two calls that bound no
output and two that bound one. -/
def outputsFrame : FrameDescription :=
  { stats :=
      { zeroStatistics with
        outputs := { calls := 4, sets := 4, nulls := 0, bindslots := [2, 2] } }
    compressedFileSize := 0
    uncompressedFileSize := 0
    persistentSize := 0
    initDataSize := 0 }

/-- A capture without any drawcall. -/
def emptyCapture : ICaptureContext :=
  { CurDrawcalls := []
    GetTextures := []
    GetBuffers := []
    FrameInfo :=
      { stats := notRecorded
        compressedFileSize := 0
        uncompressedFileSize := 0
        persistentSize := 0
        initDataSize := 0 }
    LogFilename := "capture.rdc" }

/-- The counter `numConstantSets` of `AppendAPICallSummary`. -/
def numConstantSets (F : Formatting) (stats : FrameStatistics) : Nat :=
  (List.range F.stageCount).foldl (fun n s => add32 n (stats.constants s).calls) 0

/-- The counter `numSamplerSets` of `AppendAPICallSummary`. -/
def numSamplerSets (F : Formatting) (stats : FrameStatistics) : Nat :=
  (List.range F.stageCount).foldl (fun n s => add32 n (stats.samplers s).calls) 0

/-- The counter `numResourceSets` of `AppendAPICallSummary`. -/
def numResourceSets (F : Formatting) (stats : FrameStatistics) : Nat :=
  (List.range F.stageCount).foldl (fun n s => add32 n (stats.resources s).calls) 0

/-- The counter `numShaderSets` of `AppendAPICallSummary`. -/
def numShaderSets (F : Formatting) (stats : FrameStatistics) : Nat :=
  (List.range F.stageCount).foldl (fun n s => add32 n (stats.shaders s).calls) 0

/-- A frame with the statistics `overflowShaders`. -/
def overflowFrame : FrameDescription :=
  { stats := overflowShaders
    compressedFileSize := 0
    uncompressedFileSize := 0
    persistentSize := 0
    initDataSize := 0 }

/-- A frame with two stages of sampler binds: 3 calls and 4 calls, one slot
bucket each. -/
def samplerCallsFrame : FrameDescription :=
  { stats :=
      { zeroStatistics with
        samplers := fun s =>
          { calls := if s = 0 then 3 else 4, sets := 0, nulls := 0, bindslots := [0] } }
    compressedFileSize := 0
    uncompressedFileSize := 0
    persistentSize := 0
    initDataSize := 0 }

/-- A forest of two top-level drawcalls: a marker with a draw and a dispatch
below it, and a node without flags with a draw and, below a second draw, a
dispatch with event ID 12, which is the last leaf of the last top-level
drawcall. -/
def forestDraws : List DrawcallDescription :=
  [ .mk 3 { NoFlags with PushMarker := true }
      [.mk 1 { NoFlags with Drawcall := true } [], .mk 2 { NoFlags with Dispatch := true } []],
    .mk 9 NoFlags
      [ .mk 5 { NoFlags with Drawcall := true } [],
        .mk 8 { NoFlags with Drawcall := true }
          [.mk 12 { NoFlags with Dispatch := true } []] ] ]

/-- A capture with the drawcalls `forestDraws`, no resource, and recorded
statistics that are all zero with one bucket per array. -/
def forestContext : ICaptureContext :=
  { CurDrawcalls := forestDraws
    GetTextures := []
    GetBuffers := []
    FrameInfo :=
      { stats := oneBucketStatistics
        compressedFileSize := 0
        uncompressedFileSize := 0
        persistentSize := 0
        initDataSize := 0 }
    LogFilename := "capture.rdc" }

/-- Formatting routines used in examples that write `nan` and `inf` for the
non-finite values of `arg(float)`. -/
def nanFormatting : Formatting :=
  { exampleFormatting 1 with
    argFloat := fun x =>
      match x with
      | F32.nan => "nan"
      | F32.inf => "inf"
      | F32.fin _ => "0" }

/-- A capture with one drawcall, statistics that were not recorded, and one
texture, a render target of 64 by 64. -/
def targetOnlyCapture : ICaptureContext :=
  { exampleContext notRecorded with
    GetTextures :=
      [{ ColorTarget := true, DepthTarget := false, width := 64, height := 64, byteSize := 16384 }] }

/-- The heading each section builder appends first, in the order in which
`AppendDetailedInformation` calls the builders. -/
def sectionHeadings : List String :=
  [ "\n*** Draw Statistics ***\n\n", "\n*** Dispatch Statistics ***\n\n",
    "\n*** Input Assembler Statistics ***\n\n", "\n*** Shader Set Statistics ***\n\n",
    "\n*** Constant Bind Statistics ***\n\n", "\n*** Sampler Bind Statistics ***\n\n",
    "\n*** Resource Bind Statistics ***\n\n", "\n*** Blend Statistics ***\n",
    "\n*** Depth Stencil Statistics ***\n", "\n*** Rasterization Statistics ***\n",
    "\n*** Resource Update Statistics ***\n\n", "\n*** Output Statistics ***\n" ]

/-- The titles of the twelve detail sections, without the line breaks around
them. -/
def sectionTitles : List String :=
  [ "*** Draw Statistics ***", "*** Dispatch Statistics ***",
    "*** Input Assembler Statistics ***", "*** Shader Set Statistics ***",
    "*** Constant Bind Statistics ***", "*** Sampler Bind Statistics ***",
    "*** Resource Bind Statistics ***", "*** Blend Statistics ***",
    "*** Depth Stencil Statistics ***", "*** Rasterization Statistics ***",
    "*** Resource Update Statistics ***", "*** Output Statistics ***" ]

/-- A section builder starts its section with a heading: whatever it
returns is the log, the heading and further text. -/
def StartsSection (f : String → FrameDescription → Option String) (heading : String) : Prop :=
  ∀ (log out : String) (frameInfo : FrameDescription),
    f log frameInfo = some out → ∃ rest, out = log ++ heading ++ rest

/-- A capture with one drawcall and statistics that were not recorded, whose
file is named after the heading of the draw section. -/
def headingNamedCapture : ICaptureContext :=
  { exampleContext notRecorded with LogFilename := "*** Draw Statistics ***.rdc" }

/-- Two stages of sampler binds: 3 and 4 calls, 2 and 1 non-null sets, 1 and
3 null sets, one slot bucket with count 0 each. -/
def samplerTotalsFrame : FrameDescription :=
  { stats :=
      { zeroStatistics with
        samplers := fun s =>
          { calls := if s = 0 then 3 else 4, sets := if s = 0 then 2 else 1,
            nulls := if s = 0 then 1 else 3, bindslots := [0] } }
    compressedFileSize := 0
    uncompressedFileSize := 0
    persistentSize := 0
    initDataSize := 0 }

/-! ## Properties of the single-precision model -/

theorem roundHalfEven_floor_le (t : ℚ) : ⌊t⌋ ≤ roundHalfEven t := by
  unfold roundHalfEven
  simp only
  split_ifs <;> omega

theorem roundHalfEven_le_floor_succ (t : ℚ) : roundHalfEven t ≤ ⌊t⌋ + 1 := by
  unfold roundHalfEven
  simp only
  split_ifs <;> omega

theorem roundHalfEven_intCast (n : ℤ) : roundHalfEven (n : ℚ) = n := by
  unfold roundHalfEven
  simp

theorem roundHalfEven_mono {t u : ℚ} (h : t ≤ u) : roundHalfEven t ≤ roundHalfEven u := by
  have hq : ⌊t⌋ ≤ ⌊u⌋ := Int.floor_mono h
  rcases hq.lt_or_eq with hlt | heq
  · calc roundHalfEven t ≤ ⌊t⌋ + 1 := roundHalfEven_le_floor_succ t
      _ ≤ ⌊u⌋ := hlt
      _ ≤ roundHalfEven u := roundHalfEven_floor_le u
  · unfold roundHalfEven
    simp only
    rw [heq]
    split_ifs <;> first | omega | (exfalso; linarith)

theorem roundHalfEven_nonneg {t : ℚ} (h : 0 ≤ t) : 0 ≤ roundHalfEven t :=
  le_trans (Int.floor_nonneg.mpr h) (roundHalfEven_floor_le t)

theorem f32Round_nonneg (x : ℚ) : 0 ≤ f32Round x := by
  unfold f32Round
  split_ifs with h
  · exact le_refl 0
  · push_neg at h
    have hp : (0 : ℚ) < (2 : ℚ) ^ f32UlpExp x := zpow_pos (by norm_num) _
    have : 0 ≤ roundHalfEven (x / (2 : ℚ) ^ f32UlpExp x) :=
      roundHalfEven_nonneg (div_nonneg h.le hp.le)
    exact mul_nonneg (by exact_mod_cast this) hp.le

/-- Characterisation used to evaluate `Int.log`. -/
theorem log_two_eq {x : ℚ} {e : ℤ} (hlo : (2 : ℚ) ^ e ≤ x) (hhi : x < (2 : ℚ) ^ (e + 1)) :
    Int.log 2 x = e := by
  have hx : 0 < x := lt_of_lt_of_le (zpow_pos (by norm_num) _) hlo
  have h1 : e ≤ Int.log 2 x := by
    have := (Int.zpow_le_iff_le_log (b := 2) (by norm_num) hx (x := e)).mp (by exact_mod_cast hlo)
    exact this
  have h2 : Int.log 2 x < e + 1 := by
    have := (Int.lt_zpow_iff_log_lt (b := 2) (by norm_num) hx (x := e + 1)).mp (by exact_mod_cast hhi)
    exact this
  omega

theorem two23_mul_zpow (e : ℤ) : ((2 ^ 23 : ℤ) : ℚ) * (2 : ℚ) ^ (e - 23) = (2 : ℚ) ^ e := by
  rw [zpow_sub₀ (by norm_num : (2 : ℚ) ≠ 0)]
  norm_num
  field_simp

theorem two24_mul_zpow (u : ℤ) : ((2 ^ 24 : ℤ) : ℚ) * (2 : ℚ) ^ u = (2 : ℚ) ^ (u + 24) := by
  rw [zpow_add₀ (by norm_num : (2 : ℚ) ≠ 0)]
  norm_num
  ring

theorem f32Round_two_zpow (k : ℤ) (hk : -126 ≤ k) : f32Round ((2 : ℚ) ^ k) = (2 : ℚ) ^ k := by
  have hp : (0 : ℚ) < (2 : ℚ) ^ k := zpow_pos (by norm_num) _
  have hlog : Int.log 2 ((2 : ℚ) ^ k) = k := by
    have := Int.log_zpow (R := ℚ) (b := 2) (by norm_num) k
    exact_mod_cast this
  unfold f32Round f32UlpExp
  rw [if_neg (not_le.mpr hp), hlog, max_eq_left hk]
  have h23 : (2 : ℚ) ^ k / (2 : ℚ) ^ (k - 23) = ((2 ^ 23 : ℤ) : ℚ) := by
    rw [← zpow_sub₀ (by norm_num : (2 : ℚ) ≠ 0)]
    have : k - (k - 23) = 23 := by ring
    rw [this]; norm_num
  rw [h23, roundHalfEven_intCast]
  exact two23_mul_zpow k

theorem f32Round_mono {x y : ℚ} (h : x ≤ y) : f32Round x ≤ f32Round y := by
  by_cases hx : x ≤ 0
  · have : f32Round x = 0 := by unfold f32Round; rw [if_pos hx]
    rw [this]; exact f32Round_nonneg y
  push_neg at hx
  have hy : 0 < y := lt_of_lt_of_le hx h
  have hlog : Int.log 2 x ≤ Int.log 2 y := Int.log_mono_right hx h
  have hU : f32UlpExp x ≤ f32UlpExp y := by
    unfold f32UlpExp
    have := max_le_max hlog (le_refl (-126 : ℤ))
    omega
  have h2 : (0 : ℚ) < 2 := by norm_num
  have hpx : (0 : ℚ) < (2 : ℚ) ^ f32UlpExp x := zpow_pos h2 _
  have hpy : (0 : ℚ) < (2 : ℚ) ^ f32UlpExp y := zpow_pos h2 _
  unfold f32Round
  rw [if_neg (not_le.mpr hx), if_neg (not_le.mpr hy)]
  rcases hU.lt_or_eq with hlt | heq
  · -- different binades
    have hey : -126 < Int.log 2 y ∧ f32UlpExp y = Int.log 2 y - 23 ∧
        f32UlpExp x + 24 ≤ Int.log 2 y := by
      unfold f32UlpExp at hlt ⊢
      rcases le_total (Int.log 2 y) (-126) with hc | hc
      · rw [max_eq_right hc] at hlt
        have := le_max_right (Int.log 2 x) (-126)
        omega
      · rw [max_eq_left hc] at hlt ⊢
        have := le_max_right (Int.log 2 x) (-126)
        refine ⟨by omega, rfl, by omega⟩
    obtain ⟨_, hUy, hgap⟩ := hey
    -- upper bound for x
    have hxlt : x < (2 : ℚ) ^ (f32UlpExp x + 24) := by
      have h1 := Int.lt_zpow_succ_log_self (R := ℚ) (b := 2) (by norm_num) x
      have h1' : x < (2 : ℚ) ^ (Int.log 2 x + 1) := by exact_mod_cast h1
      refine lt_of_lt_of_le h1' (zpow_le_zpow_right₀ (by norm_num) ?_)
      unfold f32UlpExp
      have := le_max_left (Int.log 2 x) (-126)
      omega
    have hxr : roundHalfEven (x / (2 : ℚ) ^ f32UlpExp x) ≤ 2 ^ 24 := by
      have hle : x / (2 : ℚ) ^ f32UlpExp x ≤ ((2 ^ 24 : ℤ) : ℚ) := by
        rw [div_le_iff₀ hpx]
        rw [two24_mul_zpow]; exact hxlt.le
      have := roundHalfEven_mono hle
      rwa [roundHalfEven_intCast] at this
    have hyr : (2 : ℤ) ^ 23 ≤ roundHalfEven (y / (2 : ℚ) ^ f32UlpExp y) := by
      have h1 := Int.zpow_log_le_self (R := ℚ) (b := 2) (by norm_num) hy
      have h1' : (2 : ℚ) ^ (Int.log 2 y) ≤ y := by exact_mod_cast h1
      have hle : ((2 ^ 23 : ℤ) : ℚ) ≤ y / (2 : ℚ) ^ f32UlpExp y := by
        rw [le_div_iff₀ hpy, hUy]
        rw [two23_mul_zpow]; exact h1'
      have := roundHalfEven_mono hle
      rwa [roundHalfEven_intCast] at this
    calc (roundHalfEven (x / (2 : ℚ) ^ f32UlpExp x) : ℚ) * (2 : ℚ) ^ f32UlpExp x
        ≤ ((2 ^ 24 : ℤ) : ℚ) * (2 : ℚ) ^ f32UlpExp x :=
          mul_le_mul_of_nonneg_right (by exact_mod_cast hxr) hpx.le
      _ = (2 : ℚ) ^ (f32UlpExp x + 24) := two24_mul_zpow _
      _ ≤ (2 : ℚ) ^ (Int.log 2 y) := zpow_le_zpow_right₀ (by norm_num) hgap
      _ = ((2 ^ 23 : ℤ) : ℚ) * (2 : ℚ) ^ f32UlpExp y := by
          rw [hUy, two23_mul_zpow]
      _ ≤ (roundHalfEven (y / (2 : ℚ) ^ f32UlpExp y) : ℚ) * (2 : ℚ) ^ f32UlpExp y :=
          mul_le_mul_of_nonneg_right (by exact_mod_cast hyr) hpy.le
  · rw [heq]
    refine mul_le_mul_of_nonneg_right ?_ hpy.le
    have : x / (2 : ℚ) ^ f32UlpExp y ≤ y / (2 : ℚ) ^ f32UlpExp y :=
      div_le_div_of_nonneg_right h hpy.le
    exact_mod_cast roundHalfEven_mono this

theorem f32Round_one : f32Round 1 = 1 := by
  have := f32Round_two_zpow 0 (by norm_num)
  simpa using this

theorem f32Round_128 : f32Round 128 = 128 := by
  have := f32Round_two_zpow 7 (by norm_num)
  norm_num at this
  exact this

theorem f32Round_two32 : f32Round 4294967296 = 4294967296 := by
  have := f32Round_two_zpow 32 (by norm_num)
  norm_num at this
  exact this

theorem F32.div_fin (a b : ℚ) : F32.div (F32.fin a) (F32.fin b) =
    if b = 0 then (if a = 0 then F32.nan else F32.inf) else F32.ofRat (a / b) := rfl

theorem F32.mul_fin (a b : ℚ) : F32.mul (F32.fin a) (F32.fin b) = F32.ofRat (a * b) := rfl

theorem F32.toInt_fin (q : ℚ) :
    F32.toInt (F32.fin q) = if q < (2 : ℚ) ^ (31 : ℕ) then some ⌊q⌋ else none := rfl

theorem Stars_length : Stars.length = 128 := by
  simp [Stars, HistogramWidth, String.length]

/-- Conversion of a non-zero `uint32_t` to `float`: finite, between 1 and `2 ^ 32`. -/
theorem ofNat_u32 {n : Nat} (h0 : 0 < n) (h : n < 2 ^ 32) :
    F32.ofNat n = F32.fin (f32Round n) ∧ 1 ≤ f32Round n ∧ f32Round n ≤ 4294967296 := by
  have h1 : (1 : ℚ) ≤ (n : ℚ) := by exact_mod_cast h0
  have h2 : (n : ℚ) ≤ 4294967296 := by
    have : n ≤ 4294967296 := by omega
    exact_mod_cast this
  have lo : 1 ≤ f32Round n := by
    have := f32Round_mono h1
    rwa [f32Round_one] at this
  have hi : f32Round n ≤ 4294967296 := by
    have := f32Round_mono h2
    rwa [f32Round_two32] at this
  refine ⟨?_, lo, hi⟩
  unfold F32.ofNat F32.ofRat
  rw [if_neg]
  intro hc
  have : (4294967296 : ℚ) < 2 ^ (128 : ℕ) := by norm_num
  linarith

theorem barProduct_le {c m : Nat} (h0 : 0 < c) (hcm : c ≤ m) (hm : m < 2 ^ 32) :
    0 ≤ barProduct c m ∧ barProduct c m ≤ 128 := by
  obtain ⟨_, hc1, _⟩ := ofNat_u32 h0 (lt_of_le_of_lt hcm hm)
  obtain ⟨_, hm1, _⟩ := ofNat_u32 (lt_of_lt_of_le h0 hcm) hm
  have hle : f32Round c ≤ f32Round m := f32Round_mono (by exact_mod_cast hcm)
  have hq : f32Round c / f32Round m ≤ 1 := by
    rw [div_le_one (by linarith)]; exact hle
  have hr : f32Round (f32Round c / f32Round m) ≤ 1 := by
    have := f32Round_mono hq
    rwa [f32Round_one] at this
  refine ⟨f32Round_nonneg _, ?_⟩
  unfold barProduct
  have : f32Round (f32Round c / f32Round m) * 128 ≤ 128 := by linarith
  have := f32Round_mono this
  rwa [f32Round_128] at this

/-- The function `SliceForString` on a bucket that does not exceed the scaling
maximum: the conversion to `int` is defined and the result lies in `1..128`. -/
theorem SliceForString_of_le {c m : Nat} (h0 : 0 < c) (hcm : c ≤ m) (hm : m < 2 ^ 32) :
    SliceForString Stars c m = some (max 1 ⌊barProduct c m⌋) ∧
      1 ≤ max 1 ⌊barProduct c m⌋ ∧ max 1 ⌊barProduct c m⌋ ≤ 128 := by
  have hm0 : 0 < m := lt_of_lt_of_le h0 hcm
  obtain ⟨ec, hc1, hc2⟩ := ofNat_u32 h0 (lt_of_le_of_lt hcm hm)
  obtain ⟨em, hm1, hm2⟩ := ofNat_u32 hm0 hm
  obtain ⟨hb0, hb1⟩ := barProduct_le h0 hcm hm
  have hle : f32Round c ≤ f32Round m := f32Round_mono (by exact_mod_cast hcm)
  have hq : f32Round c / f32Round m ≤ 1 := by
    rw [div_le_one (by linarith)]; exact hle
  have hr : f32Round (f32Round c / f32Round m) ≤ 1 := by
    have := f32Round_mono hq
    rwa [f32Round_one] at this
  have h128 : F32.ofNat 128 = F32.fin 128 := by
    have := (ofNat_u32 (n := 128) (by norm_num) (by norm_num)).1
    rw [this]
    norm_num [f32Round_128]
  have hfl : ⌊barProduct c m⌋ ≤ 128 := by
    have : ⌊barProduct c m⌋ ≤ ⌊(128 : ℚ)⌋ := Int.floor_mono hb1
    simpa using this
  refine ⟨?_, le_max_left _ _, max_le (by norm_num) hfl⟩
  unfold SliceForString
  rw [if_neg (by omega), Stars_length, ec, em, h128]
  have hdiv : F32.div (F32.fin (f32Round c)) (F32.fin (f32Round m)) =
      F32.fin (f32Round (f32Round c / f32Round m)) := by
    rw [F32.div_fin, if_neg (by linarith)]
    unfold F32.ofRat
    rw [if_neg]
    intro hcn
    have : (1 : ℚ) < 2 ^ (128 : ℕ) := by norm_num
    linarith
  have hmul : F32.mul (F32.fin (f32Round (f32Round c / f32Round m))) (F32.fin 128) =
      F32.fin (barProduct c m) := by
    rw [F32.mul_fin]
    unfold F32.ofRat
    rw [if_neg]
    · rfl
    · intro hcn
      have : (128 : ℚ) < 2 ^ (128 : ℕ) := by norm_num
      unfold barProduct at hb1
      linarith
  simp only [hdiv, hmul]
  rw [F32.toInt_fin, if_pos (by
    have : (128 : ℚ) < 2 ^ (31 : ℕ) := by norm_num
    linarith)]
  rfl

theorem SliceForString_zero (s : String) (m : Nat) : SliceForString s 0 m = some 0 := by
  simp [SliceForString]

/-- Evaluation of the rounding at a given binade and nearest integer. -/
theorem f32Round_eval {x : ℚ} (e n : ℤ) (he : -126 ≤ e) (hlo : (2 : ℚ) ^ e ≤ x)
    (hhi : x < (2 : ℚ) ^ (e + 1))
    (h1 : (n : ℚ) - 1 / 2 < x / (2 : ℚ) ^ (e - 23))
    (h2 : x / (2 : ℚ) ^ (e - 23) < (n : ℚ) + 1 / 2) :
    f32Round x = (n : ℚ) * (2 : ℚ) ^ (e - 23) := by
  have hx : 0 < x := lt_of_lt_of_le (zpow_pos (by norm_num) _) hlo
  have hlog := log_two_eq hlo hhi
  unfold f32Round f32UlpExp
  rw [if_neg (not_le.mpr hx), hlog, max_eq_left he]
  congr 1
  norm_cast
  set t := x / (2 : ℚ) ^ (e - 23) with ht
  unfold roundHalfEven
  simp only
  by_cases hc : (n : ℚ) ≤ t
  · have hf : ⌊t⌋ = n := by
      rw [Int.floor_eq_iff]; constructor <;> linarith
    rw [hf, if_pos (by linarith)]
  · push_neg at hc
    have hf : ⌊t⌋ = n - 1 := by
      rw [Int.floor_eq_iff]; push_cast; constructor <;> linarith
    rw [hf, if_neg (by push_cast; linarith), if_pos (by push_cast; linarith)]
    ring

theorem SliceForString_one_three : SliceForString Stars 1 3 = some 42 := by
  have h := (SliceForString_of_le (c := 1) (m := 3) (by norm_num) (by norm_num) (by norm_num)).1
  rw [h]
  have h3 : f32Round ((3 : ℕ) : ℚ) = 3 := by
    have := f32Round_eval (x := 3) 1 12582912 (by norm_num) (by norm_num) (by norm_num)
      (by norm_num) (by norm_num)
    rw [Nat.cast_ofNat, this]; norm_num
  have h13 : f32Round ((1 : ℚ) / 3) = 11184811 / 33554432 := by
    have := f32Round_eval (x := 1 / 3) (-2) 11184811 (by norm_num) (by norm_num) (by norm_num)
      (by norm_num) (by norm_num)
    rw [this]; norm_num
  have hp : f32Round ((11184811 : ℚ) / 33554432 * 128) = 11184811 / 262144 := by
    have := f32Round_eval (x := 11184811 / 33554432 * 128) 5 11184811 (by norm_num)
      (by norm_num) (by norm_num) (by norm_num) (by norm_num)
    rw [this]; norm_num
  have hb : barProduct 1 3 = 11184811 / 262144 := by
    unfold barProduct
    rw [Nat.cast_one, f32Round_one, h3, h13, hp]
  rw [hb]
  have : ⌊(11184811 : ℚ) / 262144⌋ = 42 := by
    rw [Int.floor_eq_iff]; constructor <;> norm_num
  rw [this]; rfl

/-! ## Properties of the histogram loops -/

theorem foldlM_scan (array : List Nat) (l : List Nat) (st : Nat × Nat)
    (hl : ∀ o ∈ l, o < array.length) :
    l.foldlM
      (fun (st : Nat × Nat) (o : Nat) => do
        let value ← array[o]?
        let maxWithValue := if value > 0 then o else st.2
        pure (max st.1 value, maxWithValue)) st
      = some (l.foldl (scanStep array) st) := by
  induction l generalizing st with
  | nil => rfl
  | cons o l ih =>
    have ho : o < array.length := hl o (List.mem_cons_self _ _)
    rw [List.foldlM_cons, List.foldl_cons]
    have hget : array[o]? = some (array.getD o 0) := by
      rw [List.getD_eq_getElem?_getD, List.getElem?_eq_getElem ho]; rfl
    rw [hget]
    simp only [Option.some_bind, Option.bind_eq_bind, Option.pure_def]
    exact ih _ (fun o' h' => hl o' (List.mem_cons_of_mem _ h'))

theorem scanBuckets_eq (array : List Nat) (start : Nat) :
    scanBuckets array start = some (scanResult array start) := by
  unfold scanBuckets scanResult
  apply foldlM_scan
  intro o ho
  rw [List.mem_range'_1] at ho
  omega

/-- Invariant of the scanning loop after the buckets `start .. start + n - 1`. -/
theorem scan_invariant (array : List Nat) (start n : Nat) :
    let r := (List.range' start n).foldl (scanStep array) (0, 0)
    (∀ o, start ≤ o → o < start + n → array.getD o 0 ≤ r.1) ∧
    (r.1 = 0 ∨ ∃ o, start ≤ o ∧ o < start + n ∧ array.getD o 0 = r.1) ∧
    ((r.2 = 0 ∧ ∀ o, start ≤ o → o < start + n → array.getD o 0 = 0) ∨
      (start ≤ r.2 ∧ r.2 < start + n ∧ 0 < array.getD r.2 0 ∧
        ∀ o, r.2 < o → o < start + n → array.getD o 0 = 0)) := by
  induction n with
  | zero =>
    intro r
    refine ⟨fun o h1 h2 => by omega, Or.inl rfl, Or.inl ⟨rfl, fun o h1 h2 => by omega⟩⟩
  | succ n ih =>
    rw [List.range'_concat, List.foldl_append]
    simp only [List.foldl_cons, List.foldl_nil, Nat.one_mul] at ih ⊢
    obtain ⟨ha, hb, hc⟩ := ih
    set r := (List.range' start n).foldl (scanStep array) (0, 0) with hr
    set v := array.getD (start + n) 0 with hv
    have e1 : (scanStep array r (start + n)).1 = max r.1 v := rfl
    have e2 : (scanStep array r (start + n)).2 = if v > 0 then start + n else r.2 := rfl
    rw [e1, e2]
    refine ⟨?_, ?_, ?_⟩
    · intro o h1 h2
      rcases Nat.lt_or_ge o (start + n) with h | h
      · exact le_trans (ha o h1 h) (le_max_left _ _)
      · have : o = start + n := by omega
        rw [this]; exact le_max_right _ _
    · rcases le_total r.1 v with h | h
      · rw [max_eq_right h]
        right
        exact ⟨start + n, by omega, by omega, rfl⟩
      · rw [max_eq_left h]
        rcases hb with hb | ⟨o, h1, h2, h3⟩
        · left; exact hb
        · right; exact ⟨o, h1, by omega, h3⟩
    · by_cases hpos : v > 0
      · rw [if_pos hpos]
        right
        exact ⟨by omega, by omega, hpos, fun o h1 h2 => by omega⟩
      · rw [if_neg hpos]
        have hv0 : v = 0 := by omega
        rcases hc with ⟨h1, h2⟩ | ⟨h1, h2, h3, h4⟩
        · left
          refine ⟨h1, fun o ho1 ho2 => ?_⟩
          rcases Nat.lt_or_ge o (start + n) with h | h
          · exact h2 o ho1 h
          · have : o = start + n := by omega
            rw [this]; exact hv0
        · right
          refine ⟨h1, by omega, h3, fun o ho1 ho2 => ?_⟩
          rcases Nat.lt_or_ge o (start + n) with h | h
          · exact h4 o ho1 h
          · have : o = start + n := by omega
            rw [this]; exact hv0

/-- What the scanning loop computes: every scanned bucket is at most
`maxCount`, which is one of the scanned buckets unless it is 0, and
`maxWithValue` is the last scanned bucket with a non-zero count, or 0 when
there is none. -/
theorem scanResult_spec (array : List Nat) (start : Nat) :
    (∀ o, start ≤ o → o < array.length → array.getD o 0 ≤ (scanResult array start).1) ∧
    ((scanResult array start).1 = 0 ∨
      ∃ o, start ≤ o ∧ o < array.length ∧ array.getD o 0 = (scanResult array start).1) ∧
    (((scanResult array start).2 = 0 ∧
        ∀ o, start ≤ o → o < array.length → array.getD o 0 = 0) ∨
      (start ≤ (scanResult array start).2 ∧ (scanResult array start).2 < array.length ∧
        0 < array.getD (scanResult array start).2 0 ∧
        ∀ o, (scanResult array start).2 < o → o < array.length → array.getD o 0 = 0)) := by
  have h := scan_invariant array start (array.length - start)
  simp only at h
  obtain ⟨ha, hb, hc⟩ := h
  unfold scanResult
  refine ⟨fun o h1 h2 => ha o h1 (by omega), ?_, ?_⟩
  · rcases hb with hb | ⟨o, h1, h2, h3⟩
    · left; exact hb
    · right; exact ⟨o, h1, by omega, h3⟩
  · rcases hc with ⟨h1, h2⟩ | ⟨h1, h2, h3, h4⟩
    · left; exact ⟨h1, fun o ho1 ho2 => h2 o ho1 (by omega)⟩
    · right; exact ⟨h1, by omega, h3, fun o ho1 ho2 => h4 o ho1 (by omega)⟩

/-- The index found by the scan is the last non-zero bucket. -/
theorem scanResult_last (array : List Nat) (start k : Nat) (hs : start ≤ k)
    (hk : k < array.length) (hnz : array.getD k 0 ≠ 0)
    (hz : ∀ j, k < j → j < array.length → array.getD j 0 = 0) :
    (scanResult array start).2 = k := by
  obtain ⟨_, _, hc⟩ := scanResult_spec array start
  rcases hc with ⟨_, h2⟩ | ⟨h1, h2, h3, h4⟩
  · exact absurd (h2 k hs hk) hnz
  · rcases Nat.lt_trichotomy (scanResult array start).2 k with h | h | h
    · exact absurd (h4 k h hk) hnz
    · exact h
    · have := hz _ h h2
      omega

theorem scanResult_max_pos (array : List Nat) (start o : Nat) (hs : start ≤ o)
    (ho : o < array.length) (hpos : 0 < array.getD o 0) :
    0 < (scanResult array start).1 ∧ o ≤ (scanResult array start).2 := by
  obtain ⟨ha, _, hc⟩ := scanResult_spec array start
  refine ⟨lt_of_lt_of_le hpos (ha o hs ho), ?_⟩
  rcases hc with ⟨_, h2⟩ | ⟨h1, h2, h3, h4⟩
  · have := h2 o hs ho; omega
  · by_contra hlt
    push_neg at hlt
    have := h4 o hlt ho
    omega

theorem scanResult_max_lt (array : List Nat) (start : Nat) (hw : ∀ x ∈ array, x < 2 ^ 32) :
    (scanResult array start).1 < 2 ^ 32 := by
  obtain ⟨_, hb, _⟩ := scanResult_spec array start
  rcases hb with hb | ⟨o, h1, h2, h3⟩
  · rw [hb]; norm_num
  · rw [← h3, List.getD_eq_getElem?_getD, List.getElem?_eq_getElem h2]
    exact hw _ (List.getElem_mem _)

theorem SliceForString_eq_barSlice {c m : Nat} (hcm : c ≤ m) (hm : m < 2 ^ 32) :
    SliceForString Stars c m = some (barSlice c m) := by
  unfold barSlice
  by_cases h : c = 0 ∨ m = 0
  · rw [if_pos h]
    unfold SliceForString
    rw [if_pos h]
  · rw [if_neg h]
    push_neg at h
    exact (SliceForString_of_le (Nat.pos_of_ne_zero h.1) hcm hm).1

theorem barSlice_bounds (c m : Nat) (hcm : c ≤ m) (hm : m < 2 ^ 32) :
    0 ≤ barSlice c m ∧ barSlice c m ≤ 128 ∧ (0 < c → 1 ≤ barSlice c m) ∧
      (c = 0 → barSlice c m = 0) := by
  unfold barSlice
  by_cases h : c = 0 ∨ m = 0
  · rw [if_pos h]
    refine ⟨le_refl _, by norm_num, fun hc => ?_, fun _ => rfl⟩
    omega
  · rw [if_neg h]
    push_neg at h
    obtain ⟨_, h1, h2⟩ := SliceForString_of_le (Nat.pos_of_ne_zero h.1) hcm hm
    exact ⟨by omega, h2, fun _ => h1, fun hc => absurd hc h.1⟩

theorem join_cons (a : String) (l : List String) : String.join (a :: l) = a ++ String.join l := by
  apply String.ext
  simp [String.join_eq, String.data_append]

theorem join_nil : String.join [] = "" := rfl

theorem join_append (l m : List String) :
    String.join (l ++ m) = String.join l ++ String.join m := by
  apply String.ext
  simp [String.join_eq, String.data_append]

/-- A loop that appends one computed line per index appends the
concatenation of the lines. -/
theorem foldlM_lines (f : Nat → Option String) (g : Nat → String) (l : List Nat)
    (text : String) (h : ∀ o ∈ l, f o = some (g o)) :
    l.foldlM (fun (t : String) (o : Nat) => (f o).bind (fun line => some (t ++ line))) text
      = some (text ++ String.join (l.map g)) := by
  induction l generalizing text with
  | nil => simp [join_nil, String.append_empty]
  | cons o l ih =>
    rw [List.foldlM_cons, h o (List.mem_cons_self _ _)]
    simp only [Option.some_bind, Option.bind_eq_bind, Option.pure_def]
    rw [ih _ (fun o' h' => h o' (List.mem_cons_of_mem _ h')), List.map_cons, join_cons,
      String.append_assoc]

/-- A loop that appends one computed line per index fails as soon as one
line fails. -/
theorem foldlM_lines_none (f : Nat → Option String) (l : List Nat)
    (text : String) (h : ∃ o ∈ l, f o = none) :
    l.foldlM (fun (t : String) (o : Nat) => (f o).bind (fun line => some (t ++ line))) text
      = none := by
  induction l generalizing text with
  | nil => obtain ⟨o, ho, _⟩ := h; cases ho
  | cons a l ih =>
    rw [List.foldlM_cons]
    cases hfa : f a with
    | none => rfl
    | some line =>
      simp only [Option.some_bind, Option.bind_eq_bind, Option.pure_def]
      apply ih
      obtain ⟨o, ho, hfo⟩ := h
      rcases List.mem_cons.mp ho with rfl | hmem
      · rw [hfa] at hfo; cases hfo
      · exact ⟨o, hmem, hfo⟩

theorem bucketLine_eq (array : List Nat) (maxCount : Nat) (label : Nat → Option String)
    (lab : Nat → String) (o : Nat) (ho : o < array.length) (hle : array.getD o 0 ≤ maxCount)
    (hm : maxCount < 2 ^ 32) (hl : label o = some (lab o)) :
    bucketLine array maxCount label o = some (barLine array maxCount lab o) := by
  unfold bucketLine barLine
  have hget : array[o]? = some (array.getD o 0) := by
    rw [List.getD_eq_getElem?_getD, List.getElem?_eq_getElem ho]; rfl
  rw [hget, hl]
  simp only [Option.some_bind, Option.bind_eq_bind, Option.pure_def]
  rw [SliceForString_eq_barSlice hle hm]
  rfl

theorem bucketLine_out_of_range (array : List Nat) (maxCount : Nat)
    (label : Nat → Option String) (o : Nat) (ho : array.length ≤ o) :
    bucketLine array maxCount label o = none := by
  unfold bucketLine
  rw [List.getElem?_eq_none ho]
  rfl

/-- The printing loop, when every bucket from `start` to `maxWithValue` is in
range, at most `maxCount`, and has a label: one line per index, in order. -/
theorem appendBars_eq (text : String) (array : List Nat) (start maxWithValue maxCount : Nat)
    (label : Nat → Option String) (lab : Nat → String)
    (hr : ∀ o, start ≤ o → o ≤ maxWithValue → o < array.length)
    (hle : ∀ o, start ≤ o → o ≤ maxWithValue → array.getD o 0 ≤ maxCount)
    (hm : maxCount < 2 ^ 32)
    (hl : ∀ o, start ≤ o → o ≤ maxWithValue → label o = some (lab o)) :
    appendBars text array start maxWithValue maxCount label =
      some (text ++ String.join
        ((List.range' start (maxWithValue + 1 - start)).map (barLine array maxCount lab))) := by
  unfold appendBars
  refine foldlM_lines (bucketLine array maxCount label) (barLine array maxCount lab) _ text ?_
  intro o ho
  rw [List.mem_range'_1] at ho
  exact bucketLine_eq array maxCount label lab o (hr o ho.1 (by omega)) (hle o ho.1 (by omega)) hm
    (hl o ho.1 (by omega))

/-- The histogram of a non-empty array of `uint32_t` buckets: the legend,
then one line for each index from 0 to `maxWithValue`. -/
theorem CreateSimpleIntegerHistogram_eq (legend : String) (array : List Nat)
    (hne : array ≠ []) (hw : ∀ x ∈ array, x < 2 ^ 32) :
    CreateSimpleIntegerHistogram legend array =
      some ("\n" ++ legend ++ ":\n" ++ String.join
        ((List.range ((scanResult array 0).2 + 1)).map
          (barLine array (scanResult array 0).1 indexLabel))) := by
  obtain ⟨ha, _, hc⟩ := scanResult_spec array 0
  have hlen : 0 < array.length := List.length_pos.mpr hne
  have hmw : (scanResult array 0).2 < array.length := by
    rcases hc with ⟨h1, _⟩ | ⟨_, h2, _⟩
    · omega
    · exact h2
  unfold CreateSimpleIntegerHistogram
  rw [scanBuckets_eq]
  simp only [Option.some_bind, Option.bind_eq_bind]
  rw [appendBars_eq ("\n" ++ legend ++ ":\n") array 0 (scanResult array 0).2
    (scanResult array 0).1 (fun o => some (argWidth (argNat o) 4)) indexLabel
    (fun o _ h => by omega) (fun o h1 h2 => ha o h1 (by omega)) (scanResult_max_lt array 0 hw)
    (fun o _ _ => rfl)]
  rw [List.range_eq_range']
  rfl

theorem CreateSimpleIntegerHistogram_nil (legend : String) :
    CreateSimpleIntegerHistogram legend [] = none := by
  unfold CreateSimpleIntegerHistogram
  rw [scanBuckets_eq]
  rfl

/-- The bar `Stars.left(slice)` for a slice between 0 and 128: that many asterisks. -/
theorem QStringLeft_Stars (n : Int) (h0 : 0 ≤ n) (h1 : n ≤ 128) :
    QStringLeft Stars n = String.mk (List.replicate n.toNat '*') := by
  unfold QStringLeft
  rw [Stars_length]
  by_cases h : n < 0 ∨ ((128 : ℕ) : Int) ≤ n
  · rw [if_pos h]
    have : n = 128 := by
      rcases h with h | h
      · omega
      · have : (128 : Int) ≤ n := by exact_mod_cast h
        omega
    subst this
    rfl
  · rw [if_neg h]
    push_neg at h
    have hlt : n.toNat ≤ 128 := by omega
    simp only [Stars, HistogramWidth, List.take_replicate]
    rw [min_eq_left hlt]

theorem length_mk_replicate (n : Nat) (c : Char) :
    (String.mk (List.replicate n c)).length = n := by
  simp [String.length]

theorem barLine_zero (array : List Nat) (maxCount : Nat) (h : array.getD 0 0 = 0) :
    barLine array maxCount indexLabel 0 = "   0:  \n" := by
  unfold barLine histogramLine
  rw [h]
  have hs : barSlice 0 maxCount = 0 := by
    unfold barSlice; rw [if_pos (Or.inl rfl)]
  rw [hs, QStringLeft_Stars 0 (le_refl _) (by norm_num)]
  decide

/-- The histogram of a non-empty all-zero array: the legend and the line of
bucket 0. -/
theorem CreateSimpleIntegerHistogram_all_zero (legend : String) (array : List Nat)
    (hne : array ≠ []) (hzero : ∀ x ∈ array, x = 0) :
    CreateSimpleIntegerHistogram legend array = some ("\n" ++ legend ++ ":\n" ++ "   0:  \n") := by
  have hw : ∀ x ∈ array, x < 2 ^ 32 := by
    intro x hx; rw [hzero x hx]; norm_num
  have hget : ∀ o, array.getD o 0 = 0 := by
    intro o
    rcases Nat.lt_or_ge o array.length with h | h
    · rw [List.getD_eq_getElem?_getD, List.getElem?_eq_getElem h]
      exact hzero _ (List.getElem_mem _)
    · rw [List.getD_eq_getElem?_getD, List.getElem?_eq_none h]; rfl
  have hmw : (scanResult array 0).2 = 0 := by
    rcases (scanResult_spec array 0).2.2 with ⟨h, _⟩ | ⟨_, _, h3, _⟩
    · exact h
    · rw [hget] at h3; exact absurd h3 (lt_irrefl 0)
  rw [CreateSimpleIntegerHistogram_eq legend array hne hw, hmw]
  have hr : List.range (0 + 1) = [0] := rfl
  rw [hr, List.map_cons, List.map_nil, barLine_zero array _ (hget 0), join_cons, join_nil,
    String.append_empty]

/-! ## Claims on the histogram formatter -/

/-- C1: for a bucket array of `uint32_t` counts whose last non-zero bucket is at
index `k`, `CreateSimpleIntegerHistogram` returns the legend line followed by
exactly `k + 1` bucket lines, the lines of the indices `0, 1, ..., k` in
increasing order, and nothing for an index above `k`; every line shows the
bar computed by `SliceForString` for its bucket. -/
theorem C1_lines_up_to_last_nonzero (legend : String) (array : List Nat) (k : Nat)
    (hw : ∀ x ∈ array, x < 2 ^ 32) (hk : k < array.length) (hnz : array.getD k 0 ≠ 0)
    (hz : ∀ j, k < j → j < array.length → array.getD j 0 = 0) :
    scanBuckets array 0 = some ((scanResult array 0).1, k) ∧
    CreateSimpleIntegerHistogram legend array =
      some ("\n" ++ legend ++ ":\n" ++ String.join
        ((List.range (k + 1)).map (barLine array (scanResult array 0).1 indexLabel))) ∧
    ((List.range (k + 1)).map (barLine array (scanResult array 0).1 indexLabel)).length = k + 1 ∧
    ∀ o, o ≤ k →
      SliceForString Stars (array.getD o 0) (scanResult array 0).1 =
        some (barSlice (array.getD o 0) (scanResult array 0).1) := by
  have hne : array ≠ [] := by
    intro h; rw [h] at hk; exact Nat.not_lt_zero _ hk
  have hlast := scanResult_last array 0 k (Nat.zero_le _) hk hnz hz
  have heq := CreateSimpleIntegerHistogram_eq legend array hne hw
  rw [hlast] at heq
  refine ⟨?_, heq, by simp, fun o ho => ?_⟩
  · rw [scanBuckets_eq, ← hlast]
  · exact SliceForString_eq_barSlice ((scanResult_spec array 0).1 o (Nat.zero_le _) (by omega))
      (scanResult_max_lt array 0 hw)

/-- Witness of C1: the array `[3, 0, 1, 0, 0]`, whose last non-zero bucket is 2. -/
theorem C1_lines_up_to_last_nonzero_witness :
    scanBuckets [3, 0, 1, 0, 0] 0 = some ((scanResult [3, 0, 1, 0, 0] 0).1, 2) ∧
    CreateSimpleIntegerHistogram "L" [3, 0, 1, 0, 0] =
      some ("\n" ++ "L" ++ ":\n" ++ String.join
        ((List.range (2 + 1)).map
          (barLine [3, 0, 1, 0, 0] (scanResult [3, 0, 1, 0, 0] 0).1 indexLabel))) ∧
    ((List.range (2 + 1)).map
      (barLine [3, 0, 1, 0, 0] (scanResult [3, 0, 1, 0, 0] 0).1 indexLabel)).length = 2 + 1 ∧
    ∀ o, o ≤ 2 →
      SliceForString Stars (([3, 0, 1, 0, 0] : List Nat).getD o 0)
          (scanResult [3, 0, 1, 0, 0] 0).1 =
        some (barSlice (([3, 0, 1, 0, 0] : List Nat).getD o 0)
          (scanResult [3, 0, 1, 0, 0] 0).1) :=
  C1_lines_up_to_last_nonzero "L" [3, 0, 1, 0, 0] 2
    (by intro x hx; simp at hx; omega) (by decide) (by decide)
    (by
      intro j h1 h2
      have h3 : j < 5 := h2
      interval_cases j <;> rfl)

/-- C2, as the claim states it, fails: for the all-zero array `[0, 0]` the
histogram is not the legend alone, it has the line of bucket 0. -/
theorem C2_counterexample :
    CreateSimpleIntegerHistogram "L" [0, 0] = some ("\n" ++ "L" ++ ":\n" ++ "   0:  \n") ∧
    CreateSimpleIntegerHistogram "L" [0, 0] ≠ some ("\n" ++ "L" ++ ":\n") := by
  have h := CreateSimpleIntegerHistogram_all_zero "L" [0, 0] (by decide)
    (by intro x hx; simp at hx; exact hx)
  refine ⟨h, ?_⟩
  rw [h]
  decide

/-- C2, amended: for a non-empty bucket array whose counts are all zero,
`CreateSimpleIntegerHistogram` returns the legend followed by exactly one
bucket line, the line of index 0, with an empty bar and no count. -/
theorem C2_all_zero_one_line (legend : String) (array : List Nat) (hne : array ≠ [])
    (hzero : ∀ x ∈ array, x = 0) :
    scanBuckets array 0 = some (0, 0) ∧
    CreateSimpleIntegerHistogram legend array = some ("\n" ++ legend ++ ":\n" ++ "   0:  \n") := by
  refine ⟨?_, CreateSimpleIntegerHistogram_all_zero legend array hne hzero⟩
  have hget : ∀ o, o < array.length → array.getD o 0 = 0 := by
    intro o h
    rw [List.getD_eq_getElem?_getD, List.getElem?_eq_getElem h]
    exact hzero _ (List.getElem_mem _)
  rw [scanBuckets_eq]
  obtain ⟨_, hb, hc⟩ := scanResult_spec array 0
  have h1 : (scanResult array 0).1 = 0 := by
    rcases hb with h | ⟨o, _, h2, h3⟩
    · exact h
    · rw [← h3]; exact hget o h2
  have h2 : (scanResult array 0).2 = 0 := by
    rcases hc with ⟨h, _⟩ | ⟨_, h2, h3, _⟩
    · exact h
    · rw [hget _ h2] at h3; exact absurd h3 (lt_irrefl 0)
  exact congrArg some (Prod.ext h1 h2)

/-- Witness of the amended C2: the array `[0, 0]`. -/
theorem C2_all_zero_one_line_witness :
    scanBuckets [0, 0] 0 = some (0, 0) ∧
    CreateSimpleIntegerHistogram "L" [0, 0] = some ("\n" ++ "L" ++ ":\n" ++ "   0:  \n") :=
  C2_all_zero_one_line "L" [0, 0] (by decide) (by intro x hx; simp at hx; exact hx)

/-- C3: on the empty bucket array the printing loop of
`CreateSimpleIntegerHistogram` runs once, for index 0, and its read `array[0]`
is outside the array: the function has no result. -/
theorem C3_empty_array_reads_out_of_range (legend : String) :
    scanBuckets [] 0 = some (0, 0) ∧
    bucketLine [] 0 (fun o => some (argWidth (argNat o) 4)) 0 = none ∧
    CreateSimpleIntegerHistogram legend [] = none :=
  ⟨rfl, rfl, CreateSimpleIntegerHistogram_nil legend⟩

/-- A rounded value in the normal range is an integer of 24 bits times the
unit in the last place. -/
theorem f32Round_repr {x : ℚ} (hx : 0 < x) (hlog : -126 ≤ Int.log 2 x) :
    ∃ n : ℤ, 2 ^ 23 ≤ n ∧ n ≤ 2 ^ 24 ∧
      f32Round x = (n : ℚ) * (2 : ℚ) ^ (Int.log 2 x - 23) := by
  have hU : f32UlpExp x = Int.log 2 x - 23 := by
    unfold f32UlpExp; rw [max_eq_left hlog]
  have hp : (0 : ℚ) < (2 : ℚ) ^ (Int.log 2 x - 23) := zpow_pos (by norm_num) _
  refine ⟨roundHalfEven (x / (2 : ℚ) ^ (Int.log 2 x - 23)), ?_, ?_, ?_⟩
  · have h1 := Int.zpow_log_le_self (R := ℚ) (b := 2) (by norm_num) hx
    have h1' : (2 : ℚ) ^ (Int.log 2 x) ≤ x := by exact_mod_cast h1
    have hle : ((2 ^ 23 : ℤ) : ℚ) ≤ x / (2 : ℚ) ^ (Int.log 2 x - 23) := by
      rw [le_div_iff₀ hp, two23_mul_zpow]; exact h1'
    have := roundHalfEven_mono hle
    rwa [roundHalfEven_intCast] at this
  · have h1 := Int.lt_zpow_succ_log_self (R := ℚ) (b := 2) (by norm_num) x
    have h1' : x < (2 : ℚ) ^ (Int.log 2 x + 1) := by exact_mod_cast h1
    have hle : x / (2 : ℚ) ^ (Int.log 2 x - 23) ≤ ((2 ^ 24 : ℤ) : ℚ) := by
      rw [div_le_iff₀ hp, two24_mul_zpow]
      have : Int.log 2 x - 23 + 24 = Int.log 2 x + 1 := by ring
      rw [this]; exact h1'.le
    have := roundHalfEven_mono hle
    rwa [roundHalfEven_intCast] at this
  · unfold f32Round
    rw [if_neg (not_le.mpr hx), hU]

/-- An integer of at most 24 bits times a power of two in range is a binary32
value: rounding leaves it unchanged. -/
theorem f32Round_of_repr (n u : ℤ) (h1 : 2 ^ 23 ≤ n) (h2 : n ≤ 2 ^ 24) (hu : -149 ≤ u) :
    f32Round ((n : ℚ) * (2 : ℚ) ^ u) = (n : ℚ) * (2 : ℚ) ^ u := by
  rcases h2.lt_or_eq with hlt | heq
  · have hp : (0 : ℚ) < (2 : ℚ) ^ u := zpow_pos (by norm_num) _
    have hn1 : ((2 ^ 23 : ℤ) : ℚ) ≤ (n : ℚ) := by exact_mod_cast h1
    have hn2 : (n : ℚ) < ((2 ^ 24 : ℤ) : ℚ) := by exact_mod_cast hlt
    have hlo : (2 : ℚ) ^ (u + 23) ≤ (n : ℚ) * (2 : ℚ) ^ u := by
      have : (2 : ℚ) ^ (u + 23) = ((2 ^ 23 : ℤ) : ℚ) * (2 : ℚ) ^ u := by
        rw [zpow_add₀ (by norm_num : (2 : ℚ) ≠ 0)]; norm_num; ring
      rw [this]
      exact mul_le_mul_of_nonneg_right hn1 hp.le
    have hhi : (n : ℚ) * (2 : ℚ) ^ u < (2 : ℚ) ^ (u + 23 + 1) := by
      have : (2 : ℚ) ^ (u + 23 + 1) = ((2 ^ 24 : ℤ) : ℚ) * (2 : ℚ) ^ u := by
        rw [two24_mul_zpow]; congr 1; ring
      rw [this]
      exact mul_lt_mul_of_pos_right hn2 hp
    have hx : 0 < (n : ℚ) * (2 : ℚ) ^ u := lt_of_lt_of_le (zpow_pos (by norm_num) _) hlo
    have hlog := log_two_eq hlo hhi
    unfold f32Round f32UlpExp
    rw [if_neg (not_le.mpr hx), hlog, max_eq_left (by omega)]
    have : u + 23 - 23 = u := by ring
    rw [this, mul_div_assoc, div_self hp.ne', mul_one, roundHalfEven_intCast]
  · rw [heq]
    have : ((2 ^ 24 : ℤ) : ℚ) * (2 : ℚ) ^ u = (2 : ℚ) ^ (u + 24) := two24_mul_zpow u
    rw [this]
    exact f32Round_two_zpow (u + 24) (by omega)

/-- Multiplying a binary32 value between `2 ^ (-32)` and 1 by 128 is exact. -/
theorem f32Round_mul_128 {z : ℚ} (hlo : (2 : ℚ) ^ (-32 : ℤ) ≤ z) :
    f32Round (f32Round z * 128) = f32Round z * 128 := by
  have hz : 0 < z := lt_of_lt_of_le (zpow_pos (by norm_num) _) hlo
  have hlog : -32 ≤ Int.log 2 z :=
    (Int.zpow_le_iff_le_log (b := 2) (by norm_num) hz (x := -32)).mp (by exact_mod_cast hlo)
  obtain ⟨n, h1, h2, h3⟩ := f32Round_repr hz (by omega)
  have h128 : (128 : ℚ) = (2 : ℚ) ^ (7 : ℤ) := by norm_num
  have : f32Round z * 128 = (n : ℚ) * (2 : ℚ) ^ (Int.log 2 z - 23 + 7) := by
    rw [h3, zpow_add₀ (by norm_num : (2 : ℚ) ≠ 0), h128]; ring
  rw [this]
  exact f32Round_of_repr n _ h1 h2 (by omega)

/-- The product `ratio * s.length()` of `SliceForString` is exact for the
128-character string: it is the single-precision quotient times 128. -/
theorem barProduct_eq {c m : Nat} (hc : 0 < c) (hc32 : c < 2 ^ 32) (hm : 0 < m)
    (hm32 : m < 2 ^ 32) :
    barProduct c m = f32Round (f32Round c / f32Round m) * 128 := by
  obtain ⟨_, hc1, _⟩ := ofNat_u32 hc hc32
  obtain ⟨_, _, hm2⟩ := ofNat_u32 hm hm32
  have hm1 := (ofNat_u32 hm hm32).2.1
  unfold barProduct
  apply f32Round_mul_128
  have hmpos : 0 < f32Round m := by linarith
  rw [le_div_iff₀ hmpos]
  have : (2 : ℚ) ^ (-32 : ℤ) * f32Round m ≤ (2 : ℚ) ^ (-32 : ℤ) * 4294967296 :=
    mul_le_mul_of_nonneg_left hm2 (by positivity)
  have h1 : (2 : ℚ) ^ (-32 : ℤ) * 4294967296 = 1 := by norm_num
  linarith

/-- C9, as the claim states it, fails: in the array `[1, 3]`, whose maximum
count is 3, the bucket with count 1 gets a bar of 42 asterisks, while
`max(1, round(1 / 3 * 128))` is 43. -/
theorem C9_counterexample :
    scanBuckets [1, 3] 0 = some (3, 1) ∧
    SliceForString Stars 1 3 = some 42 ∧
    (QStringLeft Stars 42).length = 42 ∧
    specBarLength 1 3 = 43 := by
  refine ⟨by decide, SliceForString_one_three, ?_, ?_⟩
  · rw [QStringLeft_Stars 42 (by norm_num) (by norm_num)]
    exact length_mk_replicate _ _
  · unfold specBarLength
    have : round ((1 : ℕ) / (3 : ℕ) * 128 : ℚ) = 43 := by
      rw [round_eq, Int.floor_eq_iff]; constructor <;> norm_num
    rw [this]; rfl

/-- C9, amended: for a bucket with non-zero count `c` in an array of `uint32_t`
counts whose maximum is `m`, the bar has length `max(1, trunc(q * 128))`,
where `q` is the single-precision quotient of `(float)c` by `(float)m`: the
product is truncated towards zero, not rounded to the nearest integer. -/
theorem C9_bar_length_truncated (c m : Nat) (hc : 0 < c) (hcm : c ≤ m) (hm : m < 2 ^ 32) :
    SliceForString Stars c m = some (max 1 ⌊f32Round (f32Round c / f32Round m) * 128⌋) ∧
    ((QStringLeft Stars (max 1 ⌊f32Round (f32Round c / f32Round m) * 128⌋)).length : Int) =
      max 1 ⌊f32Round (f32Round c / f32Round m) * 128⌋ := by
  obtain ⟨h1, h2, h3⟩ := SliceForString_of_le hc hcm hm
  rw [barProduct_eq hc (lt_of_le_of_lt hcm hm) (lt_of_lt_of_le hc hcm) hm] at h1 h2 h3
  refine ⟨h1, ?_⟩
  rw [QStringLeft_Stars _ (by omega) h3, length_mk_replicate]
  omega

/-- Witness of the amended C9: count 1 under the maximum 3. -/
theorem C9_bar_length_truncated_witness :
    SliceForString Stars 1 3 =
      some (max 1 ⌊f32Round (f32Round (1 : ℕ) / f32Round (3 : ℕ)) * 128⌋) ∧
    ((QStringLeft Stars
        (max 1 ⌊f32Round (f32Round (1 : ℕ) / f32Round (3 : ℕ)) * 128⌋)).length : Int) =
      max 1 ⌊f32Round (f32Round (1 : ℕ) / f32Round (3 : ℕ)) * 128⌋ :=
  C9_bar_length_truncated 1 3 (by decide) (by decide) (by norm_num)

/-- C10: in the histogram of an array of `uint32_t` counts, a bucket with a
non-zero count is printed (its index is at most `maxWithValue`), the scaling
maximum `maxCount` passed to `SliceForString` is not 0, and the bar of its
line is made of at least one asterisk. -/
theorem C10_nonzero_bucket_has_bar (legend : String) (array : List Nat) (o : Nat)
    (hw : ∀ x ∈ array, x < 2 ^ 32) (ho : o < array.length) (hpos : 0 < array.getD o 0) :
    ∃ maxCount maxWithValue : Nat, ∃ slice : Int,
      scanBuckets array 0 = some (maxCount, maxWithValue) ∧
      maxCount ≠ 0 ∧ o ≤ maxWithValue ∧
      CreateSimpleIntegerHistogram legend array =
        some ("\n" ++ legend ++ ":\n" ++ String.join
          ((List.range (maxWithValue + 1)).map (barLine array maxCount indexLabel))) ∧
      SliceForString Stars (array.getD o 0) maxCount = some slice ∧
      ((List.range (maxWithValue + 1)).map (barLine array maxCount indexLabel))[o]? =
        some (histogramLine (argWidth (argNat o) 4) slice (array.getD o 0)) ∧
      1 ≤ slice ∧
      QStringLeft Stars slice = String.mk (List.replicate slice.toNat '*') ∧
      1 ≤ (QStringLeft Stars slice).length := by
  have hne : array ≠ [] := by
    intro h; rw [h] at ho; exact Nat.not_lt_zero _ ho
  obtain ⟨hmc, hmw⟩ := scanResult_max_pos array 0 o (Nat.zero_le _) ho hpos
  have hle := (scanResult_spec array 0).1 o (Nat.zero_le _) ho
  have hlt := scanResult_max_lt array 0 hw
  obtain ⟨hb0, hb1, hb2, _⟩ := barSlice_bounds (array.getD o 0) (scanResult array 0).1 hle hlt
  have hbar := QStringLeft_Stars _ hb0 hb1
  refine ⟨(scanResult array 0).1, (scanResult array 0).2,
    barSlice (array.getD o 0) (scanResult array 0).1, scanBuckets_eq array 0, by omega, hmw,
    CreateSimpleIntegerHistogram_eq legend array hne hw, SliceForString_eq_barSlice hle hlt,
    ?_, hb2 hpos, hbar, ?_⟩
  · rw [List.getElem?_map, List.getElem?_range (by omega)]
    rfl
  · rw [hbar, length_mk_replicate]
    have := hb2 hpos
    omega

/-- Witness of C10: bucket 2, with count 1, of the array `[3, 0, 1, 0, 0]`. -/
theorem C10_nonzero_bucket_has_bar_witness :
    ∃ maxCount maxWithValue : Nat, ∃ slice : Int,
      scanBuckets [3, 0, 1, 0, 0] 0 = some (maxCount, maxWithValue) ∧
      maxCount ≠ 0 ∧ 2 ≤ maxWithValue ∧
      CreateSimpleIntegerHistogram "L" [3, 0, 1, 0, 0] =
        some ("\n" ++ "L" ++ ":\n" ++ String.join
          ((List.range (maxWithValue + 1)).map (barLine [3, 0, 1, 0, 0] maxCount indexLabel))) ∧
      SliceForString Stars (([3, 0, 1, 0, 0] : List Nat).getD 2 0) maxCount = some slice ∧
      ((List.range (maxWithValue + 1)).map (barLine [3, 0, 1, 0, 0] maxCount indexLabel))[2]? =
        some (histogramLine (argWidth (argNat 2) 4) slice
          (([3, 0, 1, 0, 0] : List Nat).getD 2 0)) ∧
      1 ≤ slice ∧
      QStringLeft Stars slice = String.mk (List.replicate slice.toNat '*') ∧
      1 ≤ (QStringLeft Stars slice).length :=
  C10_nonzero_bucket_has_bar "L" [3, 0, 1, 0, 0] 2
    (by intro x hx; simp at hx; omega) (by decide) (by decide)

/-! ## Claims on the drawcall-tree counter -/

theorem countNode_advance (f : DrawFlags) (c : EventCounts) (a b d : Nat) :
    countNode f (advance c a b d) =
      advance c (a + if f.Drawcall then 1 else 0) (b + if f.Dispatch then 1 else 0)
        (d + if isDiagnostic f then 1 else 0) := by
  have hmod : ∀ x y : Nat, add32 ((x + y) % 4294967296) 1 = (x + (y + 1)) % 4294967296 := by
    intro x y; unfold add32; omega
  unfold countNode isDiagnostic advance
  cases h1 : (f.SetMarker || f.PushMarker || f.PopMarker) <;> cases h2 : f.Drawcall <;>
    cases h3 : f.Dispatch <;> simp [hmod]

mutual
theorem CountContributingEvents_advance (d : DrawcallDescription) (c : EventCounts)
    (a b e : Nat) :
    CountContributingEvents d (advance c a b e) =
      advance c (a + nodeCount (fun f => f.Drawcall) d) (b + nodeCount (fun f => f.Dispatch) d)
        (e + nodeCount isDiagnostic d) := by
  cases d with
  | mk ev flags children =>
    rw [CountContributingEvents, countNode_advance,
      CountContributingEventsList_advance children]
    simp only [nodeCount, Nat.add_assoc]
theorem CountContributingEventsList_advance (ds : List DrawcallDescription) (c : EventCounts)
    (a b e : Nat) :
    CountContributingEventsList ds (advance c a b e) =
      advance c (a + nodeCountList (fun f => f.Drawcall) ds)
        (b + nodeCountList (fun f => f.Dispatch) ds) (e + nodeCountList isDiagnostic ds) := by
  cases ds with
  | nil => simp [CountContributingEventsList, nodeCountList]
  | cons d ds =>
    rw [CountContributingEventsList, CountContributingEvents_advance d,
      CountContributingEventsList_advance ds]
    simp only [nodeCountList, Nat.add_assoc]
end

theorem advance_zero (c : EventCounts) (h1 : c.drawCount < 2 ^ 32)
    (h2 : c.dispatchCount < 2 ^ 32) (h3 : c.diagnosticCount < 2 ^ 32) : advance c 0 0 0 = c := by
  cases c
  simp only [advance, Nat.add_zero] at *
  rw [Nat.mod_eq_of_lt h1, Nat.mod_eq_of_lt h2, Nat.mod_eq_of_lt h3]

theorem CountContributingEvents_eq (d : DrawcallDescription) (c : EventCounts)
    (h1 : c.drawCount < 2 ^ 32) (h2 : c.dispatchCount < 2 ^ 32)
    (h3 : c.diagnosticCount < 2 ^ 32) :
    CountContributingEvents d c =
      advance c (nodeCount (fun f => f.Drawcall) d) (nodeCount (fun f => f.Dispatch) d)
        (nodeCount isDiagnostic d) := by
  have := CountContributingEvents_advance d c 0 0 0
  rw [advance_zero c h1 h2 h3] at this
  simpa using this

/-- C4, as the claim states it, fails for some initial counter values: from
`drawCount = 2 ^ 32 - 1` a single draw node leaves `drawCount = 0`, which is
not the initial value grown by the one node that has the Drawcall flag. -/
theorem C4_counterexample :
    nodeCount (fun f => f.Drawcall) (.mk 1 { NoFlags with Drawcall := true } []) = 1 ∧
    (CountContributingEvents (.mk 1 { NoFlags with Drawcall := true } [])
      { drawCount := 4294967295, dispatchCount := 0, diagnosticCount := 0 }).drawCount = 0 ∧
    (CountContributingEvents (.mk 1 { NoFlags with Drawcall := true } [])
      { drawCount := 4294967295, dispatchCount := 0, diagnosticCount := 0 }).drawCount
      ≠ 4294967295 + 1 := by
  simp [CountContributingEvents, CountContributingEventsList, countNode, NoFlags, nodeCount,
    nodeCountList, add32]

/-- C4, amended: for every drawcall tree and all initial `uint32_t` counter
values, after `CountContributingEvents` the three counters have grown, modulo
`2 ^ 32`, by the number of nodes of the tree (root included, every descendant
once) that have the Drawcall flag, the Dispatch flag, and one of the marker
flags; the growth is exact whenever the sum stays below `2 ^ 32`, and a root
draw node with one child dispatch node gives 1, 1, 0 from zeroed counters. -/
theorem C4_counts_flagged_nodes (d : DrawcallDescription) (c : EventCounts)
    (h1 : c.drawCount < 2 ^ 32) (h2 : c.dispatchCount < 2 ^ 32)
    (h3 : c.diagnosticCount < 2 ^ 32) :
    (CountContributingEvents d c).drawCount =
      (c.drawCount + nodeCount (fun f => f.Drawcall) d) % 2 ^ 32 ∧
    (CountContributingEvents d c).dispatchCount =
      (c.dispatchCount + nodeCount (fun f => f.Dispatch) d) % 2 ^ 32 ∧
    (CountContributingEvents d c).diagnosticCount =
      (c.diagnosticCount + nodeCount isDiagnostic d) % 2 ^ 32 ∧
    (c.drawCount + nodeCount (fun f => f.Drawcall) d < 2 ^ 32 →
      (CountContributingEvents d c).drawCount =
        c.drawCount + nodeCount (fun f => f.Drawcall) d) ∧
    (c.dispatchCount + nodeCount (fun f => f.Dispatch) d < 2 ^ 32 →
      (CountContributingEvents d c).dispatchCount =
        c.dispatchCount + nodeCount (fun f => f.Dispatch) d) ∧
    (c.diagnosticCount + nodeCount isDiagnostic d < 2 ^ 32 →
      (CountContributingEvents d c).diagnosticCount =
        c.diagnosticCount + nodeCount isDiagnostic d) ∧
    CountContributingEvents
        (.mk 2 { NoFlags with Drawcall := true } [.mk 1 { NoFlags with Dispatch := true } []])
        { drawCount := 0, dispatchCount := 0, diagnosticCount := 0 } =
      { drawCount := 1, dispatchCount := 1, diagnosticCount := 0 } := by
  rw [CountContributingEvents_eq d c h1 h2 h3]
  refine ⟨rfl, rfl, rfl, fun h => Nat.mod_eq_of_lt h, fun h => Nat.mod_eq_of_lt h,
    fun h => Nat.mod_eq_of_lt h, ?_⟩
  simp [CountContributingEvents, CountContributingEventsList, countNode, NoFlags, add32]

/-- Witness of the amended C4: a marker node with a draw child and a dispatch
child, from the counters 5, 6, 7. -/
theorem C4_counts_flagged_nodes_witness :
    (CountContributingEvents
        (.mk 3 { NoFlags with PushMarker := true }
          [.mk 1 { NoFlags with Drawcall := true } [],
           .mk 2 { NoFlags with Dispatch := true } []])
        { drawCount := 5, dispatchCount := 6, diagnosticCount := 7 }).drawCount =
      (5 + nodeCount (fun f => f.Drawcall)
        (.mk 3 { NoFlags with PushMarker := true }
          [.mk 1 { NoFlags with Drawcall := true } [],
           .mk 2 { NoFlags with Dispatch := true } []])) % 2 ^ 32 :=
  (C4_counts_flagged_nodes
    (.mk 3 { NoFlags with PushMarker := true }
      [.mk 1 { NoFlags with Drawcall := true } [],
       .mk 2 { NoFlags with Dispatch := true } []])
    { drawCount := 5, dispatchCount := 6, diagnosticCount := 7 }
    (by norm_num) (by norm_num) (by norm_num)).1

/-! ## Properties of the per-stage aggregation -/

theorem addedUpTo_length (dst src : List Nat) (n : Nat) :
    (addedUpTo dst src n).length = dst.length := by
  simp [addedUpTo]

theorem addedUpTo_zero (dst src : List Nat) : addedUpTo dst src 0 = dst := by
  apply List.ext_getElem
  · simp [addedUpTo]
  · intro i h1 h2
    simp only [addedUpTo, List.getElem_map, List.getElem_range, Nat.not_lt_zero, if_false]
    rw [List.getD_eq_getElem?_getD, List.getElem?_eq_getElem h2]; rfl

theorem addedUpTo_step (dst src : List Nat) (n : Nat) :
    (addedUpTo dst src n).set n (add32 ((addedUpTo dst src n).getD n 0) (src.getD n 0)) =
      addedUpTo dst src (n + 1) := by
  apply List.ext_getElem
  · simp [addedUpTo]
  · intro i h1 h2
    have hi : i < dst.length := by simpa [addedUpTo] using h2
    rw [List.getElem_set]
    by_cases hin : n = i
    · subst hin
      rw [if_pos rfl]
      simp only [addedUpTo, List.getElem_map, List.getElem_range]
      rw [if_pos (Nat.lt_succ_self _)]
      congr 1
      rw [List.getD_eq_getElem?_getD, List.getElem?_eq_getElem (by simpa using hi)]
      simp
    · rw [if_neg hin]
      simp only [addedUpTo, List.getElem_map, List.getElem_range]
      have : (i < n + 1) ↔ (i < n) := by omega
      simp only [this]

theorem foldlM_addBuckets_upTo (dst src : List Nat) (n : Nat) (hn : n ≤ src.length)
    (hd : n ≤ dst.length) :
    (List.range n).foldlM
      (fun (d : List Nat) (l : Nat) => do
        let v ← src[l]?
        let old ← d[l]?
        pure (d.set l (add32 old v))) dst
      = some (addedUpTo dst src n) := by
  induction n with
  | zero => simp [addedUpTo_zero]
  | succ n ih =>
    rw [List.range_succ, List.foldlM_append, ih (by omega) (by omega)]
    simp only [Option.some_bind, Option.bind_eq_bind, List.foldlM_cons, List.foldlM_nil,
      Option.pure_def]
    have h1 : src[n]? = some (src.getD n 0) := by
      rw [List.getD_eq_getElem?_getD, List.getElem?_eq_getElem (by omega)]; rfl
    have h2 : (addedUpTo dst src n)[n]? = some ((addedUpTo dst src n).getD n 0) := by
      rw [List.getD_eq_getElem?_getD,
        List.getElem?_eq_getElem (by rw [addedUpTo_length]; omega)]; rfl
    rw [h1, h2]
    simp only [Option.some_bind, Option.bind_some]
    rw [addedUpTo_step dst src n]

/-- The accumulation loop succeeds when `src` is not longer than `dst`. -/
theorem addBuckets_eq (dst src : List Nat) (h : src.length ≤ dst.length) :
    addBuckets dst src = some (addedBuckets dst src) :=
  foldlM_addBuckets_upTo dst src src.length (le_refl _) h

/-- The accumulation loop indexes outside `dst` when `src` is longer. -/
theorem addBuckets_none (dst src : List Nat) (h : dst.length < src.length) :
    addBuckets dst src = none := by
  unfold addBuckets
  have hsplit : List.range src.length =
      List.range dst.length ++ (dst.length :: List.range' (dst.length + 1)
        (src.length - dst.length - 1)) := by
    rw [List.range_eq_range', List.range_eq_range']
    have e1 : List.range' 0 dst.length ++ List.range' (0 + dst.length)
        (src.length - dst.length) = List.range' 0 (src.length - dst.length + dst.length) :=
      List.range'_append_1 0 dst.length (src.length - dst.length)
    have e2 : src.length - dst.length + dst.length = src.length := by omega
    have e3 : src.length - dst.length = (src.length - dst.length - 1) + 1 := by omega
    rw [e2, Nat.zero_add, e3, List.range'_succ] at e1
    exact e1.symm
  rw [hsplit, List.foldlM_append, foldlM_addBuckets_upTo dst src dst.length (by omega) (le_refl _)]
  simp only [Option.some_bind, Option.bind_eq_bind, List.foldlM_cons]
  have h1 : src[dst.length]? = some (src.getD dst.length 0) := by
    rw [List.getD_eq_getElem?_getD, List.getElem?_eq_getElem h]; rfl
  have h2 : (addedUpTo dst src dst.length)[dst.length]? = none :=
    List.getElem?_eq_none (by rw [addedUpTo_length])
  rw [h1, h2]
  rfl

theorem addedBuckets_length (dst src : List Nat) : (addedBuckets dst src).length = dst.length := by
  simp [addedBuckets]

theorem addedBuckets_getD (dst src : List Nat) (i : Nat) (hi : i < dst.length)
    (hd : dst.getD i 0 < 2 ^ 32) :
    (addedBuckets dst src).getD i 0 = (dst.getD i 0 + src.getD i 0) % 2 ^ 32 := by
  rw [List.getD_eq_getElem?_getD (addedBuckets dst src),
    List.getElem?_eq_getElem (by rw [addedBuckets_length]; exact hi)]
  simp only [addedBuckets, List.getElem_map, List.getElem_range, Option.getD_some]
  by_cases h : i < src.length
  · rw [if_pos h]; rfl
  · rw [if_neg h]
    have : src.getD i 0 = 0 := by
      rw [List.getD_eq_getElem?_getD, List.getElem?_eq_none (by omega)]; rfl
    rw [this, Nat.add_zero, Nat.mod_eq_of_lt hd]

theorem mapM_option_some {α β : Type} (f : α → Option β) (g : α → β) (l : List α)
    (h : ∀ a ∈ l, f a = some (g a)) : l.mapM f = some (l.map g) := by
  induction l with
  | nil => rfl
  | cons a l ih =>
    rw [List.mapM_cons, h a (List.mem_cons_self _ _),
      ih (fun b hb => h b (List.mem_cons_of_mem _ hb))]
    rfl

theorem mapM_option_none {α β : Type} (f : α → Option β) (l : List α)
    (h : ∃ a ∈ l, f a = none) : l.mapM f = none := by
  induction l with
  | nil => obtain ⟨a, ha, _⟩ := h; cases ha
  | cons a l ih =>
    rw [List.mapM_cons]
    cases hfa : f a with
    | none => rfl
    | some b =>
      obtain ⟨x, hx, hfx⟩ := h
      rcases List.mem_cons.mp hx with rfl | hmem
      · rw [hfa] at hfx; cases hfx
      · rw [ih ⟨x, hmem, hfx⟩]; rfl

theorem createArray_length (n : Nat) : (createArray n).length = n := by
  simp [createArray]

theorem createArray_getD (n i : Nat) : (createArray n).getD i 0 = 0 := by
  unfold createArray
  rw [List.getD_eq_getElem?_getD]
  by_cases h : i < n
  · rw [List.getElem?_eq_getElem (by simpa using h)]; simp
  · rw [List.getElem?_eq_none (by simpa using h)]; rfl

theorem sumBuckets_length (init : List Nat) (arrays : List (List Nat)) :
    (sumBuckets init arrays).length = init.length := by
  unfold sumBuckets
  induction arrays generalizing init with
  | nil => rfl
  | cons a l ih => rw [List.foldl_cons, ih, addedBuckets_length]

theorem addedBuckets_lt (dst src : List Nat) (hd : ∀ i, dst.getD i 0 < 2 ^ 32) (i : Nat) :
    (addedBuckets dst src).getD i 0 < 2 ^ 32 := by
  by_cases hi : i < dst.length
  · rw [addedBuckets_getD dst src i hi (hd i)]
    exact Nat.mod_lt _ (by norm_num)
  · rw [List.getD_eq_getElem?_getD,
      List.getElem?_eq_none (by rw [addedBuckets_length]; omega)]
    norm_num

/-- Every bucket accumulated over a list of arrays is the sum, modulo
`2 ^ 32`, of the buckets of the same index. -/
theorem sumBuckets_getD (init : List Nat) (arrays : List (List Nat))
    (hd : ∀ i, init.getD i 0 < 2 ^ 32) (i : Nat) (hi : i < init.length) :
    (sumBuckets init arrays).getD i 0 =
      (init.getD i 0 + (arrays.map (fun a => a.getD i 0)).sum) % 2 ^ 32 := by
  unfold sumBuckets
  induction arrays generalizing init with
  | nil =>
    simp only [List.foldl_nil, List.map_nil, List.sum_nil, Nat.add_zero]
    rw [Nat.mod_eq_of_lt (hd i)]
  | cons a l ih =>
    rw [List.foldl_cons, ih (addedBuckets init a) (addedBuckets_lt init a hd)
      (by rw [addedBuckets_length]; exact hi), addedBuckets_getD init a i hi (hd i)]
    simp only [List.map_cons, List.sum_cons]
    omega

theorem sum_map_mod (l : List Nat) (f : Nat → Nat) :
    (l.map (fun s => f s % 2 ^ 32)).sum % 2 ^ 32 = (l.map f).sum % 2 ^ 32 := by
  induction l with
  | nil => rfl
  | cons a l ih =>
    simp only [List.map_cons, List.sum_cons]
    omega

/-- A counter accumulated with `+=` from a `uint32_t` value over a list of
terms is the sum modulo `2 ^ 32`. -/
theorem foldl_add32 {α : Type} (l : List α) (f : α → Nat) (init : Nat) (h : init < 2 ^ 32) :
    l.foldl (fun n a => add32 n (f a)) init = (init + (l.map f).sum) % 2 ^ 32 := by
  induction l generalizing init with
  | nil =>
    simp only [List.foldl_nil, List.map_nil, List.sum_nil, Nat.add_zero]
    exact (Nat.mod_eq_of_lt h).symm
  | cons a l ih =>
    rw [List.foldl_cons, ih (add32 init (f a)) (Nat.mod_lt _ (by norm_num))]
    simp only [List.map_cons, List.sum_cons, add32]
    omega

/-! ### Constant binds -/

theorem totalConstantsPerStage_eq (F : Formatting) (stats : FrameStatistics)
    (h : ∀ s, s < F.stageCount →
      (stats.constants s).bindslots.length ≤ (stats.constants 0).bindslots.length ∧
      (stats.constants s).sizes.length ≤ (stats.constants 0).sizes.length) :
    totalConstantsPerStage F stats = some ((List.range F.stageCount).map (stageConstants stats)) := by
  unfold totalConstantsPerStage
  apply mapM_option_some
  intro s hs
  have hs' := h s (List.mem_range.mp hs)
  rw [addBuckets_eq _ _ (by rw [createArray_length]; exact hs'.1),
    addBuckets_eq _ _ (by rw [createArray_length]; exact hs'.2)]
  rfl

theorem totalConstantsPerStage_none (F : Formatting) (stats : FrameStatistics)
    (h : ∃ s, s < F.stageCount ∧
      ((stats.constants 0).bindslots.length < (stats.constants s).bindslots.length ∨
       (stats.constants 0).sizes.length < (stats.constants s).sizes.length)) :
    totalConstantsPerStage F stats = none := by
  unfold totalConstantsPerStage
  apply mapM_option_none
  obtain ⟨s, hs, hlen⟩ := h
  refine ⟨s, List.mem_range.mpr hs, ?_⟩
  by_cases h1 : (stats.constants 0).bindslots.length < (stats.constants s).bindslots.length
  · rw [addBuckets_none _ _ (by rw [createArray_length]; exact h1)]
    rfl
  · rw [addBuckets_eq _ _ (by rw [createArray_length]; omega)]
    have h2 : (stats.constants 0).sizes.length < (stats.constants s).sizes.length := by
      rcases hlen with h | h
      · exact absurd h h1
      · exact h
    rw [addBuckets_none _ _ (by rw [createArray_length]; exact h2)]
    rfl

theorem foldlM_addConstants (ps : List ConstantBindStats) (init : ConstantBindStats)
    (h : ∀ p ∈ ps, p.bindslots.length ≤ init.bindslots.length ∧
      p.sizes.length ≤ init.sizes.length) :
    ps.foldlM
      (fun (t : ConstantBindStats) (p : ConstantBindStats) => do
        let bindslots ← addBuckets t.bindslots p.bindslots
        let sizes ← addBuckets t.sizes p.sizes
        pure { calls := add32 t.calls p.calls
               sets := add32 t.sets p.sets
               nulls := add32 t.nulls p.nulls
               bindslots := bindslots
               sizes := sizes }) init
      = some (ps.foldl addConstants init) := by
  induction ps generalizing init with
  | nil => rfl
  | cons p ps ih =>
    have hp := h p (List.mem_cons_self _ _)
    rw [List.foldlM_cons, addBuckets_eq _ _ hp.1, addBuckets_eq _ _ hp.2]
    simp only [Option.some_bind, Option.bind_eq_bind, Option.pure_def, List.foldl_cons]
    exact ih (addConstants init p) (fun q hq => by
      have := h q (List.mem_cons_of_mem _ hq)
      simpa [addConstants, addedBuckets_length] using this)

theorem foldl_addConstants_fields (ps : List ConstantBindStats) (init : ConstantBindStats) :
    (ps.foldl addConstants init).calls = ps.foldl (fun n p => add32 n p.calls) init.calls ∧
    (ps.foldl addConstants init).sets = ps.foldl (fun n p => add32 n p.sets) init.sets ∧
    (ps.foldl addConstants init).nulls = ps.foldl (fun n p => add32 n p.nulls) init.nulls ∧
    (ps.foldl addConstants init).bindslots =
      sumBuckets init.bindslots (ps.map (fun p => p.bindslots)) ∧
    (ps.foldl addConstants init).sizes = sumBuckets init.sizes (ps.map (fun p => p.sizes)) := by
  induction ps generalizing init with
  | nil => exact ⟨rfl, rfl, rfl, rfl, rfl⟩
  | cons p ps ih =>
    simp only [List.foldl_cons, List.map_cons, sumBuckets]
    exact ih (addConstants init p)

/-! ### Sampler binds -/

theorem totalSamplersPerStage_eq (F : Formatting) (stats : FrameStatistics)
    (h : ∀ s, s < F.stageCount →
      (stats.samplers s).bindslots.length ≤ (stats.samplers 0).bindslots.length) :
    totalSamplersPerStage F stats = some ((List.range F.stageCount).map (stageSamplers stats)) := by
  unfold totalSamplersPerStage
  apply mapM_option_some
  intro s hs
  have hs' := h s (List.mem_range.mp hs)
  rw [addBuckets_eq _ _ (by rw [createArray_length]; exact hs')]
  rfl

theorem totalSamplersPerStage_none (F : Formatting) (stats : FrameStatistics)
    (h : ∃ s, s < F.stageCount ∧
      (stats.samplers 0).bindslots.length < (stats.samplers s).bindslots.length) :
    totalSamplersPerStage F stats = none := by
  unfold totalSamplersPerStage
  apply mapM_option_none
  obtain ⟨s, hs, hlen⟩ := h
  refine ⟨s, List.mem_range.mpr hs, ?_⟩
  rw [addBuckets_none _ _ (by rw [createArray_length]; exact hlen)]
  rfl

theorem foldlM_addSamplers (ps : List SlotBindStats) (init : SlotBindStats)
    (h : ∀ p ∈ ps, p.bindslots.length ≤ init.bindslots.length) :
    ps.foldlM
      (fun (t : SlotBindStats) (p : SlotBindStats) => do
        let bindslots ← addBuckets t.bindslots p.bindslots
        pure { calls := add32 t.calls p.calls
               sets := add32 t.sets p.sets
               nulls := add32 t.nulls p.nulls
               bindslots := bindslots }) init
      = some (ps.foldl addSamplers init) := by
  induction ps generalizing init with
  | nil => rfl
  | cons p ps ih =>
    have hp := h p (List.mem_cons_self _ _)
    rw [List.foldlM_cons, addBuckets_eq _ _ hp]
    simp only [Option.some_bind, Option.bind_eq_bind, Option.pure_def, List.foldl_cons]
    exact ih (addSamplers init p) (fun q hq => by
      have := h q (List.mem_cons_of_mem _ hq)
      simpa [addSamplers, addedBuckets_length] using this)

theorem foldl_addSamplers_fields (ps : List SlotBindStats) (init : SlotBindStats) :
    (ps.foldl addSamplers init).calls = ps.foldl (fun n p => add32 n p.calls) init.calls ∧
    (ps.foldl addSamplers init).sets = ps.foldl (fun n p => add32 n p.sets) init.sets ∧
    (ps.foldl addSamplers init).nulls = ps.foldl (fun n p => add32 n p.nulls) init.nulls ∧
    (ps.foldl addSamplers init).bindslots =
      sumBuckets init.bindslots (ps.map (fun p => p.bindslots)) := by
  induction ps generalizing init with
  | nil => exact ⟨rfl, rfl, rfl, rfl⟩
  | cons p ps ih =>
    simp only [List.foldl_cons, List.map_cons, sumBuckets]
    exact ih (addSamplers init p)

/-! ### Resource binds -/

theorem totalResourcesPerStage_eq (F : Formatting) (stats : FrameStatistics)
    (h : ∀ s, s < F.stageCount →
      (stats.resources s).types.length ≤ (stats.resources 0).types.length ∧
      (stats.resources s).bindslots.length ≤ (stats.resources 0).bindslots.length) :
    totalResourcesPerStage F stats = some ((List.range F.stageCount).map (stageResources stats)) := by
  unfold totalResourcesPerStage
  apply mapM_option_some
  intro s hs
  have hs' := h s (List.mem_range.mp hs)
  rw [addBuckets_eq _ _ (by rw [createArray_length]; exact hs'.1),
    addBuckets_eq _ _ (by rw [createArray_length]; exact hs'.2)]
  rfl

theorem totalResourcesPerStage_none (F : Formatting) (stats : FrameStatistics)
    (h : ∃ s, s < F.stageCount ∧
      ((stats.resources 0).types.length < (stats.resources s).types.length ∨
       (stats.resources 0).bindslots.length < (stats.resources s).bindslots.length)) :
    totalResourcesPerStage F stats = none := by
  unfold totalResourcesPerStage
  apply mapM_option_none
  obtain ⟨s, hs, hlen⟩ := h
  refine ⟨s, List.mem_range.mpr hs, ?_⟩
  by_cases h1 : (stats.resources 0).types.length < (stats.resources s).types.length
  · rw [addBuckets_none _ _ (by rw [createArray_length]; exact h1)]
    rfl
  · rw [addBuckets_eq _ _ (by rw [createArray_length]; omega)]
    have h2 : (stats.resources 0).bindslots.length < (stats.resources s).bindslots.length := by
      rcases hlen with h | h
      · exact absurd h h1
      · exact h
    rw [addBuckets_none _ _ (by rw [createArray_length]; exact h2)]
    rfl

theorem foldlM_addResources (ps : List ResourceBindStats) (init : ResourceBindStats)
    (h : ∀ p ∈ ps, p.types.length ≤ init.types.length ∧
      p.bindslots.length ≤ init.bindslots.length) :
    ps.foldlM
      (fun (t : ResourceBindStats) (p : ResourceBindStats) => do
        let types ← addBuckets t.types p.types
        let bindslots ← addBuckets t.bindslots p.bindslots
        pure { calls := add32 t.calls p.calls
               sets := add32 t.sets p.sets
               nulls := add32 t.nulls p.nulls
               types := types
               bindslots := bindslots }) init
      = some (ps.foldl addResources init) := by
  induction ps generalizing init with
  | nil => rfl
  | cons p ps ih =>
    have hp := h p (List.mem_cons_self _ _)
    rw [List.foldlM_cons, addBuckets_eq _ _ hp.1, addBuckets_eq _ _ hp.2]
    simp only [Option.some_bind, Option.bind_eq_bind, Option.pure_def, List.foldl_cons]
    exact ih (addResources init p) (fun q hq => by
      have := h q (List.mem_cons_of_mem _ hq)
      simpa [addResources, addedBuckets_length] using this)

theorem foldl_addResources_fields (ps : List ResourceBindStats) (init : ResourceBindStats) :
    (ps.foldl addResources init).calls = ps.foldl (fun n p => add32 n p.calls) init.calls ∧
    (ps.foldl addResources init).sets = ps.foldl (fun n p => add32 n p.sets) init.sets ∧
    (ps.foldl addResources init).nulls = ps.foldl (fun n p => add32 n p.nulls) init.nulls ∧
    (ps.foldl addResources init).types = sumBuckets init.types (ps.map (fun p => p.types)) ∧
    (ps.foldl addResources init).bindslots =
      sumBuckets init.bindslots (ps.map (fun p => p.bindslots)) := by
  induction ps generalizing init with
  | nil => exact ⟨rfl, rfl, rfl, rfl, rfl⟩
  | cons p ps ih =>
    simp only [List.foldl_cons, List.map_cons, sumBuckets]
    exact ih (addResources init p)

/-! ### Totals over the stages -/

/-- A counter accumulated over per-stage totals that were themselves
accumulated from zero: the sum over the stages modulo `2 ^ 32`. -/
theorem foldl_add32_stage {α : Type} (F : Formatting) (g : Nat → α) (c : α → Nat)
    (f : Nat → Nat) (h : ∀ s, c (g s) = add32 0 (f s)) :
    ((List.range F.stageCount).map g).foldl (fun n p => add32 n (c p)) 0 =
      stageSum F f % 2 ^ 32 := by
  rw [foldl_add32 _ c 0 (by norm_num), List.map_map, Nat.zero_add]
  have : (c ∘ g) = fun s => f s % 2 ^ 32 := by
    funext s
    simp only [Function.comp, h s, add32, Nat.zero_add]
  rw [this, sum_map_mod]
  rfl

/-- A bucket accumulated over per-stage arrays that were themselves
accumulated from zeroed arrays of the reference length: the sum over the
stages, modulo `2 ^ 32`, of the bucket of the same index. -/
theorem sumBuckets_stage {α : Type} (F : Formatting) (g : Nat → α) (b : α → List Nat)
    (a : Nat → List Nat) (len : Nat) (h : ∀ s, b (g s) = addedBuckets (createArray len) (a s))
    (i : Nat) (hi : i < len) :
    (sumBuckets (createArray len) (((List.range F.stageCount).map g).map b)).getD i 0 =
      stageSum F (fun s => (a s).getD i 0) % 2 ^ 32 := by
  rw [sumBuckets_getD _ _ (fun j => by rw [createArray_getD]; norm_num) i
    (by rw [createArray_length]; exact hi), createArray_getD, Nat.zero_add, List.map_map,
    List.map_map]
  have : (((fun l : List Nat => l.getD i 0) ∘ b) ∘ g) = fun s => (a s).getD i 0 % 2 ^ 32 := by
    funext s
    simp only [Function.comp, h s]
    rw [addedBuckets_getD _ _ i (by rw [createArray_length]; exact hi)
      (by rw [createArray_getD]; norm_num), createArray_getD, Nat.zero_add]
  rw [this, sum_map_mod]
  rfl

theorem totalShadersPerStage_fields (F : Formatting) (stats : FrameStatistics) :
    (totalShadersPerStage F stats).calls = stageSum F (fun s => (stats.shaders s).calls) % 2 ^ 32 ∧
    (totalShadersPerStage F stats).sets = stageSum F (fun s => (stats.shaders s).sets) % 2 ^ 32 ∧
    (totalShadersPerStage F stats).nulls = stageSum F (fun s => (stats.shaders s).nulls) % 2 ^ 32 ∧
    (totalShadersPerStage F stats).redundants =
      stageSum F (fun s => (stats.shaders s).redundants) % 2 ^ 32 := by
  have key : ∀ (l : List Nat) (t : ShaderChangeStats),
      (l.foldl (fun (t : ShaderChangeStats) (s : Nat) =>
        ({ calls := add32 t.calls (stats.shaders s).calls
           sets := add32 t.sets (stats.shaders s).sets
           nulls := add32 t.nulls (stats.shaders s).nulls
           redundants := add32 t.redundants (stats.shaders s).redundants } : ShaderChangeStats)) t)
      = { calls := l.foldl (fun n s => add32 n (stats.shaders s).calls) t.calls
          sets := l.foldl (fun n s => add32 n (stats.shaders s).sets) t.sets
          nulls := l.foldl (fun n s => add32 n (stats.shaders s).nulls) t.nulls
          redundants := l.foldl (fun n s => add32 n (stats.shaders s).redundants) t.redundants } := by
    intro l
    induction l with
    | nil => intro t; rfl
    | cons a l ih => intro t; rw [List.foldl_cons, ih]; rfl
  unfold totalShadersPerStage
  rw [key]
  simp only [stageSum]
  refine ⟨?_, ?_, ?_, ?_⟩ <;>
  · rw [foldl_add32 _ _ 0 (by norm_num), Nat.zero_add]

/-- The totals of `AppendConstantBindStatistics` when no stage has more
buckets than stage 0. -/
theorem constantTotals_spec (F : Formatting) (stats : FrameStatistics) (hN : 0 < F.stageCount)
    (h : ∀ s, s < F.stageCount →
      (stats.constants s).bindslots.length ≤ (stats.constants 0).bindslots.length ∧
      (stats.constants s).sizes.length ≤ (stats.constants 0).sizes.length) :
    ∃ t, totalConstantsPerStage F stats =
        some ((List.range F.stageCount).map (stageConstants stats)) ∧
      totalConstantsForAllStages ((List.range F.stageCount).map (stageConstants stats)) = some t ∧
      t.calls = stageSum F (fun s => (stats.constants s).calls) % 2 ^ 32 ∧
      t.sets = stageSum F (fun s => (stats.constants s).sets) % 2 ^ 32 ∧
      t.nulls = stageSum F (fun s => (stats.constants s).nulls) % 2 ^ 32 ∧
      t.bindslots.length = (stats.constants 0).bindslots.length ∧
      t.sizes.length = (stats.constants 0).sizes.length ∧
      (∀ i, i < (stats.constants 0).bindslots.length → t.bindslots.getD i 0 =
        stageSum F (fun s => (stats.constants s).bindslots.getD i 0) % 2 ^ 32) ∧
      (∀ i, i < (stats.constants 0).sizes.length → t.sizes.getD i 0 =
        stageSum F (fun s => (stats.constants s).sizes.getD i 0) % 2 ^ 32) := by
  have hfirst : ((List.range F.stageCount).map (stageConstants stats))[0]? =
      some (stageConstants stats 0) := by
    rw [List.getElem?_map, List.getElem?_range hN]; rfl
  have hl1 : (stageConstants stats 0).bindslots.length = (stats.constants 0).bindslots.length := by
    simp [stageConstants, addedBuckets_length, createArray_length]
  have hl2 : (stageConstants stats 0).sizes.length = (stats.constants 0).sizes.length := by
    simp [stageConstants, addedBuckets_length, createArray_length]
  have htot : totalConstantsForAllStages ((List.range F.stageCount).map (stageConstants stats)) =
      some (((List.range F.stageCount).map (stageConstants stats)).foldl addConstants
        { calls := 0, sets := 0, nulls := 0
          bindslots := createArray (stats.constants 0).bindslots.length
          sizes := createArray (stats.constants 0).sizes.length }) := by
    unfold totalConstantsForAllStages
    rw [hfirst]
    simp only [Option.some_bind, Option.bind_eq_bind, hl1, hl2]
    apply foldlM_addConstants
    intro p hp
    obtain ⟨s, _, rfl⟩ := List.mem_map.mp hp
    simp [stageConstants, addedBuckets_length, createArray_length]
  obtain ⟨f1, f2, f3, f4, f5⟩ := foldl_addConstants_fields
    ((List.range F.stageCount).map (stageConstants stats))
    { calls := 0, sets := 0, nulls := 0
      bindslots := createArray (stats.constants 0).bindslots.length
      sizes := createArray (stats.constants 0).sizes.length }
  refine ⟨_, totalConstantsPerStage_eq F stats h, htot, ?_, ?_, ?_, ?_, ?_, ?_, ?_⟩
  · rw [f1]; exact foldl_add32_stage F _ _ _ (fun s => rfl)
  · rw [f2]; exact foldl_add32_stage F _ _ _ (fun s => rfl)
  · rw [f3]; exact foldl_add32_stage F _ _ _ (fun s => rfl)
  · rw [f4, sumBuckets_length, createArray_length]
  · rw [f5, sumBuckets_length, createArray_length]
  · intro i hi
    rw [f4]
    exact sumBuckets_stage F (stageConstants stats) (fun p => p.bindslots)
      (fun s => (stats.constants s).bindslots) _ (fun s => rfl) i hi
  · intro i hi
    rw [f5]
    exact sumBuckets_stage F (stageConstants stats) (fun p => p.sizes)
      (fun s => (stats.constants s).sizes) _ (fun s => rfl) i hi

/-- The totals of `AppendSamplerBindStatistics` when no stage has more
buckets than stage 0. -/
theorem samplerTotals_spec (F : Formatting) (stats : FrameStatistics) (hN : 0 < F.stageCount)
    (h : ∀ s, s < F.stageCount →
      (stats.samplers s).bindslots.length ≤ (stats.samplers 0).bindslots.length) :
    ∃ t, totalSamplersPerStage F stats =
        some ((List.range F.stageCount).map (stageSamplers stats)) ∧
      totalSamplersForAllStages ((List.range F.stageCount).map (stageSamplers stats)) = some t ∧
      t.calls = stageSum F (fun s => (stats.samplers s).calls) % 2 ^ 32 ∧
      t.sets = stageSum F (fun s => (stats.samplers s).sets) % 2 ^ 32 ∧
      t.nulls = stageSum F (fun s => (stats.samplers s).nulls) % 2 ^ 32 ∧
      t.bindslots.length = (stats.samplers 0).bindslots.length ∧
      (∀ i, i < (stats.samplers 0).bindslots.length → t.bindslots.getD i 0 =
        stageSum F (fun s => (stats.samplers s).bindslots.getD i 0) % 2 ^ 32) := by
  have hfirst : ((List.range F.stageCount).map (stageSamplers stats))[0]? =
      some (stageSamplers stats 0) := by
    rw [List.getElem?_map, List.getElem?_range hN]; rfl
  have hl1 : (stageSamplers stats 0).bindslots.length = (stats.samplers 0).bindslots.length := by
    simp [stageSamplers, addedBuckets_length, createArray_length]
  have htot : totalSamplersForAllStages ((List.range F.stageCount).map (stageSamplers stats)) =
      some (((List.range F.stageCount).map (stageSamplers stats)).foldl addSamplers
        { calls := 0, sets := 0, nulls := 0
          bindslots := createArray (stats.samplers 0).bindslots.length }) := by
    unfold totalSamplersForAllStages
    rw [hfirst]
    simp only [Option.some_bind, Option.bind_eq_bind, hl1]
    apply foldlM_addSamplers
    intro p hp
    obtain ⟨s, _, rfl⟩ := List.mem_map.mp hp
    simp [stageSamplers, addedBuckets_length, createArray_length]
  obtain ⟨f1, f2, f3, f4⟩ := foldl_addSamplers_fields
    ((List.range F.stageCount).map (stageSamplers stats))
    { calls := 0, sets := 0, nulls := 0
      bindslots := createArray (stats.samplers 0).bindslots.length }
  refine ⟨_, totalSamplersPerStage_eq F stats h, htot, ?_, ?_, ?_, ?_, ?_⟩
  · rw [f1]; exact foldl_add32_stage F _ _ _ (fun s => rfl)
  · rw [f2]; exact foldl_add32_stage F _ _ _ (fun s => rfl)
  · rw [f3]; exact foldl_add32_stage F _ _ _ (fun s => rfl)
  · rw [f4, sumBuckets_length, createArray_length]
  · intro i hi
    rw [f4]
    exact sumBuckets_stage F (stageSamplers stats) (fun p => p.bindslots)
      (fun s => (stats.samplers s).bindslots) _ (fun s => rfl) i hi

/-- The totals of `AppendResourceBindStatistics` when no stage has more
buckets than stage 0. -/
theorem resourceTotals_spec (F : Formatting) (stats : FrameStatistics) (hN : 0 < F.stageCount)
    (h : ∀ s, s < F.stageCount →
      (stats.resources s).types.length ≤ (stats.resources 0).types.length ∧
      (stats.resources s).bindslots.length ≤ (stats.resources 0).bindslots.length) :
    ∃ t, totalResourcesPerStage F stats =
        some ((List.range F.stageCount).map (stageResources stats)) ∧
      totalResourcesForAllStages ((List.range F.stageCount).map (stageResources stats)) = some t ∧
      t.calls = stageSum F (fun s => (stats.resources s).calls) % 2 ^ 32 ∧
      t.sets = stageSum F (fun s => (stats.resources s).sets) % 2 ^ 32 ∧
      t.nulls = stageSum F (fun s => (stats.resources s).nulls) % 2 ^ 32 ∧
      t.types.length = (stats.resources 0).types.length ∧
      t.bindslots.length = (stats.resources 0).bindslots.length ∧
      (∀ i, i < (stats.resources 0).types.length → t.types.getD i 0 =
        stageSum F (fun s => (stats.resources s).types.getD i 0) % 2 ^ 32) ∧
      (∀ i, i < (stats.resources 0).bindslots.length → t.bindslots.getD i 0 =
        stageSum F (fun s => (stats.resources s).bindslots.getD i 0) % 2 ^ 32) := by
  have hfirst : ((List.range F.stageCount).map (stageResources stats))[0]? =
      some (stageResources stats 0) := by
    rw [List.getElem?_map, List.getElem?_range hN]; rfl
  have hl1 : (stageResources stats 0).types.length = (stats.resources 0).types.length := by
    simp [stageResources, addedBuckets_length, createArray_length]
  have hl2 : (stageResources stats 0).bindslots.length =
      (stats.resources 0).bindslots.length := by
    simp [stageResources, addedBuckets_length, createArray_length]
  have htot : totalResourcesForAllStages ((List.range F.stageCount).map (stageResources stats)) =
      some (((List.range F.stageCount).map (stageResources stats)).foldl addResources
        { calls := 0, sets := 0, nulls := 0
          types := createArray (stats.resources 0).types.length
          bindslots := createArray (stats.resources 0).bindslots.length }) := by
    unfold totalResourcesForAllStages
    rw [hfirst]
    simp only [Option.some_bind, Option.bind_eq_bind, hl1, hl2]
    apply foldlM_addResources
    intro p hp
    obtain ⟨s, _, rfl⟩ := List.mem_map.mp hp
    simp [stageResources, addedBuckets_length, createArray_length]
  obtain ⟨f1, f2, f3, f4, f5⟩ := foldl_addResources_fields
    ((List.range F.stageCount).map (stageResources stats))
    { calls := 0, sets := 0, nulls := 0
      types := createArray (stats.resources 0).types.length
      bindslots := createArray (stats.resources 0).bindslots.length }
  refine ⟨_, totalResourcesPerStage_eq F stats h, htot, ?_, ?_, ?_, ?_, ?_, ?_, ?_⟩
  · rw [f1]; exact foldl_add32_stage F _ _ _ (fun s => rfl)
  · rw [f2]; exact foldl_add32_stage F _ _ _ (fun s => rfl)
  · rw [f3]; exact foldl_add32_stage F _ _ _ (fun s => rfl)
  · rw [f4, sumBuckets_length, createArray_length]
  · rw [f5, sumBuckets_length, createArray_length]
  · intro i hi
    rw [f4]
    exact sumBuckets_stage F (stageResources stats) (fun p => p.types)
      (fun s => (stats.resources s).types) _ (fun s => rfl) i hi
  · intro i hi
    rw [f5]
    exact sumBuckets_stage F (stageResources stats) (fun p => p.bindslots)
      (fun s => (stats.resources s).bindslots) _ (fun s => rfl) i hi

/-! ## Claims on the section builders -/

/-- C6, as the claim states it, fails: with two stages whose sampler slot
histograms (of equal length) are `[2 ^ 32 - 1, 5]` and `[1, 7]`, bucket 0 of
the aggregate is 0, not the exact sum `2 ^ 32`. -/
theorem C6_counterexample :
    (overflowSamplers.samplers 0).bindslots.length =
      (overflowSamplers.samplers 1).bindslots.length ∧
    (∃ t, (totalSamplersPerStage (exampleFormatting 2) overflowSamplers).bind
        totalSamplersForAllStages = some t ∧ t.bindslots.getD 0 0 = 0) ∧
    stageSum (exampleFormatting 2) (fun s => (overflowSamplers.samplers s).bindslots.getD 0 0) =
      4294967296 := by
  refine ⟨by decide, ?_, by decide⟩
  obtain ⟨t, h1, h2, _, _, _, _, h7⟩ := samplerTotals_spec (exampleFormatting 2) overflowSamplers
    (by decide) (by intro s hs; have : s < 2 := hs; interval_cases s <;> decide)
  refine ⟨t, by rw [h1]; exact h2, ?_⟩
  rw [h7 0 (by decide)]
  decide

/-- C6, amended: when all shader stages have bucket arrays of the same length,
the all-stages aggregate arrays (constant bindslots and sizes, sampler
bindslots, resource types and bindslots) have that length and each bucket `i`
equals the sum over all stages of that stage's bucket `i`, reduced modulo
`2 ^ 32`; no bucket of another index enters the sum. -/
theorem C6_bucket_sums_modulo (F : Formatting) (stats : FrameStatistics)
    (hN : 0 < F.stageCount)
    (hc : ∀ s, s < F.stageCount →
      (stats.constants s).bindslots.length = (stats.constants 0).bindslots.length ∧
      (stats.constants s).sizes.length = (stats.constants 0).sizes.length)
    (hs : ∀ s, s < F.stageCount →
      (stats.samplers s).bindslots.length = (stats.samplers 0).bindslots.length)
    (hr : ∀ s, s < F.stageCount →
      (stats.resources s).types.length = (stats.resources 0).types.length ∧
      (stats.resources s).bindslots.length = (stats.resources 0).bindslots.length) :
    (∃ t, (totalConstantsPerStage F stats).bind totalConstantsForAllStages = some t ∧
      t.bindslots.length = (stats.constants 0).bindslots.length ∧
      t.sizes.length = (stats.constants 0).sizes.length ∧
      (∀ i, i < (stats.constants 0).bindslots.length → t.bindslots.getD i 0 =
        stageSum F (fun s => (stats.constants s).bindslots.getD i 0) % 2 ^ 32) ∧
      (∀ i, i < (stats.constants 0).sizes.length → t.sizes.getD i 0 =
        stageSum F (fun s => (stats.constants s).sizes.getD i 0) % 2 ^ 32)) ∧
    (∃ t, (totalSamplersPerStage F stats).bind totalSamplersForAllStages = some t ∧
      t.bindslots.length = (stats.samplers 0).bindslots.length ∧
      (∀ i, i < (stats.samplers 0).bindslots.length → t.bindslots.getD i 0 =
        stageSum F (fun s => (stats.samplers s).bindslots.getD i 0) % 2 ^ 32)) ∧
    (∃ t, (totalResourcesPerStage F stats).bind totalResourcesForAllStages = some t ∧
      t.types.length = (stats.resources 0).types.length ∧
      t.bindslots.length = (stats.resources 0).bindslots.length ∧
      (∀ i, i < (stats.resources 0).types.length → t.types.getD i 0 =
        stageSum F (fun s => (stats.resources s).types.getD i 0) % 2 ^ 32) ∧
      (∀ i, i < (stats.resources 0).bindslots.length → t.bindslots.getD i 0 =
        stageSum F (fun s => (stats.resources s).bindslots.getD i 0) % 2 ^ 32)) := by
  refine ⟨?_, ?_, ?_⟩
  · obtain ⟨t, h1, h2, _, _, _, h6, h7, h8, h9⟩ := constantTotals_spec F stats hN
      (fun s h => ⟨le_of_eq (hc s h).1, le_of_eq (hc s h).2⟩)
    exact ⟨t, by rw [h1]; exact h2, h6, h7, h8, h9⟩
  · obtain ⟨t, h1, h2, _, _, _, h6, h7⟩ := samplerTotals_spec F stats hN
      (fun s h => le_of_eq (hs s h))
    exact ⟨t, by rw [h1]; exact h2, h6, h7⟩
  · obtain ⟨t, h1, h2, _, _, _, h6, h7, h8, h9⟩ := resourceTotals_spec F stats hN
      (fun s h => ⟨le_of_eq (hr s h).1, le_of_eq (hr s h).2⟩)
    exact ⟨t, by rw [h1]; exact h2, h6, h7, h8, h9⟩

/-- Witness of the amended C6: two stages with sampler slot histograms
`[2 ^ 32 - 1, 5]` and `[1, 7]`. -/
theorem C6_bucket_sums_modulo_witness :
    ∃ t, (totalSamplersPerStage (exampleFormatting 2) overflowSamplers).bind
        totalSamplersForAllStages = some t ∧
      t.bindslots.length = (overflowSamplers.samplers 0).bindslots.length ∧
      (∀ i, i < (overflowSamplers.samplers 0).bindslots.length → t.bindslots.getD i 0 =
        stageSum (exampleFormatting 2)
          (fun s => (overflowSamplers.samplers s).bindslots.getD i 0) % 2 ^ 32) :=
  (C6_bucket_sums_modulo (exampleFormatting 2) overflowSamplers (by decide)
    (fun _ _ => ⟨rfl, rfl⟩)
    (by intro s hs; have : s < 2 := hs; interval_cases s <;> decide)
    (fun _ _ => ⟨rfl, rfl⟩)).2.1

theorem AppendConstantBindStatistics_none (F : Formatting) (log : String)
    (frameInfo : FrameDescription) (h : totalConstantsPerStage F frameInfo.stats = none) :
    AppendConstantBindStatistics F log frameInfo = none := by
  unfold AppendConstantBindStatistics
  rw [h]; rfl

theorem AppendSamplerBindStatistics_none (F : Formatting) (log : String)
    (frameInfo : FrameDescription) (h : totalSamplersPerStage F frameInfo.stats = none) :
    AppendSamplerBindStatistics F log frameInfo = none := by
  unfold AppendSamplerBindStatistics
  rw [h]; rfl

theorem AppendResourceBindStatistics_none (F : Formatting) (log : String)
    (frameInfo : FrameDescription) (h : totalResourcesPerStage F frameInfo.stats = none) :
    AppendResourceBindStatistics F log frameInfo = none := by
  unfold AppendResourceBindStatistics
  rw [h]; rfl

/-- The sampler section is produced when no stage has more slot buckets than
stage 0 and stage 0 has at least one. -/
theorem AppendSamplerBindStatistics_some (F : Formatting) (log : String)
    (frameInfo : FrameDescription) (hN : 0 < F.stageCount)
    (h : ∀ s, s < F.stageCount → (frameInfo.stats.samplers s).bindslots.length ≤
      (frameInfo.stats.samplers 0).bindslots.length)
    (hL : 0 < (frameInfo.stats.samplers 0).bindslots.length) :
    ∃ out, AppendSamplerBindStatistics F log frameInfo = some out := by
  obtain ⟨t, h1, h2, _, _, _, h6, h7⟩ := samplerTotals_spec F frameInfo.stats hN h
  have hne : t.bindslots ≠ [] := by
    intro hc; rw [hc] at h6; simp at h6; omega
  have hw : ∀ x ∈ t.bindslots, x < 2 ^ 32 := by
    intro x hx
    obtain ⟨i, hi, rfl⟩ := List.getElem_of_mem hx
    have := h7 i (by omega)
    rw [List.getD_eq_getElem?_getD, List.getElem?_eq_getElem hi] at this
    simp only [Option.getD_some] at this
    rw [this]
    exact Nat.mod_lt _ (by norm_num)
  unfold AppendSamplerBindStatistics
  rw [h1]
  simp only [Option.some_bind, Option.bind_eq_bind]
  rw [h2]
  simp only [Option.some_bind]
  rw [CreateSimpleIntegerHistogram_eq _ _ hne hw]
  exact ⟨_, rfl⟩

/-! ## Properties of the report assembler -/

/-- The printing loop extends the text it is given. -/
theorem appendBars_extends (a t : String) (array : List Nat) (start maxWithValue maxCount : Nat)
    (label : Nat → Option String) :
    appendBars (a ++ t) array start maxWithValue maxCount label =
      (appendBars t array start maxWithValue maxCount label).map (fun r => a ++ r) := by
  unfold appendBars
  generalize List.range' start (maxWithValue + 1 - start) = l
  induction l generalizing t with
  | nil => rfl
  | cons o l ih =>
    rw [List.foldlM_cons, List.foldlM_cons]
    cases h : bucketLine array maxCount label o with
    | none => rfl
    | some line =>
      simp only [Option.some_bind, Option.bind_eq_bind, Option.pure_def]
      rw [String.append_assoc]
      exact ih (t ++ line)

theorem appendHistogram_extends (a t : String) (array : List Nat) (start : Nat)
    (label : Nat → Option String) :
    appendHistogram (a ++ t) array start label =
      (appendHistogram t array start label).map (fun r => a ++ r) := by
  unfold appendHistogram
  rw [scanBuckets_eq]
  simp only [Option.some_bind, Option.bind_eq_bind]
  exact appendBars_extends a t array start _ _ label

theorem foldl_append_extends {α : Type} (g : α → String) (l : List α) (a t : String) :
    l.foldl (fun (log : String) (x : α) => log ++ g x) (a ++ t) =
      a ++ l.foldl (fun (log : String) (x : α) => log ++ g x) t := by
  induction l generalizing t with
  | nil => rfl
  | cons x l ih =>
    rw [List.foldl_cons, List.foldl_cons, String.append_assoc]
    exact ih (t ++ g x)

theorem AppendDrawStatistics_appends : Appends AppendDrawStatistics := by
  intro log frameInfo
  unfold AppendDrawStatistics
  simp only
  split_ifs with h
  · rw [← appendHistogram_extends]
    simp only [String.append_assoc, String.empty_append]
  · simp only [Option.map_some', String.append_assoc, String.empty_append]

theorem AppendDispatchStatistics_appends : Appends AppendDispatchStatistics := by
  intro log frameInfo
  unfold AppendDispatchStatistics
  simp only [Option.map_some', String.append_assoc, String.empty_append]

theorem AppendBlendStatistics_appends : Appends AppendBlendStatistics := by
  intro log frameInfo
  unfold AppendBlendStatistics
  simp only [Option.map_some', String.append_assoc, String.empty_append]

theorem AppendDepthStencilStatistics_appends : Appends AppendDepthStencilStatistics := by
  intro log frameInfo
  unfold AppendDepthStencilStatistics
  simp only [Option.map_some', String.append_assoc, String.empty_append]

theorem AppendInputAssemblerStatistics_appends : Appends AppendInputAssemblerStatistics := by
  intro log frameInfo
  unfold AppendInputAssemblerStatistics
  dsimp only
  cases CreateSimpleIntegerHistogram "Aggregate vertex slot counts per invocation"
      frameInfo.stats.vertices.bindslots with
  | none => rfl
  | some hist =>
    simp only [Option.some_bind, Option.bind_eq_bind, Option.pure_def, Option.map_some',
      String.append_assoc, String.empty_append]

theorem AppendOutputStatistics_appends : Appends AppendOutputStatistics := by
  intro log frameInfo
  unfold AppendOutputStatistics
  dsimp only
  cases CreateSimpleIntegerHistogram "Outputs set" frameInfo.stats.outputs.bindslots with
  | none => rfl
  | some hist =>
    simp only [Option.some_bind, Option.bind_eq_bind, Option.pure_def, Option.map_some',
      String.append_assoc, String.empty_append]

theorem AppendRasterizationStatistics_appends : Appends AppendRasterizationStatistics := by
  intro log frameInfo
  unfold AppendRasterizationStatistics
  dsimp only
  cases CreateSimpleIntegerHistogram "Viewports set" frameInfo.stats.rasters.viewports with
  | none => rfl
  | some v =>
    cases CreateSimpleIntegerHistogram "Scissors set" frameInfo.stats.rasters.rects with
    | none => rfl
    | some r =>
      simp only [Option.some_bind, Option.bind_eq_bind, Option.pure_def, Option.map_some',
        String.append_assoc, String.empty_append]

theorem AppendShaderStatistics_appends (F : Formatting) : Appends (AppendShaderStatistics F) := by
  intro log frameInfo
  unfold AppendShaderStatistics
  simp only [Option.map_some', String.empty_append]
  rw [foldl_append_extends, String.append_assoc]

theorem AppendSamplerBindStatistics_appends (F : Formatting) :
    Appends (AppendSamplerBindStatistics F) := by
  intro log frameInfo
  unfold AppendSamplerBindStatistics
  dsimp only
  cases totalSamplersPerStage F frameInfo.stats with
  | none => rfl
  | some ps =>
    simp only [Option.some_bind, Option.bind_eq_bind]
    cases totalSamplersForAllStages ps with
    | none => rfl
    | some t =>
      simp only [Option.some_bind]
      cases CreateSimpleIntegerHistogram
          "Aggregate slot counts per invocation across all stages" t.bindslots with
      | none => rfl
      | some hist =>
        simp only [Option.some_bind, Option.pure_def, Option.map_some', String.empty_append]
        rw [foldl_append_extends]
        simp only [String.append_assoc]

theorem AppendConstantBindStatistics_appends (F : Formatting) :
    Appends (AppendConstantBindStatistics F) := by
  intro log frameInfo
  unfold AppendConstantBindStatistics
  dsimp only
  cases totalConstantsPerStage F frameInfo.stats with
  | none => rfl
  | some ps =>
    simp only [Option.some_bind, Option.bind_eq_bind]
    cases totalConstantsForAllStages ps with
    | none => rfl
    | some t =>
      simp only [Option.some_bind]
      cases CreateSimpleIntegerHistogram
          "Aggregate slot counts per invocation across all stages" t.bindslots with
      | none => rfl
      | some hist =>
        simp only [Option.some_bind, String.empty_append]
        rw [← appendHistogram_extends, foldl_append_extends]
        simp only [String.append_assoc]

theorem AppendResourceBindStatistics_appends (F : Formatting) :
    Appends (AppendResourceBindStatistics F) := by
  intro log frameInfo
  unfold AppendResourceBindStatistics
  dsimp only
  cases totalResourcesPerStage F frameInfo.stats with
  | none => rfl
  | some ps =>
    simp only [Option.some_bind, Option.bind_eq_bind]
    cases totalResourcesForAllStages ps with
    | none => rfl
    | some t =>
      simp only [Option.some_bind, String.empty_append]
      rw [foldl_append_extends]
      simp only [String.append_assoc]
      rw [appendHistogram_extends]
      cases appendHistogram _ t.types 0 _ with
      | none => rfl
      | some l2 =>
        simp only [Option.map_some', Option.some_bind]
        cases CreateSimpleIntegerHistogram
            "Aggregate slot counts per invocation across all stages" t.bindslots with
        | none => rfl
        | some hist =>
          simp only [Option.some_bind, Option.pure_def, Option.map_some', String.append_assoc]

theorem AppendUpdateStatistics_appends (F : Formatting) : Appends (AppendUpdateStatistics F) := by
  intro log frameInfo
  unfold AppendUpdateStatistics
  dsimp only
  cases addBuckets (createArray frameInfo.stats.updates.types.length)
      frameInfo.stats.updates.types with
  | none => rfl
  | some types =>
    simp only [Option.some_bind, Option.bind_eq_bind]
    cases addBuckets (createArray frameInfo.stats.updates.sizes.length)
        frameInfo.stats.updates.sizes with
    | none => rfl
    | some sizes =>
      simp only [Option.some_bind, String.empty_append, String.append_assoc]
      rw [appendHistogram_extends]
      cases appendHistogram _ types 1 _ with
      | none => rfl
      | some l2 =>
        simp only [Option.map_some', Option.some_bind, String.append_assoc]
        rw [appendHistogram_extends]

theorem sectionBuilders_append (F : Formatting) : ∀ b ∈ sectionBuilders F, Appends b := by
  intro b hb
  simp only [sectionBuilders, List.mem_cons, List.mem_singleton, List.not_mem_nil,
    or_false] at hb
  rcases hb with h | h | h | h | h | h | h | h | h | h | h | h <;> subst h
  · exact AppendDrawStatistics_appends
  · exact AppendDispatchStatistics_appends
  · exact AppendInputAssemblerStatistics_appends
  · exact AppendShaderStatistics_appends F
  · exact AppendConstantBindStatistics_appends F
  · exact AppendSamplerBindStatistics_appends F
  · exact AppendResourceBindStatistics_appends F
  · exact AppendBlendStatistics_appends
  · exact AppendDepthStencilStatistics_appends
  · exact AppendRasterizationStatistics_appends
  · exact AppendUpdateStatistics_appends F
  · exact AppendOutputStatistics_appends

theorem runBuilders_cons (b : String → FrameDescription → Option String)
    (bs : List (String → FrameDescription → Option String)) (frameInfo : FrameDescription)
    (log : String) :
    runBuilders (b :: bs) frameInfo log = (b log frameInfo).bind (runBuilders bs frameInfo) := by
  unfold runBuilders
  rw [List.foldlM_cons]
  rfl

/-- A chain of appending builders appends. -/
theorem foldlM_appends (bs : List (String → FrameDescription → Option String))
    (h : ∀ b ∈ bs, Appends b) (frameInfo : FrameDescription) (log : String) :
    runBuilders bs frameInfo log =
      (runBuilders bs frameInfo "").map (fun sec => log ++ sec) := by
  induction bs generalizing log with
  | nil => simp [runBuilders, String.append_empty]
  | cons b bs ih =>
    have ihb := ih (fun c hc => h c (List.mem_cons_of_mem _ hc))
    rw [runBuilders_cons, runBuilders_cons, h b (List.mem_cons_self _ _) log frameInfo]
    cases b "" frameInfo with
    | none => rfl
    | some sec =>
      simp only [Option.map_some', Option.some_bind]
      rw [ihb (log ++ sec), ihb sec]
      cases runBuilders bs frameInfo "" with
      | none => rfl
      | some r => simp only [Option.map_some', String.append_assoc]

theorem AppendDetailedInformation_recorded (F : Formatting) (log : String)
    (frameInfo : FrameDescription) (h : frameInfo.stats.recorded = true) :
    AppendDetailedInformation F log frameInfo = runBuilders (sectionBuilders F) frameInfo log := by
  unfold AppendDetailedInformation sectionBuilders runBuilders
  rw [h]
  simp only [Bool.not_true, Bool.false_eq_true, if_false, List.foldlM_cons, List.foldlM_nil,
    Option.bind_eq_bind, Option.pure_def, Option.bind_some]

theorem AppendDetailedInformation_not_recorded (F : Formatting) (log : String)
    (frameInfo : FrameDescription) (h : frameInfo.stats.recorded = false) :
    AppendDetailedInformation F log frameInfo = some log := by
  unfold AppendDetailedInformation
  rw [h]
  rfl

/-- The draw section starts with its heading. -/
theorem AppendDrawStatistics_heading (frameInfo : FrameDescription) (sec : String)
    (h : AppendDrawStatistics "" frameInfo = some sec) :
    ∃ rest, sec = "\n*** Draw Statistics ***\n\n" ++ rest := by
  unfold AppendDrawStatistics at h
  simp only [String.empty_append] at h
  split_ifs at h with hi
  · rw [String.append_assoc, String.append_assoc, appendHistogram_extends] at h
    cases hh : appendHistogram _ frameInfo.stats.draws.counts 1 _ with
    | none => rw [hh] at h; cases h
    | some r =>
      rw [hh] at h
      simp only [Option.map_some', Option.some.injEq] at h
      exact ⟨r, h.symm⟩
  · simp only [Option.some.injEq] at h
    exact ⟨_, by rw [← h, String.append_assoc]⟩

/-- When the statistics were recorded, the detail text starts with the
heading of the draw section. -/
theorem AppendDetailedInformation_heading (F : Formatting) (log out : String)
    (frameInfo : FrameDescription) (h : frameInfo.stats.recorded = true)
    (ho : AppendDetailedInformation F log frameInfo = some out) :
    ∃ rest, out = log ++ "\n*** Draw Statistics ***\n\n" ++ rest := by
  rw [AppendDetailedInformation_recorded F log frameInfo h,
    foldlM_appends _ (sectionBuilders_append F)] at ho
  cases hd : runBuilders (sectionBuilders F) frameInfo "" with
  | none => rw [hd] at ho; cases ho
  | some d =>
    rw [hd] at ho
    simp only [Option.map_some', Option.some.injEq] at ho
    have hd' := hd
    unfold sectionBuilders at hd'
    rw [runBuilders_cons] at hd'
    cases h1 : AppendDrawStatistics "" frameInfo with
    | none => rw [h1] at hd'; cases hd'
    | some s1 =>
      rw [h1] at hd'
      simp only [Option.some_bind] at hd'
      obtain ⟨r1, hr1⟩ := AppendDrawStatistics_heading frameInfo s1 h1
      rw [foldlM_appends _ (fun b hb => sectionBuilders_append F b (List.mem_cons_of_mem _ hb))
        frameInfo s1] at hd'
      cases h2 : runBuilders
          [AppendDispatchStatistics, AppendInputAssemblerStatistics,
            AppendShaderStatistics F, AppendConstantBindStatistics F,
            AppendSamplerBindStatistics F, AppendResourceBindStatistics F,
            AppendBlendStatistics, AppendDepthStencilStatistics,
            AppendRasterizationStatistics, AppendUpdateStatistics F,
            AppendOutputStatistics] frameInfo "" with
      | none => rw [h2] at hd'; cases hd'
      | some r2 =>
        rw [h2] at hd'
        simp only [Option.map_some', Option.some.injEq] at hd'
        refine ⟨r1 ++ r2, ?_⟩
        rw [← ho, ← hd', hr1]
        simp only [String.append_assoc]

theorem starFree_append (a b : String) : starFree (a ++ b) ↔ starFree a ∧ starFree b := by
  unfold starFree
  rw [String.data_append, List.mem_append, not_or]

theorem toDigitsCore_starFree (fuel n : Nat) (ds : List Char) (h : '*' ∉ ds) :
    '*' ∉ Nat.toDigitsCore 10 fuel n ds := by
  induction fuel generalizing n ds with
  | zero => simpa [Nat.toDigitsCore] using h
  | succ fuel ih =>
    have hd : '*' ∉ (Nat.digitChar (n % 10) :: ds) := by
      intro hc
      rcases List.mem_cons.mp hc with h1 | h1
      · have hlt : n % 10 < 10 := Nat.mod_lt _ (by norm_num)
        revert h1
        generalize n % 10 = k at hlt
        interval_cases k <;> decide
      · exact h h1
    unfold Nat.toDigitsCore
    simp only
    split_ifs
    · exact hd
    · exact ih _ _ hd

theorem argNat_starFree (n : Nat) : starFree (argNat n) := by
  unfold starFree argNat
  show '*' ∉ (Nat.repr n).data
  unfold Nat.repr Nat.toDigits
  exact toDigitsCore_starFree _ _ _ (List.not_mem_nil _)

theorem takeWhile_append_of_all (p : Char → Bool) (s r : List Char) (x : Char)
    (hs : ∀ c ∈ s, p c = true) (hx : p x = false) :
    (s ++ x :: r).takeWhile p = s := by
  induction s with
  | nil => simp [List.takeWhile, hx]
  | cons a s ih =>
    rw [List.cons_append, List.takeWhile_cons, hs a (List.mem_cons_self _ _)]
    simp only [if_true]
    rw [ih (fun c hc => hs c (List.mem_cons_of_mem _ hc))]

theorem summary_heading_contained (A B : String) :
    List.IsInfix "*** Summary ***".data (A ++ "\n*** Summary ***\n\n" ++ B).data := by
  refine ⟨A.data ++ ['\n'], ['\n', '\n'] ++ B.data, ?_⟩
  rw [String.data_append, String.data_append]
  simp only [List.append_assoc]
  rfl

theorem foldl_append_join (l : List String) (init : String) :
    l.foldl (fun log part => log ++ part) init = init ++ String.join l := by
  induction l generalizing init with
  | nil => rw [List.foldl_nil, join_nil, String.append_empty]
  | cons a l ih => rw [List.foldl_cons, ih, join_cons, String.append_assoc]

theorem summaryLog_eq (F : Formatting) (ctx : ICaptureContext) (lastDraw : DrawcallDescription) :
    summaryLog F ctx lastDraw =
      reportHeader F ctx ++ "\n*** Summary ***\n\n" ++ String.join (summaryParts F ctx lastDraw) := by
  unfold summaryLog
  rw [foldl_append_join, String.empty_append]

theorem starFree_join (l : List String) (h : ∀ p ∈ l, starFree p) : starFree (String.join l) := by
  induction l with
  | nil => rw [join_nil]; unfold starFree; decide
  | cons a l ih =>
    rw [join_cons, starFree_append]
    exact ⟨h a (List.mem_cons_self _ _), ih (fun p hp => h p (List.mem_cons_of_mem _ hp))⟩

theorem AppendAPICallSummary_not_recorded (F : Formatting) (frameInfo : FrameDescription)
    (n : Nat) (h : frameInfo.stats.recorded = false) : AppendAPICallSummary F frameInfo n = "" := by
  unfold AppendAPICallSummary
  rw [h]
  rfl

theorem summaryParts_starFree (F : Formatting) (ctx : ICaptureContext)
    (lastDraw : DrawcallDescription) (hr : ctx.FrameInfo.stats.recorded = false)
    (h2 : ∀ x, starFree (F.argFixed x)) (h3 : ∀ x, starFree (F.argFloat x)) :
    ∀ p ∈ summaryParts F ctx lastDraw, starFree p := by
  intro p hp
  unfold summaryParts at hp
  rcases hb : bufferTotals ctx.GetBuffers with ⟨a, b, c⟩
  rw [hb] at hp
  simp only [AppendAPICallSummary_not_recorded F ctx.FrameInfo _ hr, List.mem_cons,
    List.mem_singleton, List.not_mem_nil, or_false] at hp
  rcases hp with h | h | h | h | h | h <;> subst h <;> (try simp only [starFree_append]) <;>
    (repeat' apply And.intro) <;>
    first | exact argNat_starFree _ | exact h2 _ | exact h3 _ | (unfold starFree; decide)

/-! ## Claims on the bar length and the size labels -/

theorem f32Round_two_pow (k : Nat) : f32Round ((2 : ℚ) ^ k) = (2 : ℚ) ^ k := by
  have := f32Round_two_zpow (k : ℤ) (by omega)
  rwa [zpow_natCast] at this

theorem barProduct_mono {a b : Nat} (m : Nat) (hm : 0 < m) (hm32 : m < 2 ^ 32) (h : a ≤ b) :
    barProduct a m ≤ barProduct b m := by
  obtain ⟨_, hm1, _⟩ := ofNat_u32 hm hm32
  have hpos : 0 < f32Round m := by linarith
  unfold barProduct
  apply f32Round_mono
  apply mul_le_mul_of_nonneg_right _ (by norm_num)
  apply f32Round_mono
  apply div_le_div_of_nonneg_right _ hpos.le
  exact f32Round_mono (by exact_mod_cast h)

/-- The function `SliceForString` on non-zero `uint32_t` arguments: the
truncated single-precision product when it fits an `int`, undefined
otherwise. -/
theorem SliceForString_u32 {c m : Nat} (hc : 0 < c) (hc32 : c < 2 ^ 32) (hm : 0 < m)
    (hm32 : m < 2 ^ 32) :
    SliceForString Stars c m =
      if barProduct c m < (2 : ℚ) ^ (31 : ℕ) then some (max 1 ⌊barProduct c m⌋) else none := by
  obtain ⟨ec, hc1, hc2⟩ := ofNat_u32 hc hc32
  obtain ⟨em, hm1, hm2⟩ := ofNat_u32 hm hm32
  have hq : f32Round c / f32Round m ≤ 4294967296 := by
    rw [div_le_iff₀ (by linarith)]
    nlinarith
  have hr : f32Round (f32Round c / f32Round m) ≤ 4294967296 := by
    have := f32Round_mono hq
    rwa [f32Round_two32] at this
  have hp : barProduct c m ≤ (2 : ℚ) ^ (39 : ℕ) := by
    unfold barProduct
    have h1 : f32Round (f32Round c / f32Round m) * 128 ≤ (2 : ℚ) ^ (39 : ℕ) := by
      norm_num; linarith
    have := f32Round_mono h1
    rwa [f32Round_two_pow] at this
  have h128 : F32.ofNat 128 = F32.fin 128 := by
    have := (ofNat_u32 (n := 128) (by norm_num) (by norm_num)).1
    rw [this]
    norm_num [f32Round_128]
  have hdiv : F32.div (F32.fin (f32Round c)) (F32.fin (f32Round m)) =
      F32.fin (f32Round (f32Round c / f32Round m)) := by
    rw [F32.div_fin, if_neg (by linarith)]
    unfold F32.ofRat
    rw [if_neg]
    intro hcn
    have : (4294967296 : ℚ) < 2 ^ (128 : ℕ) := by norm_num
    linarith
  have hmul : F32.mul (F32.fin (f32Round (f32Round c / f32Round m))) (F32.fin 128) =
      F32.fin (barProduct c m) := by
    rw [F32.mul_fin]
    unfold F32.ofRat
    rw [if_neg]
    · rfl
    · intro hcn
      have : (2 : ℚ) ^ (39 : ℕ) < 2 ^ (128 : ℕ) := by norm_num
      unfold barProduct at hp
      linarith
  unfold SliceForString
  rw [if_neg (by omega), Stars_length, ec, em, h128]
  simp only [hdiv, hmul]
  rw [F32.toInt_fin]
  split_ifs <;> rfl

theorem SliceForString_max_zero (s : String) (c : Nat) : SliceForString s c 0 = some 0 := by
  simp [SliceForString]

/-- C11: the bar length is monotone in the count for a fixed maximum. For
`uint32_t` arguments and counts `a <= b` that do not exceed the maximum `m`,
as at every call site of the file (each passes the maximum of the buckets it
prints), `SliceForString(Stars, a, m)` and `SliceForString(Stars, b, m)` are
defined and the first is not larger than the second; more generally, for any
count `b`, whenever `SliceForString(Stars, b, m)` is defined (its product fits
the `int` conversion), `SliceForString(Stars, a, m)` is defined too and is not
larger. -/
theorem C11_bar_length_monotone (a b m : Nat) (hab : a ≤ b) (hb : b < 2 ^ 32)
    (hm : m < 2 ^ 32) :
    (∀ sb, SliceForString Stars b m = some sb →
      ∃ sa, SliceForString Stars a m = some sa ∧ sa ≤ sb) ∧
    (b ≤ m → ∃ sa sb, SliceForString Stars a m = some sa ∧
      SliceForString Stars b m = some sb ∧ sa ≤ sb) := by
  have key : ∀ sb, SliceForString Stars b m = some sb →
      ∃ sa, SliceForString Stars a m = some sa ∧ sa ≤ sb := by
    intro sb hsb
    rcases Nat.eq_zero_or_pos m with hm0 | hm0
    · subst hm0
      rw [SliceForString_max_zero] at hsb
      exact ⟨0, SliceForString_max_zero _ _, by cases hsb; exact le_refl _⟩
    rcases Nat.eq_zero_or_pos b with hb0 | hb0
    · subst hb0
      have : a = 0 := by omega
      subst this
      exact ⟨sb, hsb, le_refl _⟩
    rw [SliceForString_u32 hb0 hb hm0 hm] at hsb
    split_ifs at hsb with hlt
    simp only [Option.some.injEq] at hsb
    rcases Nat.eq_zero_or_pos a with ha0 | ha0
    · subst ha0
      refine ⟨0, SliceForString_zero _ _, ?_⟩
      rw [← hsb]
      exact le_trans (by norm_num) (le_max_left _ _)
    · have hmono := barProduct_mono m hm0 hm hab
      refine ⟨max 1 ⌊barProduct a m⌋, ?_, ?_⟩
      · rw [SliceForString_u32 ha0 (by omega) hm0 hm, if_pos (lt_of_le_of_lt hmono hlt)]
      · rw [← hsb]
        exact max_le_max (le_refl _) (Int.floor_mono hmono)
  refine ⟨key, fun hbm => ?_⟩
  have hsb : SliceForString Stars b m = some (barSlice b m) := SliceForString_eq_barSlice hbm hm
  obtain ⟨sa, hsa, hle⟩ := key _ hsb
  exact ⟨sa, _, hsa, hsb, hle⟩

/-- Witness of C11: the counts 1 and 2 under the maximum 3. -/
theorem C11_bar_length_monotone_witness :
    ∃ sa sb, SliceForString Stars 1 3 = some sa ∧ SliceForString Stars 2 3 = some sb ∧ sa ≤ sb :=
  (C11_bar_length_monotone 1 2 3 (by decide) (by norm_num) (by norm_num)).2 (by decide)

theorem ofNat_two_pow (k : Nat) (hk : k < 128) : F32.ofNat (2 ^ k) = F32.fin ((2 : ℚ) ^ k) := by
  unfold F32.ofNat F32.ofRat
  rw [Nat.cast_pow, Nat.cast_ofNat, f32Round_two_pow, if_neg]
  rw [not_le]
  exact pow_lt_pow_right₀ (by norm_num) hk

theorem div_two_pow (i k : Nat) (hk : k ≤ i) (hi : i < 128) :
    F32.div (F32.ofNat (2 ^ i)) (F32.ofNat (2 ^ k)) = F32.fin ((2 : ℚ) ^ (i - k)) := by
  rw [ofNat_two_pow i hi, ofNat_two_pow k (by omega), F32.div_fin,
    if_neg (by positivity)]
  have : (2 : ℚ) ^ i / (2 : ℚ) ^ k = (2 : ℚ) ^ (i - k) := by
    rw [eq_comm, pow_sub₀ _ (by norm_num) hk, div_eq_mul_inv]
  rw [this]
  unfold F32.ofRat
  rw [f32Round_two_pow, if_neg]
  rw [not_le]
  exact pow_lt_pow_right₀ (by norm_num) (by omega)

/-- C12: for every bucket index `i < 64`, `Pow2IndexAsReadable(i)` is the
formatter's rendering of the float `2 ^ i` followed by `B` when `i < 10`, of
`2 ^ (i - 10)` followed by `KB` when `10 <= i < 20`, and of `2 ^ (i - 20)`
followed by `MB` otherwise, all three floats being exact; the indices 0, 10
and 20 render the value 1 with the units B, KB and MB, which reads `1B`,
`1KB` and `1MB` when the formatter renders 1 as `1`. -/
theorem C12_pow2_labels (F : Formatting) (i : Nat) (hi : i < 64) :
    (i < 10 → Pow2IndexAsReadable F i = some (F.Format (F32.fin ((2 : ℚ) ^ i)) ++ "B")) ∧
    (10 ≤ i → i < 20 →
      Pow2IndexAsReadable F i = some (F.Format (F32.fin ((2 : ℚ) ^ (i - 10))) ++ "KB")) ∧
    (20 ≤ i →
      Pow2IndexAsReadable F i = some (F.Format (F32.fin ((2 : ℚ) ^ (i - 20))) ++ "MB")) ∧
    Pow2IndexAsReadable F 0 = some (F.Format (F32.fin 1) ++ "B") ∧
    Pow2IndexAsReadable F 10 = some (F.Format (F32.fin 1) ++ "KB") ∧
    Pow2IndexAsReadable F 20 = some (F.Format (F32.fin 1) ++ "MB") ∧
    (F.Format (F32.fin 1) = "1" →
      Pow2IndexAsReadable F 0 = some "1B" ∧ Pow2IndexAsReadable F 10 = some "1KB" ∧
      Pow2IndexAsReadable F 20 = some "1MB") := by
  have hB : ∀ j, j < 10 →
      Pow2IndexAsReadable F j = some (F.Format (F32.fin ((2 : ℚ) ^ j)) ++ "B") := by
    intro j hj
    have h1 : ¬ (2 ^ j ≥ 1024 * 1024) := by
      have : 2 ^ j < 2 ^ 10 := Nat.pow_lt_pow_right (by norm_num) hj
      omega
    have h2 : ¬ (2 ^ j ≥ 1024) := by
      have : 2 ^ j < 2 ^ 10 := Nat.pow_lt_pow_right (by norm_num) hj
      omega
    unfold Pow2IndexAsReadable
    rw [if_neg (by omega)]
    simp only
    rw [if_neg h1, if_neg h2, ofNat_two_pow j (by omega)]
  have hK : ∀ j, 10 ≤ j → j < 20 →
      Pow2IndexAsReadable F j = some (F.Format (F32.fin ((2 : ℚ) ^ (j - 10))) ++ "KB") := by
    intro j hj1 hj2
    have h1 : ¬ (2 ^ j ≥ 1024 * 1024) := by
      have : 2 ^ j < 2 ^ 20 := Nat.pow_lt_pow_right (by norm_num) hj2
      omega
    have h2 : 2 ^ j ≥ 1024 := by
      have : 2 ^ 10 ≤ 2 ^ j := Nat.pow_le_pow_right (by norm_num) hj1
      omega
    unfold Pow2IndexAsReadable
    rw [if_neg (by omega)]
    simp only
    rw [if_neg h1, if_pos h2]
    have e : (1024 : ℕ) = 2 ^ 10 := by norm_num
    rw [e, div_two_pow j 10 hj1 (by omega)]
  have hM : ∀ j, 20 ≤ j → j < 64 →
      Pow2IndexAsReadable F j = some (F.Format (F32.fin ((2 : ℚ) ^ (j - 20))) ++ "MB") := by
    intro j hj1 hj2
    have h1 : 2 ^ j ≥ 1024 * 1024 := by
      have : 2 ^ 20 ≤ 2 ^ j := Nat.pow_le_pow_right (by norm_num) hj1
      omega
    unfold Pow2IndexAsReadable
    rw [if_neg (by omega)]
    simp only
    rw [if_pos h1]
    have e : (1024 * 1024 : ℕ) = 2 ^ 20 := by norm_num
    rw [e, div_two_pow j 20 hj1 (by omega)]
  have h0 := hB 0 (by norm_num)
  have h10 := hK 10 (le_refl _) (by norm_num)
  have h20 := hM 20 (le_refl _) (by norm_num)
  simp only [pow_zero, Nat.sub_self] at h0 h10 h20
  refine ⟨hB i, hK i, fun h => hM i h hi, h0, h10, h20, fun hf => ?_⟩
  rw [h0, h10, h20, hf]
  exact ⟨rfl, rfl, rfl⟩

/-- Witness of C12: the index 12, rendered as 4 with the unit KB. -/
theorem C12_pow2_labels_witness :
    Pow2IndexAsReadable (exampleFormatting 1) 12 =
      some ((exampleFormatting 1).Format (F32.fin ((2 : ℚ) ^ (12 - 10))) ++ "KB") :=
  (C12_pow2_labels (exampleFormatting 1) 12 (by norm_num)).2.1 (by norm_num) (by norm_num)

/-! ## Claims on the report assembler: API-call count and summary -/

theorem lastLeafOfBack_eq (cs : List DrawcallDescription) :
    lastLeafOfBack cs = cs.getLast?.map lastLeaf := by
  induction cs with
  | nil => rfl
  | cons d ds ih =>
    cases ds with
    | nil => rfl
    | cons e es =>
      rw [lastLeafOfBack, ih, List.getLast?_cons_cons]

/-- The descent to the last event: a node without children is the last
event, otherwise the descent continues from the last child. -/
theorem lastLeaf_eq (d : DrawcallDescription) :
    lastLeaf d = (match d.children.getLast? with
      | none => d
      | some c => lastLeaf c) := by
  cases d with
  | mk e f cs =>
    rw [lastLeaf, lastLeafOfBack_eq]
    simp only [DrawcallDescription.children]
    cases cs.getLast? <;> rfl

mutual
theorem lastLeaf_children (d : DrawcallDescription) : (lastLeaf d).children = [] := by
  cases d with
  | mk e f cs =>
    rw [lastLeaf]
    have h := lastLeafOfBack_children cs
    cases hb : lastLeafOfBack cs with
    | none =>
      have : cs = [] := by
        cases cs with
        | nil => rfl
        | cons a as =>
          rw [lastLeafOfBack_eq] at hb
          cases hl : (a :: as).getLast? with
          | none => exact absurd hl (by simp)
          | some x => rw [hl] at hb; cases hb
      subst this
      rfl
    | some l => exact h l hb
theorem lastLeafOfBack_children (cs : List DrawcallDescription) :
    ∀ l, lastLeafOfBack cs = some l → l.children = [] := by
  cases cs with
  | nil => intro l h; cases h
  | cons d ds =>
    cases ds with
    | nil =>
      intro l h
      rw [lastLeafOfBack] at h
      cases h
      exact lastLeaf_children d
    | cons e es =>
      intro l h
      rw [lastLeafOfBack] at h
      exact lastLeafOfBack_children (e :: es) l h
end

theorem sub32_int (a b : Nat) :
    ((sub32 a b : ℕ) : ℤ) = ((a : ℤ) - (b : ℤ)) % 4294967296 := by
  unfold sub32
  norm_num
  omega

theorem countAllEvents_fields (ds : List DrawcallDescription) :
    (countAllEvents ds).drawCount = nodeCountList (fun f => f.Drawcall) ds % 2 ^ 32 ∧
    (countAllEvents ds).dispatchCount = nodeCountList (fun f => f.Dispatch) ds % 2 ^ 32 ∧
    (countAllEvents ds).diagnosticCount = nodeCountList isDiagnostic ds % 2 ^ 32 := by
  have h := CountContributingEventsList_advance ds
    { drawCount := 0, dispatchCount := 0, diagnosticCount := 0 } 0 0 0
  rw [advance_zero _ (by norm_num) (by norm_num) (by norm_num)] at h
  unfold countAllEvents
  rw [h]
  simp [advance]

/-- The six strings of the summary, one by one. -/
theorem summaryParts_eq (F : Formatting) (ctx : ICaptureContext)
    (lastDraw : DrawcallDescription) :
    summaryParts F ctx lastDraw =
      [ drawListText (countAllEvents ctx.CurDrawcalls),
        AppendAPICallSummary F ctx.FrameInfo
          (numAPIcalls lastDraw (countAllEvents ctx.CurDrawcalls)),
        ratioText F (numAPIcalls lastDraw (countAllEvents ctx.CurDrawcalls))
          (countAllEvents ctx.CurDrawcalls),
        texturesText F ctx.GetTextures.length (textureTotals ctx.GetTextures),
        buffersText F ctx.GetBuffers.length (bufferTotals ctx.GetBuffers),
        loadText F (textureTotals ctx.GetTextures) (bufferTotals ctx.GetBuffers) ] := by
  unfold summaryParts
  rcases hb : bufferTotals ctx.GetBuffers with ⟨a, b, c⟩
  rfl

theorem GenerateReport_of_back (F : Formatting) (ctx : ICaptureContext)
    (back : DrawcallDescription) (h : ctx.CurDrawcalls.getLast? = some back) :
    GenerateReport F ctx =
      AppendDetailedInformation F (summaryLog F ctx (lastLeaf back)) ctx.FrameInfo := by
  unfold GenerateReport
  rw [h]
  rfl

theorem getLast?_of_ne_nil {α : Type} (l : List α) (h : l ≠ []) : ∃ x, l.getLast? = some x := by
  cases hl : l.getLast? with
  | none => exact absurd (List.getLast?_eq_none_iff.mp hl) h
  | some x => exact ⟨x, rfl⟩

/-- C13: for a non-empty list of top-level drawcalls, `GenerateReport` takes
the last top-level drawcall, descends through the last children to a node
without children, and reports as API-call count the event ID of that node
minus the sum of the draw, dispatch and diagnostic counts that
`CountContributingEvents` accumulated over all top-level drawcalls, in
32-bit unsigned arithmetic; this value is the one printed by the summary and
used for the ratio. -/
theorem C13_api_call_count (F : Formatting) (ctx : ICaptureContext)
    (hne : ctx.CurDrawcalls ≠ []) :
    ∃ back, ctx.CurDrawcalls.getLast? = some back ∧
      GenerateReport F ctx =
        AppendDetailedInformation F (summaryLog F ctx (lastLeaf back)) ctx.FrameInfo ∧
      (lastLeaf back).children = [] ∧
      (∀ d, lastLeaf d = (match d.children.getLast? with
        | none => d
        | some c => lastLeaf c)) ∧
      (summaryParts F ctx (lastLeaf back))[1]? = some (AppendAPICallSummary F ctx.FrameInfo
        (numAPIcalls (lastLeaf back) (countAllEvents ctx.CurDrawcalls))) ∧
      (summaryParts F ctx (lastLeaf back))[2]? = some (ratioText F
        (numAPIcalls (lastLeaf back) (countAllEvents ctx.CurDrawcalls))
        (countAllEvents ctx.CurDrawcalls)) ∧
      countAllEvents ctx.CurDrawcalls =
        CountContributingEventsList ctx.CurDrawcalls
          { drawCount := 0, dispatchCount := 0, diagnosticCount := 0 } ∧
      ((numAPIcalls (lastLeaf back) (countAllEvents ctx.CurDrawcalls) : ℕ) : ℤ) =
        (((lastLeaf back).eventID : ℤ) -
          (((countAllEvents ctx.CurDrawcalls).drawCount +
            (countAllEvents ctx.CurDrawcalls).dispatchCount +
            (countAllEvents ctx.CurDrawcalls).diagnosticCount : ℕ) : ℤ)) % 2 ^ 32 ∧
      ((numAPIcalls (lastLeaf back) (countAllEvents ctx.CurDrawcalls) : ℕ) : ℤ) =
        (((lastLeaf back).eventID : ℤ) -
          ((nodeCountList (fun f => f.Drawcall) ctx.CurDrawcalls +
            nodeCountList (fun f => f.Dispatch) ctx.CurDrawcalls +
            nodeCountList isDiagnostic ctx.CurDrawcalls : ℕ) : ℤ)) % 2 ^ 32 := by
  obtain ⟨back, hback⟩ := getLast?_of_ne_nil _ hne
  obtain ⟨h1, h2, h3⟩ := countAllEvents_fields ctx.CurDrawcalls
  refine ⟨back, hback, GenerateReport_of_back F ctx back hback, lastLeaf_children _,
    lastLeaf_eq, ?_, ?_, rfl, ?_, ?_⟩
  · rw [summaryParts_eq]; rfl
  · rw [summaryParts_eq]; rfl
  · unfold numAPIcalls
    rw [sub32_int]
    unfold add32
    push_cast
    omega
  · unfold numAPIcalls
    rw [sub32_int, h1, h2, h3]
    unfold add32
    push_cast
    omega

set_option maxRecDepth 100000 in
/-- Witness of C13: a forest of two top-level drawcalls with three draws, two
dispatches and one marker; the descent from the last top-level drawcall
reaches the leaf with event ID 12, and the API-call count is
`12 - (3 + 2 + 1) = 6`, which is the number the summary prints. -/
theorem C13_api_call_count_witness :
    ∃ back, forestContext.CurDrawcalls.getLast? = some back ∧
      (lastLeaf back).eventID = 12 ∧ (lastLeaf back).children = [] ∧
      countAllEvents forestContext.CurDrawcalls =
        { drawCount := 3, dispatchCount := 2, diagnosticCount := 1 } ∧
      numAPIcalls (lastLeaf back) (countAllEvents forestContext.CurDrawcalls) = 6 ∧
      (summaryParts (exampleFormatting 1) forestContext (lastLeaf back))[1]? =
        some (AppendAPICallSummary (exampleFormatting 1) forestContext.FrameInfo 6) ∧
      AppendAPICallSummary (exampleFormatting 1) forestContext.FrameInfo 6 =
        "API calls: 6\n\tIndex/vertex bind calls: 0\n\tConstant bind calls: 0\n"
          ++ "\tSampler bind calls: 0\n\tResource bind calls: 0\n\tShader set calls: 0\n"
          ++ "\tBlend set calls: 0\n\tDepth/stencil set calls: 0\n"
          ++ "\tRasterization set calls: 0\n\tResource update calls: 0\n"
          ++ "\tOutput set calls: 0\n" ∧
      GenerateReport (exampleFormatting 1) forestContext =
        AppendDetailedInformation (exampleFormatting 1)
          (summaryLog (exampleFormatting 1) forestContext (lastLeaf back))
          forestContext.FrameInfo ∧
      (GenerateReport (exampleFormatting 1) forestContext).isSome = true := by
  obtain ⟨back, h1, h2, h3, _, h5, _, _, _, _⟩ := C13_api_call_count (exampleFormatting 1)
    forestContext (List.cons_ne_nil _ _)
  have hb : forestContext.CurDrawcalls.getLast? =
      some (.mk 9 NoFlags
        [ .mk 5 { NoFlags with Drawcall := true } [],
          .mk 8 { NoFlags with Drawcall := true }
            [.mk 12 { NoFlags with Dispatch := true } []] ]) := rfl
  have hback := Option.some.inj (h1.symm.trans hb)
  subst hback
  have hn : numAPIcalls (lastLeaf (.mk 9 NoFlags
        [ .mk 5 { NoFlags with Drawcall := true } [],
          .mk 8 { NoFlags with Drawcall := true }
            [.mk 12 { NoFlags with Dispatch := true } []] ]))
      (countAllEvents forestContext.CurDrawcalls) = 6 := by decide
  rw [hn] at h5
  exact ⟨_, h1, by decide, h3, by decide, hn, h5, by decide, h2, by decide⟩

theorem AppendAPICallSummary_recorded (F : Formatting) (frameInfo : FrameDescription) (n : Nat)
    (h : frameInfo.stats.recorded = true) :
    AppendAPICallSummary F frameInfo n = apiCallSummaryText F frameInfo.stats n := by
  unfold AppendAPICallSummary apiCallSummaryText
  rw [h]
  simp only [Bool.not_true, Bool.false_eq_true, if_false]
  rw [foldl_add32 _ (fun s => (frameInfo.stats.constants s).calls) 0 (by norm_num),
    foldl_add32 _ (fun s => (frameInfo.stats.samplers s).calls) 0 (by norm_num),
    foldl_add32 _ (fun s => (frameInfo.stats.resources s).calls) 0 (by norm_num),
    foldl_add32 _ (fun s => (frameInfo.stats.shaders s).calls) 0 (by norm_num)]
  simp only [Nat.zero_add, stageSum]

/-- The detail part is appended to the log, whether or not the statistics
were recorded. -/
theorem AppendDetailedInformation_appends (F : Formatting) (log : String)
    (frameInfo : FrameDescription) :
    AppendDetailedInformation F log frameInfo =
      (AppendDetailedInformation F "" frameInfo).map (fun details => log ++ details) := by
  cases h : frameInfo.stats.recorded with
  | false =>
    rw [AppendDetailedInformation_not_recorded F log _ h,
      AppendDetailedInformation_not_recorded F "" _ h]
    simp only [Option.map_some', String.append_empty]
  | true =>
    rw [AppendDetailedInformation_recorded F log _ h, AppendDetailedInformation_recorded F "" _ h]
    exact foldlM_appends _ (sectionBuilders_append F) frameInfo log

/-- The summary log, string by string. -/
theorem summaryLog_parts (F : Formatting) (ctx : ICaptureContext)
    (lastDraw : DrawcallDescription) :
    summaryLog F ctx lastDraw =
      reportHeader F ctx ++ "\n*** Summary ***\n\n"
        ++ drawListText (countAllEvents ctx.CurDrawcalls)
        ++ AppendAPICallSummary F ctx.FrameInfo
          (numAPIcalls lastDraw (countAllEvents ctx.CurDrawcalls))
        ++ ratioText F (numAPIcalls lastDraw (countAllEvents ctx.CurDrawcalls))
          (countAllEvents ctx.CurDrawcalls)
        ++ texturesText F ctx.GetTextures.length (textureTotals ctx.GetTextures)
        ++ buffersText F ctx.GetBuffers.length (bufferTotals ctx.GetBuffers)
        ++ loadText F (textureTotals ctx.GetTextures) (bufferTotals ctx.GetBuffers) := by
  unfold summaryLog
  rw [summaryParts_eq]
  simp only [List.foldl_cons, List.foldl_nil, String.empty_append]

set_option maxRecDepth 100000 in
/-- C14, as the claim states it, fails: for a capture whose statistics were
not recorded the report is produced and has no API-call count and no
per-category breakdown. -/
theorem C14_counterexample :
    (exampleContext notRecorded).FrameInfo.stats.recorded = false ∧
    GenerateReport (exampleFormatting 1) (exampleContext notRecorded) =
      some ("Stats for capture.rdc.\n\nFile size: 0.00MB (0.00MB uncompressed, "
        ++ "compression ratio 0.00:1)\nPersistent Data (approx): 0.00MB, "
        ++ "Frame-initial data (approx): 0.00MB\n\n*** Summary ***\n\n"
        ++ "Draw calls: 1\nDispatch calls: 0\nAPI:Draw/Dispatch call ratio: 0\n\n"
        ++ "0 Textures - 0.00 MB (0.00 MB over 32x32), 0 RTs - 0.00 MB.\n"
        ++ "Avg. tex dimension: 0x0 (0x0 over 32x32)\n"
        ++ "0 Buffers - 0.00 MB total 0.00 MB IBs 0.00 MB VBs.\n"
        ++ "0.00 MB - Grand total GPU buffer + texture load.\n") ∧
    ∀ report, GenerateReport (exampleFormatting 1) (exampleContext notRecorded) = some report →
      ¬ List.IsInfix "API calls".data report.data := by
  have hrep : GenerateReport (exampleFormatting 1) (exampleContext notRecorded) =
      some ("Stats for capture.rdc.\n\nFile size: 0.00MB (0.00MB uncompressed, "
        ++ "compression ratio 0.00:1)\nPersistent Data (approx): 0.00MB, "
        ++ "Frame-initial data (approx): 0.00MB\n\n*** Summary ***\n\n"
        ++ "Draw calls: 1\nDispatch calls: 0\nAPI:Draw/Dispatch call ratio: 0\n\n"
        ++ "0 Textures - 0.00 MB (0.00 MB over 32x32), 0 RTs - 0.00 MB.\n"
        ++ "Avg. tex dimension: 0x0 (0x0 over 32x32)\n"
        ++ "0 Buffers - 0.00 MB total 0.00 MB IBs 0.00 MB VBs.\n"
        ++ "0.00 MB - Grand total GPU buffer + texture load.\n") := by
    decide
  refine ⟨rfl, hrep, ?_⟩
  intro report h
  rw [hrep] at h
  cases h
  decide

/-- C14, amended: for every capture with a non-empty drawcall list, the report
is the header, the summary heading, the draw and dispatch counts, the text of
`AppendAPICallSummary`, the API:Draw/Dispatch ratio, the texture, buffer and
load totals, and then the detail part; the text of `AppendAPICallSummary`
holds the API-call count and its per-category breakdown when the statistics
were recorded, and is empty when they were not. -/
theorem C14_summary_block (F : Formatting) (ctx : ICaptureContext)
    (hne : ctx.CurDrawcalls ≠ []) :
    ∃ back, ctx.CurDrawcalls.getLast? = some back ∧
      GenerateReport F ctx =
        (AppendDetailedInformation F "" ctx.FrameInfo).map (fun details =>
          reportHeader F ctx ++ "\n*** Summary ***\n\n"
            ++ drawListText (countAllEvents ctx.CurDrawcalls)
            ++ AppendAPICallSummary F ctx.FrameInfo
              (numAPIcalls (lastLeaf back) (countAllEvents ctx.CurDrawcalls))
            ++ ratioText F (numAPIcalls (lastLeaf back) (countAllEvents ctx.CurDrawcalls))
              (countAllEvents ctx.CurDrawcalls)
            ++ texturesText F ctx.GetTextures.length (textureTotals ctx.GetTextures)
            ++ buffersText F ctx.GetBuffers.length (bufferTotals ctx.GetBuffers)
            ++ loadText F (textureTotals ctx.GetTextures) (bufferTotals ctx.GetBuffers)
            ++ details) ∧
      (ctx.FrameInfo.stats.recorded = true →
        AppendAPICallSummary F ctx.FrameInfo
            (numAPIcalls (lastLeaf back) (countAllEvents ctx.CurDrawcalls)) =
          apiCallSummaryText F ctx.FrameInfo.stats
            (numAPIcalls (lastLeaf back) (countAllEvents ctx.CurDrawcalls))) ∧
      (ctx.FrameInfo.stats.recorded = false →
        AppendAPICallSummary F ctx.FrameInfo
            (numAPIcalls (lastLeaf back) (countAllEvents ctx.CurDrawcalls)) = "" ∧
        GenerateReport F ctx = some (reportHeader F ctx ++ "\n*** Summary ***\n\n"
          ++ drawListText (countAllEvents ctx.CurDrawcalls)
          ++ ratioText F (numAPIcalls (lastLeaf back) (countAllEvents ctx.CurDrawcalls))
            (countAllEvents ctx.CurDrawcalls)
          ++ texturesText F ctx.GetTextures.length (textureTotals ctx.GetTextures)
          ++ buffersText F ctx.GetBuffers.length (bufferTotals ctx.GetBuffers)
          ++ loadText F (textureTotals ctx.GetTextures) (bufferTotals ctx.GetBuffers))) := by
  obtain ⟨back, hback⟩ := getLast?_of_ne_nil _ hne
  refine ⟨back, hback, ?_, fun h => AppendAPICallSummary_recorded F _ _ h, fun h => ?_⟩
  · rw [GenerateReport_of_back F ctx back hback, AppendDetailedInformation_appends,
      summaryLog_parts]
  · have hempty := AppendAPICallSummary_not_recorded F ctx.FrameInfo
      (numAPIcalls (lastLeaf back) (countAllEvents ctx.CurDrawcalls)) h
    refine ⟨hempty, ?_⟩
    rw [GenerateReport_of_back F ctx back hback,
      AppendDetailedInformation_not_recorded F _ _ h, summaryLog_parts, hempty,
      String.append_empty]

/-- Witness of the amended C14: the capture of the examples, without recorded
statistics. -/
theorem C14_summary_block_witness :
    ∃ back, (exampleContext notRecorded).CurDrawcalls.getLast? = some back ∧
      AppendAPICallSummary (exampleFormatting 1) (exampleContext notRecorded).FrameInfo
        (numAPIcalls (lastLeaf back)
          (countAllEvents (exampleContext notRecorded).CurDrawcalls)) = "" := by
  obtain ⟨back, h1, _, _, h4⟩ := C14_summary_block (exampleFormatting 1)
    (exampleContext notRecorded) (List.cons_ne_nil _ _)
  exact ⟨back, h1, (h4 rfl).1⟩

/-! ## Claims on the inline histograms of the section builders -/

/-- A histogram written inline from the bucket `start`: the lines of the
indices from `start` to `maxWithValue`, in order. -/
theorem appendHistogram_eq (text : String) (array : List Nat) (start : Nat)
    (label : Nat → Option String) (lab : Nat → String) (hw : ∀ x ∈ array, x < 2 ^ 32)
    (h0 : start = 0 → array ≠ [])
    (hl : ∀ o, start ≤ o → o ≤ (scanResult array start).2 → label o = some (lab o)) :
    appendHistogram text array start label =
      some (text ++ String.join
        ((List.range' start ((scanResult array start).2 + 1 - start)).map
          (barLine array (scanResult array start).1 lab))) := by
  obtain ⟨ha, _, hc⟩ := scanResult_spec array start
  have hr : ∀ o, start ≤ o → o ≤ (scanResult array start).2 → o < array.length := by
    intro o h1 h2
    rcases hc with ⟨hz, _⟩ | ⟨_, hlt, _⟩
    · have hs : start = 0 := by omega
      have := List.length_pos.mpr (h0 hs)
      omega
    · omega
  unfold appendHistogram
  rw [scanBuckets_eq]
  simp only [Option.some_bind, Option.bind_eq_bind]
  exact appendBars_eq text array start _ _ label lab hr
    (fun o h1 h2 => ha o h1 (hr o h1 h2)) (scanResult_max_lt array start hw) hl

/-- C15: in `AppendDrawStatistics`, when `draws.instanced > 0` the
instance-count histogram has one line for each index from 1 to `k`, the last
index of at least 1 with a non-zero count (no line when there is none, never
a line for index 0); a line carries `>=` exactly when its index is the last
index of the counts array and two spaces otherwise; when `draws.instanced` is
0 no instance-count histogram is written. -/
theorem C15_instance_histogram (log : String) (frameInfo : FrameDescription)
    (hw : ∀ x ∈ frameInfo.stats.draws.counts, x < 2 ^ 32) :
    (frameInfo.stats.draws.instanced = 0 →
      AppendDrawStatistics log frameInfo = some (log ++ drawHeading frameInfo.stats.draws)) ∧
    (0 < frameInfo.stats.draws.instanced →
      AppendDrawStatistics log frameInfo =
        some (log ++ drawHeading frameInfo.stats.draws ++ "\nInstance counts:\n"
          ++ String.join ((List.range' 1 (scanResult frameInfo.stats.draws.counts 1).2).map
            (barLine frameInfo.stats.draws.counts (scanResult frameInfo.stats.draws.counts 1).1
              (instanceLabel frameInfo.stats.draws.counts.length))))) ∧
    (∀ k, 1 ≤ k → k < frameInfo.stats.draws.counts.length →
      frameInfo.stats.draws.counts.getD k 0 ≠ 0 →
      (∀ j, k < j → j < frameInfo.stats.draws.counts.length →
        frameInfo.stats.draws.counts.getD j 0 = 0) →
      (scanResult frameInfo.stats.draws.counts 1).2 = k) ∧
    ((∀ o, 1 ≤ o → o < frameInfo.stats.draws.counts.length →
        frameInfo.stats.draws.counts.getD o 0 = 0) →
      (scanResult frameInfo.stats.draws.counts 1).2 = 0) ∧
    (∀ s, 1 ≤ s →
      (s = frameInfo.stats.draws.counts.length - 1 →
        instanceLabel frameInfo.stats.draws.counts.length s = ">=" ++ argWidth (argNat s) 2) ∧
      (s ≠ frameInfo.stats.draws.counts.length - 1 →
        instanceLabel frameInfo.stats.draws.counts.length s = "  " ++ argWidth (argNat s) 2)) := by
  refine ⟨fun h => ?_, fun h => ?_, ?_, ?_, ?_⟩
  · unfold AppendDrawStatistics drawHeading
    simp only [h, lt_irrefl, if_false, String.append_assoc]
  · unfold AppendDrawStatistics drawHeading
    simp only [h, if_true]
    rw [appendHistogram_eq _ frameInfo.stats.draws.counts 1
      (fun s => some ((if s + 1 = frameInfo.stats.draws.counts.length then ">=" else "  ")
        ++ argWidth (argNat s) 2))
      (instanceLabel frameInfo.stats.draws.counts.length) hw
      (fun h1 => absurd h1 (by norm_num)) (fun o _ _ => rfl)]
    simp only [Nat.add_sub_cancel, String.append_assoc]
  · intro k h1 h2 h3 h4
    exact scanResult_last _ 1 k h1 h2 h3 h4
  · intro hz
    rcases (scanResult_spec frameInfo.stats.draws.counts 1).2.2 with ⟨h, _⟩ | ⟨h1, h2, h3, _⟩
    · exact h
    · have := hz _ h1 h2
      omega
  · intro s hs
    unfold instanceLabel
    constructor
    · intro h
      rw [if_pos (by omega)]
    · intro h
      rw [if_neg (by omega)]

/-- Witness of C15: the instance counts `[0, 2, 0, 1]` give the lines of the
indices 1, 2 and 3. -/
theorem C15_instance_histogram_witness :
    AppendDrawStatistics "" instancedDraws =
        some ("" ++ drawHeading instancedDraws.stats.draws ++ "\nInstance counts:\n"
          ++ String.join ((List.range' 1 (scanResult instancedDraws.stats.draws.counts 1).2).map
            (barLine instancedDraws.stats.draws.counts
              (scanResult instancedDraws.stats.draws.counts 1).1
              (instanceLabel instancedDraws.stats.draws.counts.length)))) ∧
    (scanResult instancedDraws.stats.draws.counts 1).2 = 3 :=
  ⟨(C15_instance_histogram "" instancedDraws
      (by intro x hx; simp [instancedDraws, zeroStatistics] at hx; omega)).2.1 (by decide),
    (C15_instance_histogram "" instancedDraws
      (by intro x hx; simp [instancedDraws, zeroStatistics] at hx; omega)).2.2.1 3
      (by decide) (by decide) (by decide)
      (by intro j h1 h2; have : j < 4 := h2; omega)⟩

theorem addedBuckets_createArray (l : List Nat) (hw : ∀ x ∈ l, x < 2 ^ 32) :
    addedBuckets (createArray l.length) l = l := by
  apply List.ext_getElem
  · rw [addedBuckets_length, createArray_length]
  · intro i h1 h2
    have hget : (addedBuckets (createArray l.length) l).getD i 0 = l.getD i 0 := by
      rw [addedBuckets_getD _ _ i (by rw [createArray_length]; exact h2)
        (by rw [createArray_getD]; norm_num), createArray_getD, Nat.zero_add]
      apply Nat.mod_eq_of_lt
      rw [List.getD_eq_getElem?_getD, List.getElem?_eq_getElem h2]
      exact hw _ (List.getElem_mem _)
    rw [List.getD_eq_getElem?_getD, List.getElem?_eq_getElem h1, List.getD_eq_getElem?_getD,
      List.getElem?_eq_getElem h2] at hget
    simpa using hget

/-- The update section: the histogram of the types from bucket 1, then the
histogram of the sizes from bucket 0. -/
theorem AppendUpdateStatistics_eq (F : Formatting) (log : String) (frameInfo : FrameDescription)
    (hwt : ∀ x ∈ frameInfo.stats.updates.types, x < 2 ^ 32)
    (hws : ∀ x ∈ frameInfo.stats.updates.sizes, x < 2 ^ 32) :
    AppendUpdateStatistics F log frameInfo =
      (appendHistogram (log ++ updateHeading frameInfo.stats.updates
          ++ "\nUpdated resource types:\n") frameInfo.stats.updates.types 1
          (fun s => some (argWidth (F.ToQStr s) 20))).bind
        (fun l => appendHistogram (l ++ "\nUpdated resource sizes:\n")
          frameInfo.stats.updates.sizes 0
          (fun s => (Pow2IndexAsReadable F s).map (fun l => argWidth l 8))) := by
  unfold AppendUpdateStatistics updateHeading
  dsimp only
  simp only [bind, Option.bind_eq_bind]
  rw [addBuckets_eq _ _ (by rw [createArray_length]),
    addBuckets_eq _ _ (by rw [createArray_length]), addedBuckets_createArray _ hwt,
    addedBuckets_createArray _ hws]
  simp only [Option.some_bind, Option.bind_eq_bind, String.append_assoc]

theorem foldl_congr_mem {α β : Type} (f g : β → α → β) (l : List α) (init : β)
    (h : ∀ b, ∀ a ∈ l, f b a = g b a) : l.foldl f init = l.foldl g init := by
  induction l generalizing init with
  | nil => rfl
  | cons a l ih =>
    rw [List.foldl_cons, List.foldl_cons, h init a (List.mem_cons_self _ _)]
    exact ih _ (fun b x hx => h b x (List.mem_cons_of_mem _ hx))

theorem getD_cons_of_pos (x y : Nat) (l : List Nat) (o : Nat) (ho : 1 ≤ o) :
    (x :: l).getD o 0 = (y :: l).getD o 0 := by
  cases o with
  | zero => omega
  | succ n => rfl

/-- A scan from bucket 1 does not read bucket 0. -/
theorem scanResult_from_one (x y : Nat) (l : List Nat) :
    scanResult (x :: l) 1 = scanResult (y :: l) 1 := by
  unfold scanResult
  simp only [List.length_cons]
  apply foldl_congr_mem
  intro st o ho
  rw [List.mem_range'_1] at ho
  unfold scanStep
  rw [getD_cons_of_pos x y l o ho.1]

theorem barLine_from_one (x y : Nat) (l : List Nat) (maxCount : Nat) (lab : Nat → String)
    (o : Nat) (ho : 1 ≤ o) :
    barLine (x :: l) maxCount lab o = barLine (y :: l) maxCount lab o := by
  unfold barLine
  rw [getD_cons_of_pos x y l o ho]

/-- The resource-bind section: stage lines and totals, the histogram of the
types from bucket 0, then the histogram of the slots. -/
theorem AppendResourceBindStatistics_eq (F : Formatting) (log : String)
    (frameInfo : FrameDescription) (ps : List ResourceBindStats) (t : ResourceBindStats)
    (h1 : totalResourcesPerStage F frameInfo.stats = some ps)
    (h2 : totalResourcesForAllStages ps = some t) :
    ∃ before, AppendResourceBindStatistics F log frameInfo =
      (appendHistogram (log ++ before ++ "\nResource types across all stages:\n") t.types 0
          (fun s => some (argWidth (F.ToQStr s) 20))).bind
        (fun l => (CreateSimpleIntegerHistogram
          "Aggregate slot counts per invocation across all stages" t.bindslots).map
            (fun hist => l ++ hist)) := by
  refine ⟨"\n*** Resource Bind Statistics ***\n\n" ++
    ps.enum.foldl (fun (log : String) (sp : Nat × ResourceBindStats) =>
      log ++ (F.Abbrev sp.1 ++ " calls: " ++ argNat sp.2.calls
        ++ " non-null resource sets: " ++ argNat sp.2.sets
        ++ " null resource sets: " ++ argNat sp.2.nulls ++ "\n")) "" ++
    ("Total calls: " ++ argNat t.calls ++ " non-null resource sets: " ++ argNat t.sets
      ++ " null resource sets: " ++ argNat t.nulls ++ "\n"), ?_⟩
  unfold AppendResourceBindStatistics
  rw [h1]
  simp only [Option.some_bind, Option.bind_eq_bind]
  rw [h2]
  simp only [Option.some_bind]
  have e : ∀ a : String, ps.enum.foldl (fun (log : String) (sp : Nat × ResourceBindStats) =>
      log ++ (F.Abbrev sp.1 ++ " calls: " ++ argNat sp.2.calls
        ++ " non-null resource sets: " ++ argNat sp.2.sets
        ++ " null resource sets: " ++ argNat sp.2.nulls ++ "\n")) a =
      a ++ ps.enum.foldl (fun (log : String) (sp : Nat × ResourceBindStats) =>
      log ++ (F.Abbrev sp.1 ++ " calls: " ++ argNat sp.2.calls
        ++ " non-null resource sets: " ++ argNat sp.2.sets
        ++ " null resource sets: " ++ argNat sp.2.nulls ++ "\n")) "" := by
    intro a
    have := foldl_append_extends (fun (sp : Nat × ResourceBindStats) =>
      (F.Abbrev sp.1 ++ " calls: " ++ argNat sp.2.calls
        ++ " non-null resource sets: " ++ argNat sp.2.sets
        ++ " null resource sets: " ++ argNat sp.2.nulls ++ "\n")) ps.enum a ""
    rw [String.append_empty] at this
    exact this
  rw [e]
  simp only [String.append_assoc]
  cases appendHistogram _ t.types 0 _ with
  | none => rfl
  | some l =>
    simp only [Option.some_bind]
    cases CreateSimpleIntegerHistogram _ t.bindslots <;> rfl

/-- C16: the two resource-type histograms treat index 0 differently. With
`U` the update-type array, `AppendUpdateStatistics` writes under "Updated
resource types" the lines of the indices `1 .. maxWithValue` only, scan and
scaling maximum being taken from index 1 on, so that its whole result does
not change when the count of index 0 is replaced by any other value. With `t`
the all-stages totals, `AppendResourceBindStatistics` writes under "Resource
types across all stages" the lines of the indices `0 .. maxWithValue`, the
line of index 0 first, and the scaling maximum is at least the count of
index 0 (and of every other index). -/
theorem C16_type_histograms (F : Formatting) (log : String) (frameInfo : FrameDescription)
    (hN : 0 < F.stageCount)
    (hlen : ∀ s, s < F.stageCount →
      (frameInfo.stats.resources s).types.length ≤ (frameInfo.stats.resources 0).types.length ∧
      (frameInfo.stats.resources s).bindslots.length ≤
        (frameInfo.stats.resources 0).bindslots.length)
    (hne : (frameInfo.stats.resources 0).types ≠ [])
    (hwt : ∀ x ∈ frameInfo.stats.updates.types, x < 2 ^ 32)
    (hws : ∀ x ∈ frameInfo.stats.updates.sizes, x < 2 ^ 32) :
    AppendUpdateStatistics F log frameInfo =
      appendHistogram (log ++ updateHeading frameInfo.stats.updates
        ++ "\nUpdated resource types:\n"
        ++ String.join ((List.range' 1 (scanResult frameInfo.stats.updates.types 1).2).map
            (barLine frameInfo.stats.updates.types (scanResult frameInfo.stats.updates.types 1).1
              (typeLabel F)))
        ++ "\nUpdated resource sizes:\n") frameInfo.stats.updates.sizes 0 (sizeLabel F) ∧
    (∀ x y l, frameInfo.stats.updates.types = x :: l → y < 2 ^ 32 →
      AppendUpdateStatistics F log (withUpdateTypes frameInfo (y :: l)) =
        AppendUpdateStatistics F log frameInfo) ∧
    ∃ t before,
      (totalResourcesPerStage F frameInfo.stats).bind totalResourcesForAllStages = some t ∧
      AppendResourceBindStatistics F log frameInfo =
        (CreateSimpleIntegerHistogram "Aggregate slot counts per invocation across all stages"
          t.bindslots).map (fun hist =>
            log ++ before ++ "\nResource types across all stages:\n"
            ++ String.join ((0 :: List.range' 1 (scanResult t.types 0).2).map
                (barLine t.types (scanResult t.types 0).1 (typeLabel F)))
            ++ hist) ∧
      ∀ o, o < t.types.length → t.types.getD o 0 ≤ (scanResult t.types 0).1 := by
  have hupd : ∀ fi : FrameDescription, (∀ x ∈ fi.stats.updates.types, x < 2 ^ 32) →
      (∀ x ∈ fi.stats.updates.sizes, x < 2 ^ 32) →
      AppendUpdateStatistics F log fi =
        appendHistogram (log ++ updateHeading fi.stats.updates
          ++ "\nUpdated resource types:\n"
          ++ String.join ((List.range' 1 (scanResult fi.stats.updates.types 1).2).map
              (barLine fi.stats.updates.types (scanResult fi.stats.updates.types 1).1
                (typeLabel F)))
          ++ "\nUpdated resource sizes:\n") fi.stats.updates.sizes 0 (sizeLabel F) := by
    intro fi h1 h2
    rw [AppendUpdateStatistics_eq F log fi h1 h2,
      appendHistogram_eq _ fi.stats.updates.types 1 (fun s => some (argWidth (F.ToQStr s) 20))
        (typeLabel F) h1 (fun h => absurd h (by norm_num)) (fun o _ _ => rfl)]
    simp only [Option.some_bind, Nat.add_sub_cancel]
    rfl
  refine ⟨hupd frameInfo hwt hws, ?_, ?_⟩
  · intro x y l hxl hy
    have hwy : ∀ z ∈ (withUpdateTypes frameInfo (y :: l)).stats.updates.types, z < 2 ^ 32 := by
      intro z hz
      have hz2 : z ∈ y :: l := hz
      rcases List.mem_cons.1 hz2 with h | h
      · rw [h]; exact hy
      · exact hwt z (by rw [hxl]; exact List.mem_cons_of_mem _ h)
    rw [hupd _ hwy hws, hupd frameInfo hwt hws]
    have e1 : (withUpdateTypes frameInfo (y :: l)).stats.updates.types = y :: l := rfl
    have e2 : (withUpdateTypes frameInfo (y :: l)).stats.updates.sizes =
      frameInfo.stats.updates.sizes := rfl
    have e3 : updateHeading (withUpdateTypes frameInfo (y :: l)).stats.updates =
      updateHeading frameInfo.stats.updates := rfl
    rw [e1, e2, e3, hxl, scanResult_from_one y x l]
    have e4 : (List.range' 1 (scanResult (x :: l) 1).2).map
          (barLine (y :: l) (scanResult (x :: l) 1).1 (typeLabel F)) =
        (List.range' 1 (scanResult (x :: l) 1).2).map
          (barLine (x :: l) (scanResult (x :: l) 1).1 (typeLabel F)) := by
      apply List.map_congr_left
      intro o ho
      rw [List.mem_range'_1] at ho
      exact barLine_from_one y x l _ _ o ho.1
    rw [e4]
  · obtain ⟨t, h1, h2, _, _, _, hl, _, hget, _⟩ := resourceTotals_spec F frameInfo.stats hN hlen
    obtain ⟨before, hb⟩ := AppendResourceBindStatistics_eq F log frameInfo _ t h1 h2
    have htne : t.types ≠ [] := by
      intro h
      rw [h] at hl
      exact hne (List.length_eq_zero.1 hl.symm)
    have hwf : ∀ x ∈ t.types, x < 2 ^ 32 := by
      intro x hx
      obtain ⟨i, hi, rfl⟩ := List.getElem_of_mem hx
      have := hget i (by rw [← hl]; exact hi)
      rw [List.getD_eq_getElem?_getD, List.getElem?_eq_getElem hi] at this
      simp only [Option.getD_some] at this
      rw [this]
      exact Nat.mod_lt _ (by norm_num)
    refine ⟨t, before, ?_, ?_, ?_⟩
    · rw [h1]; exact h2
    · rw [hb, appendHistogram_eq _ t.types 0 (fun s => some (argWidth (F.ToQStr s) 20))
        (typeLabel F) hwf (fun _ => htne) (fun o _ _ => rfl)]
      simp only [Option.some_bind, Nat.sub_zero]
      have hr : List.range' 0 ((scanResult t.types 0).2 + 1) =
          0 :: List.range' 1 (scanResult t.types 0).2 := rfl
      rw [hr]
    · intro o ho
      exact (scanResult_spec t.types 0).1 o (Nat.zero_le _) ho

/-- Witness of C16: with the type counts `[5, 1, 0, 2]` in both histograms,
the update histogram scales by 2 and the result does not change when the
count 5 of index 0 is replaced by 0. -/
theorem C16_type_histograms_witness :
    (∀ x y l, typedFrame.stats.updates.types = x :: l → y < 2 ^ 32 →
      AppendUpdateStatistics (exampleFormatting 1) "" (withUpdateTypes typedFrame (y :: l)) =
        AppendUpdateStatistics (exampleFormatting 1) "" typedFrame) ∧
    scanResult typedFrame.stats.updates.types 1 = (2, 3) ∧
    scanResult typedFrame.stats.updates.types 0 = (5, 3) :=
  ⟨(C16_type_histograms (exampleFormatting 1) "" typedFrame (by decide)
      (fun _ _ => ⟨Nat.le_refl _, Nat.le_refl _⟩) (List.cons_ne_nil _ _)
      (by intro x hx; simp [typedFrame, zeroStatistics] at hx; omega)
      (by intro x hx; simp [typedFrame, zeroStatistics] at hx; omega)).2.1,
    by decide, by decide⟩

/-! ## Claims on the texture loop of the report -/

theorem textureStep_target (a : TextureTotals) (t : TextureDescription)
    (h : (t.ColorTarget || t.DepthTarget) = true) :
    (textureStep a t).numRTs = a.numRTs + 1 ∧ (textureStep a t).texCount = a.texCount ∧
    (textureStep a t).largeTexCount = a.largeTexCount ∧ (textureStep a t).texW = a.texW ∧
    (textureStep a t).texH = a.texH ∧ (textureStep a t).largeTexW = a.largeTexW ∧
    (textureStep a t).largeTexH = a.largeTexH := by
  unfold textureStep
  rw [if_pos h]
  exact ⟨rfl, rfl, rfl, rfl, rfl, rfl, rfl⟩

theorem textureStep_large (a : TextureTotals) (t : TextureDescription)
    (h : ¬ (t.ColorTarget || t.DepthTarget) = true) (hl : t.width > 32 ∧ t.height > 32) :
    (textureStep a t).numRTs = a.numRTs ∧ (textureStep a t).texCount = a.texCount + 1 ∧
    (textureStep a t).largeTexCount = a.largeTexCount + 1 := by
  unfold textureStep
  rw [if_neg h]
  dsimp only
  rw [if_pos hl]
  exact ⟨rfl, rfl, rfl⟩

theorem textureStep_small (a : TextureTotals) (t : TextureDescription)
    (h : ¬ (t.ColorTarget || t.DepthTarget) = true) (hl : ¬ (t.width > 32 ∧ t.height > 32)) :
    (textureStep a t).numRTs = a.numRTs ∧ (textureStep a t).texCount = a.texCount + 1 ∧
    (textureStep a t).largeTexCount = a.largeTexCount := by
  unfold textureStep
  rw [if_neg h]
  dsimp only
  rw [if_neg hl]
  exact ⟨rfl, rfl, rfl⟩

/-- The three counters of the texture loop from arbitrary initial values. -/
theorem textureStep_foldl_counts (textures : List TextureDescription) (a : TextureTotals) :
    (textures.foldl textureStep a).numRTs = a.numRTs + textures.countP isRenderTarget ∧
    (textures.foldl textureStep a).texCount =
      a.texCount + textures.countP (fun t => !isRenderTarget t) ∧
    (textures.foldl textureStep a).largeTexCount =
      a.largeTexCount + textures.countP isLargeTexture := by
  induction textures generalizing a with
  | nil => simp
  | cons t ts ih =>
    rw [List.foldl_cons]
    obtain ⟨h1, h2, h3⟩ := ih (textureStep a t)
    rw [h1, h2, h3]
    by_cases hrt : (t.ColorTarget || t.DepthTarget) = true
    · have e : isRenderTarget t = true := hrt
      have e2 : isLargeTexture t = false := by simp [isLargeTexture, e]
      obtain ⟨s1, s2, s3, _⟩ := textureStep_target a t hrt
      rw [s1, s2, s3, List.countP_cons_of_pos _ _ e,
        List.countP_cons_of_neg _ _ (by simp [e]), List.countP_cons_of_neg _ _ (by simp [e2])]
      omega
    · have e : isRenderTarget t = false := by simpa [isRenderTarget] using hrt
      by_cases hl : t.width > 32 ∧ t.height > 32
      · have e2 : isLargeTexture t = true := by simp [isLargeTexture, e, hl.1, hl.2]
        obtain ⟨s1, s2, s3⟩ := textureStep_large a t hrt hl
        rw [s1, s2, s3, List.countP_cons_of_neg _ _ (by simp [e]),
          List.countP_cons_of_pos _ _ (by simp [e]), List.countP_cons_of_pos _ _ e2]
        omega
      · have e2 : isLargeTexture t = false := by
          simp only [isLargeTexture, e, Bool.not_false, Bool.true_and, Bool.and_eq_false_iff,
            decide_eq_false_iff_not]
          by_cases hw : t.width > 32
          · exact Or.inr (fun hh => hl ⟨hw, hh⟩)
          · exact Or.inl hw
        obtain ⟨s1, s2, s3⟩ := textureStep_small a t hrt hl
        rw [s1, s2, s3, List.countP_cons_of_neg _ _ (by simp [e]),
          List.countP_cons_of_pos _ _ (by simp [e]), List.countP_cons_of_neg _ _ (by simp [e2])]
        omega

/-- C17: for every texture list the texture loop of `GenerateReport` counts
each texture in exactly one of the two groups, `numRTs` being the number of
textures with the `ColorTarget` or `DepthTarget` flag and `texCount` the
number of the others, so `numRTs + texCount` is the number of textures;
`largeTexCount` is the number of textures that are not render targets and have
width and height above 32, so `largeTexCount ≤ texCount`, and a list of render
targets only has `largeTexCount = 0` whatever the dimensions. -/
theorem C17_texture_groups (textures : List TextureDescription) :
    (textureTotals textures).numRTs = textures.countP isRenderTarget ∧
    (textureTotals textures).texCount = textures.countP (fun t => !isRenderTarget t) ∧
    (textureTotals textures).largeTexCount = textures.countP
      (fun t => !(t.ColorTarget || t.DepthTarget) && (decide (t.width > 32)
        && decide (t.height > 32))) ∧
    (textureTotals textures).numRTs + (textureTotals textures).texCount = textures.length ∧
    (textureTotals textures).largeTexCount ≤ (textureTotals textures).texCount ∧
    ((∀ t ∈ textures, (t.ColorTarget || t.DepthTarget) = true) →
      (textureTotals textures).largeTexCount = 0 ∧
      (textureTotals textures).numRTs = textures.length) := by
  obtain ⟨h1, h2, h3⟩ := textureStep_foldl_counts textures
    { RTBytes := 0, TexBytes := 0, LargeTexBytes := 0, numRTs := 0
      texW := F32.fin 0, texH := F32.fin 0, largeTexW := F32.fin 0, largeTexH := F32.fin 0
      texCount := 0, largeTexCount := 0 }
  simp only [Nat.zero_add] at h1 h2 h3
  have hsum : textures.countP isRenderTarget + textures.countP (fun t => !isRenderTarget t)
      = textures.length := by
    have := List.length_eq_countP_add_countP isRenderTarget textures
    rw [this]
    congr 2
    funext t
    simp
  have hle : textures.countP isLargeTexture ≤ textures.countP (fun t => !isRenderTarget t) := by
    apply List.countP_mono_left
    intro t _ ht
    simp only [isLargeTexture, Bool.and_eq_true] at ht
    exact ht.1
  unfold textureTotals
  refine ⟨h1, h2, h3, ?_, ?_, ?_⟩
  · rw [h1, h2]; exact hsum
  · rw [h2, h3]; exact hle
  · intro hall
    have hz : textures.countP (fun t => !isRenderTarget t) = 0 := by
      rw [List.countP_eq_zero]
      intro t ht
      have := hall t ht
      simp [isRenderTarget, this]
    refine ⟨?_, ?_⟩
    · rw [h3]; omega
    · rw [h1]; omega

/-- Witness of C17: of a 64 by 64 render target, a 16 by 64 texture and a
64 by 64 texture, one is counted as render target, two as textures and one as
large; the render target alone is not counted as large. -/
theorem C17_texture_groups_witness :
    (textureTotals exampleTextures).numRTs = 1 ∧
    (textureTotals exampleTextures).texCount = 2 ∧
    (textureTotals exampleTextures).largeTexCount = 1 ∧
    (textureTotals (exampleTextures.take 1)).largeTexCount = 0 ∧
    (textureTotals (exampleTextures.take 1)).numRTs = (exampleTextures.take 1).length :=
  ⟨(C17_texture_groups exampleTextures).1.trans (by decide),
    (C17_texture_groups exampleTextures).2.1.trans (by decide),
    (C17_texture_groups exampleTextures).2.2.1.trans (by decide),
    (C17_texture_groups (exampleTextures.take 1)).2.2.2.2.2 (by decide)⟩

theorem F32.ofNat_zero : F32.ofNat 0 = F32.fin 0 := by
  have h : f32Round ((0 : ℕ) : ℚ) = 0 := by
    unfold f32Round
    rw [if_pos (by norm_num)]
  unfold F32.ofNat F32.ofRat
  rw [h, if_neg (by norm_num)]

theorem F32.div_zero_zero : F32.div (F32.fin 0) (F32.ofNat 0) = F32.nan := by
  rw [F32.ofNat_zero]
  rfl

/-- The float accumulators of the texture loop keep their values over render
targets. -/
theorem textureStep_foldl_targets (textures : List TextureDescription) (a : TextureTotals)
    (h : ∀ t ∈ textures, (t.ColorTarget || t.DepthTarget) = true) :
    (textures.foldl textureStep a).texW = a.texW ∧
    (textures.foldl textureStep a).texH = a.texH ∧
    (textures.foldl textureStep a).largeTexW = a.largeTexW ∧
    (textures.foldl textureStep a).largeTexH = a.largeTexH ∧
    (textures.foldl textureStep a).texCount = a.texCount ∧
    (textures.foldl textureStep a).largeTexCount = a.largeTexCount := by
  induction textures generalizing a with
  | nil => simp
  | cons t ts ih =>
    rw [List.foldl_cons]
    obtain ⟨h1, h2, h3, h4, h5, h6⟩ := ih (textureStep a t)
      (fun x hx => h x (List.mem_cons_of_mem _ hx))
    obtain ⟨_, s2, s3, s4, s5, s6, s7⟩ := textureStep_target a t (h t (List.mem_cons_self _ _))
    rw [h1, h2, h3, h4, h5, h6, s2, s3, s4, s5, s6, s7]
    exact ⟨rfl, rfl, rfl, rfl, rfl, rfl⟩

/-- C18, as the claim states it, fails: `GenerateReport` does fail on
captures without any texture. For the capture without drawcalls the read of
the last top-level drawcall is outside the array, and for a capture with
recorded statistics whose bucket arrays are empty the first simple histogram
reads `array[0]` outside its array; neither gives a report. -/
theorem C18_counterexample :
    emptyCapture.GetTextures = [] ∧
    GenerateReport (exampleFormatting 1) emptyCapture = none ∧
    (exampleContext zeroStatistics).GetTextures = [] ∧
    (exampleContext zeroStatistics).CurDrawcalls ≠ [] ∧
    GenerateReport (exampleFormatting 1) (exampleContext zeroStatistics) = none := by
  refine ⟨rfl, rfl, rfl, List.cons_ne_nil _ _, ?_⟩
  rw [GenerateReport_of_back (exampleFormatting 1) (exampleContext zeroStatistics)
    (.mk 1 { NoFlags with Drawcall := true } []) rfl, AppendDetailedInformation_appends]
  have h : AppendDetailedInformation (exampleFormatting 1) ""
      (exampleContext zeroStatistics).FrameInfo = none := by decide
  rw [h]
  rfl

/-- C18, amended: for a capture with at least one top-level drawcall and no
texture other than render targets (in particular with no texture), the
texture loop of `GenerateReport` leaves the four dimension sums and the two
counts at 0, each of the four averages is the float quotient of 0 by 0, which
is not a number, and the report is the header, the summary with the texture
line `Avg. tex dimension: %6x%7 (%8x%9 over 32x32)` filled with the
formatter's text for that non-finite value four times, and the detail part;
it is produced whenever the detail part is, hence always when the statistics
were not recorded. -/
theorem C18_no_texture_averages (F : Formatting) (ctx : ICaptureContext)
    (hne : ctx.CurDrawcalls ≠ [])
    (hrt : ∀ t ∈ ctx.GetTextures, (t.ColorTarget || t.DepthTarget) = true) :
    (textureTotals ctx.GetTextures).texCount = 0 ∧
    (textureTotals ctx.GetTextures).largeTexCount = 0 ∧
    F32.div (textureTotals ctx.GetTextures).texW
      (F32.ofNat (textureTotals ctx.GetTextures).texCount) = F32.nan ∧
    F32.div (textureTotals ctx.GetTextures).texH
      (F32.ofNat (textureTotals ctx.GetTextures).texCount) = F32.nan ∧
    F32.div (textureTotals ctx.GetTextures).largeTexW
      (F32.ofNat (textureTotals ctx.GetTextures).largeTexCount) = F32.nan ∧
    F32.div (textureTotals ctx.GetTextures).largeTexH
      (F32.ofNat (textureTotals ctx.GetTextures).largeTexCount) = F32.nan ∧
    ∃ back, ctx.CurDrawcalls.getLast? = some back ∧
      GenerateReport F ctx =
        (AppendDetailedInformation F "" ctx.FrameInfo).map (fun details =>
          reportHeader F ctx ++ "\n*** Summary ***\n\n"
            ++ drawListText (countAllEvents ctx.CurDrawcalls)
            ++ AppendAPICallSummary F ctx.FrameInfo
              (numAPIcalls (lastLeaf back) (countAllEvents ctx.CurDrawcalls))
            ++ ratioText F (numAPIcalls (lastLeaf back) (countAllEvents ctx.CurDrawcalls))
              (countAllEvents ctx.CurDrawcalls)
            ++ (argNat ctx.GetTextures.length ++ " Textures - "
              ++ F.argFixed (F32.div (F32.ofNat (textureTotals ctx.GetTextures).TexBytes) MB)
              ++ " MB ("
              ++ F.argFixed (F32.div (F32.ofNat (textureTotals ctx.GetTextures).LargeTexBytes) MB)
              ++ " MB over 32x32), "
              ++ argNat (textureTotals ctx.GetTextures).numRTs ++ " RTs - "
              ++ F.argFixed (F32.div (F32.ofNat (textureTotals ctx.GetTextures).RTBytes) MB)
              ++ " MB.\nAvg. tex dimension: " ++ F.argFloat F32.nan ++ "x"
              ++ F.argFloat F32.nan ++ " ("
              ++ F.argFloat F32.nan ++ "x"
              ++ F.argFloat F32.nan ++ " over 32x32)\n")
            ++ buffersText F ctx.GetBuffers.length (bufferTotals ctx.GetBuffers)
            ++ loadText F (textureTotals ctx.GetTextures) (bufferTotals ctx.GetBuffers)
            ++ details) ∧
      (ctx.FrameInfo.stats.recorded = false →
        GenerateReport F ctx = some (
          reportHeader F ctx ++ "\n*** Summary ***\n\n"
            ++ drawListText (countAllEvents ctx.CurDrawcalls)
            ++ ratioText F (numAPIcalls (lastLeaf back) (countAllEvents ctx.CurDrawcalls))
              (countAllEvents ctx.CurDrawcalls)
            ++ (argNat ctx.GetTextures.length ++ " Textures - "
              ++ F.argFixed (F32.div (F32.ofNat (textureTotals ctx.GetTextures).TexBytes) MB)
              ++ " MB ("
              ++ F.argFixed (F32.div (F32.ofNat (textureTotals ctx.GetTextures).LargeTexBytes) MB)
              ++ " MB over 32x32), "
              ++ argNat (textureTotals ctx.GetTextures).numRTs ++ " RTs - "
              ++ F.argFixed (F32.div (F32.ofNat (textureTotals ctx.GetTextures).RTBytes) MB)
              ++ " MB.\nAvg. tex dimension: " ++ F.argFloat F32.nan ++ "x"
              ++ F.argFloat F32.nan ++ " ("
              ++ F.argFloat F32.nan ++ "x"
              ++ F.argFloat F32.nan ++ " over 32x32)\n")
            ++ buffersText F ctx.GetBuffers.length (bufferTotals ctx.GetBuffers)
            ++ loadText F (textureTotals ctx.GetTextures) (bufferTotals ctx.GetBuffers))) := by
  obtain ⟨h1, h2, h3, h4, h5, h6⟩ := textureStep_foldl_targets ctx.GetTextures
    { RTBytes := 0, TexBytes := 0, LargeTexBytes := 0, numRTs := 0
      texW := F32.fin 0, texH := F32.fin 0, largeTexW := F32.fin 0, largeTexH := F32.fin 0
      texCount := 0, largeTexCount := 0 } hrt
  have e1 : (textureTotals ctx.GetTextures).texW = F32.fin 0 := h1
  have e2 : (textureTotals ctx.GetTextures).texH = F32.fin 0 := h2
  have e3 : (textureTotals ctx.GetTextures).largeTexW = F32.fin 0 := h3
  have e4 : (textureTotals ctx.GetTextures).largeTexH = F32.fin 0 := h4
  have e5 : (textureTotals ctx.GetTextures).texCount = 0 := h5
  have e6 : (textureTotals ctx.GetTextures).largeTexCount = 0 := h6
  have htex : texturesText F ctx.GetTextures.length (textureTotals ctx.GetTextures) =
      argNat ctx.GetTextures.length ++ " Textures - "
        ++ F.argFixed (F32.div (F32.ofNat (textureTotals ctx.GetTextures).TexBytes) MB)
        ++ " MB ("
        ++ F.argFixed (F32.div (F32.ofNat (textureTotals ctx.GetTextures).LargeTexBytes) MB)
        ++ " MB over 32x32), "
        ++ argNat (textureTotals ctx.GetTextures).numRTs ++ " RTs - "
        ++ F.argFixed (F32.div (F32.ofNat (textureTotals ctx.GetTextures).RTBytes) MB)
        ++ " MB.\nAvg. tex dimension: " ++ F.argFloat F32.nan ++ "x"
        ++ F.argFloat F32.nan ++ " ("
        ++ F.argFloat F32.nan ++ "x"
        ++ F.argFloat F32.nan ++ " over 32x32)\n" := by
    unfold texturesText
    rw [e1, e2, e3, e4, e5, e6, F32.div_zero_zero]
  obtain ⟨back, hb⟩ := getLast?_of_ne_nil ctx.CurDrawcalls hne
  refine ⟨e5, e6, ?_, ?_, ?_, ?_, back, hb, ?_, ?_⟩
  · rw [e1, e5]; exact F32.div_zero_zero
  · rw [e2, e5]; exact F32.div_zero_zero
  · rw [e3, e6]; exact F32.div_zero_zero
  · rw [e4, e6]; exact F32.div_zero_zero
  · rw [GenerateReport_of_back F ctx back hb, AppendDetailedInformation_appends,
      summaryLog_parts, htex]
  · intro hrec
    rw [GenerateReport_of_back F ctx back hb, AppendDetailedInformation_not_recorded F _ _ hrec,
      summaryLog_parts, htex, AppendAPICallSummary_not_recorded F _ _ hrec, String.append_empty]

set_option maxRecDepth 100000 in
/-- Witness of the amended C18, with a formatter that writes `nan` for the
non-finite value: a capture without recorded statistics whose only texture is
a render target, and a capture with recorded statistics and no texture. Both
reports are produced and their texture line reads
`nanxnan (nanxnan over 32x32)`. -/
theorem C18_no_texture_averages_witness :
    F32.div (textureTotals targetOnlyCapture.GetTextures).texW
      (F32.ofNat (textureTotals targetOnlyCapture.GetTextures).texCount) = F32.nan ∧
    (∃ before after, GenerateReport nanFormatting targetOnlyCapture =
      some (before ++ "1 Textures - 0.00 MB (0.00 MB over 32x32), 1 RTs - 0.00 MB.\n"
        ++ "Avg. tex dimension: nanxnan (nanxnan over 32x32)\n" ++ after)) ∧
    (exampleContext oneBucketStatistics).FrameInfo.stats.recorded = true ∧
    (∃ before after, GenerateReport nanFormatting (exampleContext oneBucketStatistics) =
      some (before ++ "0 Textures - 0.00 MB (0.00 MB over 32x32), 0 RTs - 0.00 MB.\n"
        ++ "Avg. tex dimension: nanxnan (nanxnan over 32x32)\n" ++ after)) := by
  obtain ⟨_, _, h3, _, _, _, back, _, _, h⟩ := C18_no_texture_averages nanFormatting
    targetOnlyCapture (List.cons_ne_nil _ _) (by decide)
  obtain ⟨_, _, _, _, _, _, back2, _, hmap, _⟩ := C18_no_texture_averages nanFormatting
    (exampleContext oneBucketStatistics) (List.cons_ne_nil _ _) (by decide)
  have hsome : (AppendDetailedInformation nanFormatting ""
      (exampleContext oneBucketStatistics).FrameInfo).isSome = true := by decide
  obtain ⟨details, hd⟩ := Option.isSome_iff_exists.mp hsome
  rw [hd, Option.map_some'] at hmap
  have e : (argNat targetOnlyCapture.GetTextures.length ++ " Textures - "
      ++ nanFormatting.argFixed
        (F32.div (F32.ofNat (textureTotals targetOnlyCapture.GetTextures).TexBytes) MB)
      ++ " MB ("
      ++ nanFormatting.argFixed
        (F32.div (F32.ofNat (textureTotals targetOnlyCapture.GetTextures).LargeTexBytes) MB)
      ++ " MB over 32x32), "
      ++ argNat (textureTotals targetOnlyCapture.GetTextures).numRTs ++ " RTs - "
      ++ nanFormatting.argFixed
        (F32.div (F32.ofNat (textureTotals targetOnlyCapture.GetTextures).RTBytes) MB)
      ++ " MB.\nAvg. tex dimension: " ++ nanFormatting.argFloat F32.nan ++ "x"
      ++ nanFormatting.argFloat F32.nan ++ " ("
      ++ nanFormatting.argFloat F32.nan ++ "x"
      ++ nanFormatting.argFloat F32.nan ++ " over 32x32)\n") =
      "1 Textures - 0.00 MB (0.00 MB over 32x32), 1 RTs - 0.00 MB.\n"
        ++ "Avg. tex dimension: nanxnan (nanxnan over 32x32)\n" := by decide
  have e2 : (argNat (exampleContext oneBucketStatistics).GetTextures.length ++ " Textures - "
      ++ nanFormatting.argFixed (F32.div (F32.ofNat
        (textureTotals (exampleContext oneBucketStatistics).GetTextures).TexBytes) MB)
      ++ " MB ("
      ++ nanFormatting.argFixed (F32.div (F32.ofNat
        (textureTotals (exampleContext oneBucketStatistics).GetTextures).LargeTexBytes) MB)
      ++ " MB over 32x32), "
      ++ argNat (textureTotals (exampleContext oneBucketStatistics).GetTextures).numRTs
      ++ " RTs - "
      ++ nanFormatting.argFixed (F32.div (F32.ofNat
        (textureTotals (exampleContext oneBucketStatistics).GetTextures).RTBytes) MB)
      ++ " MB.\nAvg. tex dimension: " ++ nanFormatting.argFloat F32.nan ++ "x"
      ++ nanFormatting.argFloat F32.nan ++ " ("
      ++ nanFormatting.argFloat F32.nan ++ "x"
      ++ nanFormatting.argFloat F32.nan ++ " over 32x32)\n") =
      "0 Textures - 0.00 MB (0.00 MB over 32x32), 0 RTs - 0.00 MB.\n"
        ++ "Avg. tex dimension: nanxnan (nanxnan over 32x32)\n" := by decide
  refine ⟨h3, ⟨reportHeader nanFormatting targetOnlyCapture ++ "\n*** Summary ***\n\n"
      ++ drawListText (countAllEvents targetOnlyCapture.CurDrawcalls)
      ++ ratioText nanFormatting
        (numAPIcalls (lastLeaf back) (countAllEvents targetOnlyCapture.CurDrawcalls))
        (countAllEvents targetOnlyCapture.CurDrawcalls),
    buffersText nanFormatting targetOnlyCapture.GetBuffers.length
        (bufferTotals targetOnlyCapture.GetBuffers)
      ++ loadText nanFormatting (textureTotals targetOnlyCapture.GetTextures)
        (bufferTotals targetOnlyCapture.GetBuffers), (h rfl).trans ?_⟩, rfl,
    ⟨reportHeader nanFormatting (exampleContext oneBucketStatistics)
      ++ "\n*** Summary ***\n\n"
      ++ drawListText (countAllEvents (exampleContext oneBucketStatistics).CurDrawcalls)
      ++ AppendAPICallSummary nanFormatting (exampleContext oneBucketStatistics).FrameInfo
        (numAPIcalls (lastLeaf back2)
          (countAllEvents (exampleContext oneBucketStatistics).CurDrawcalls))
      ++ ratioText nanFormatting
        (numAPIcalls (lastLeaf back2)
          (countAllEvents (exampleContext oneBucketStatistics).CurDrawcalls))
        (countAllEvents (exampleContext oneBucketStatistics).CurDrawcalls),
    buffersText nanFormatting (exampleContext oneBucketStatistics).GetBuffers.length
        (bufferTotals (exampleContext oneBucketStatistics).GetBuffers)
      ++ loadText nanFormatting (textureTotals (exampleContext oneBucketStatistics).GetTextures)
        (bufferTotals (exampleContext oneBucketStatistics).GetBuffers)
      ++ details, hmap.trans ?_⟩⟩
  · rw [e]
    simp only [String.append_assoc]
  · rw [e2]
    simp only [String.append_assoc]

/-! ## Claims on the classification of a node and on the traversal order -/

/-- C19: for a single node (no children) and `uint32_t` counters,
`CountContributingEvents` advances the diagnostic counter by one `uint32_t`
increment when at least one of `SetMarker`, `PushMarker`, `PopMarker` is set,
whatever their number, and leaves it unchanged otherwise; the draw counter is
advanced by one increment exactly when `Drawcall` is set and the dispatch
counter exactly when `Dispatch` is set, each test independently of the two
others. The increment is `c + 1` for every counter value below `2 ^ 32 - 1`;
in particular from zeroed counters a marker-and-draw node gives
diagnostic 1 and draw 1, a draw-and-dispatch node gives draw 1 and dispatch 1,
and a node with none of the five flags leaves all counters unchanged. -/
theorem C19_single_node_counters (eventID : Nat) (flags : DrawFlags) (c : EventCounts) :
    (CountContributingEvents (.mk eventID flags []) c).diagnosticCount =
      (if flags.SetMarker = true ∨ flags.PushMarker = true ∨ flags.PopMarker = true
        then (c.diagnosticCount + 1) % 2 ^ 32 else c.diagnosticCount) ∧
    (CountContributingEvents (.mk eventID flags []) c).drawCount =
      (if flags.Drawcall = true then (c.drawCount + 1) % 2 ^ 32 else c.drawCount) ∧
    (CountContributingEvents (.mk eventID flags []) c).dispatchCount =
      (if flags.Dispatch = true then (c.dispatchCount + 1) % 2 ^ 32 else c.dispatchCount) ∧
    (c.diagnosticCount + 1 < 2 ^ 32 → c.drawCount + 1 < 2 ^ 32 → c.dispatchCount + 1 < 2 ^ 32 →
      (CountContributingEvents (.mk eventID flags []) c).diagnosticCount =
        c.diagnosticCount +
          (if flags.SetMarker = true ∨ flags.PushMarker = true ∨ flags.PopMarker = true
            then 1 else 0) ∧
      (CountContributingEvents (.mk eventID flags []) c).drawCount =
        c.drawCount + (if flags.Drawcall = true then 1 else 0) ∧
      (CountContributingEvents (.mk eventID flags []) c).dispatchCount =
        c.dispatchCount + (if flags.Dispatch = true then 1 else 0)) := by
  have hmod : (CountContributingEvents (.mk eventID flags []) c).diagnosticCount =
      (if flags.SetMarker = true ∨ flags.PushMarker = true ∨ flags.PopMarker = true
        then (c.diagnosticCount + 1) % 2 ^ 32 else c.diagnosticCount) ∧
    (CountContributingEvents (.mk eventID flags []) c).drawCount =
      (if flags.Drawcall = true then (c.drawCount + 1) % 2 ^ 32 else c.drawCount) ∧
    (CountContributingEvents (.mk eventID flags []) c).dispatchCount =
      (if flags.Dispatch = true then (c.dispatchCount + 1) % 2 ^ 32 else c.dispatchCount) := by
    rw [CountContributingEvents, CountContributingEventsList]
    unfold countNode add32
    cases flags with
    | mk sm pm pp dr di =>
      cases sm <;> cases pm <;> cases pp <;> cases dr <;> cases di <;> simp
  refine ⟨hmod.1, hmod.2.1, hmod.2.2, ?_⟩
  intro h1 h2 h3
  rw [hmod.1, hmod.2.1, hmod.2.2]
  refine ⟨?_, ?_, ?_⟩
  · split
    · exact Nat.mod_eq_of_lt h1
    · rfl
  · split
    · exact Nat.mod_eq_of_lt h2
    · rfl
  · split
    · exact Nat.mod_eq_of_lt h3
    · rfl

/-- Witness of C19: from zeroed counters a node with the three marker flags
and the `Drawcall` flag gives diagnostic 1, draw 1 and dispatch 0. -/
theorem C19_single_node_counters_witness :
    (CountContributingEvents (.mk 7 markersAndDraw [])
      { drawCount := 0, dispatchCount := 0, diagnosticCount := 0 }).diagnosticCount = 1 ∧
    (CountContributingEvents (.mk 7 markersAndDraw [])
      { drawCount := 0, dispatchCount := 0, diagnosticCount := 0 }).drawCount = 1 ∧
    (CountContributingEvents (.mk 7 markersAndDraw [])
      { drawCount := 0, dispatchCount := 0, diagnosticCount := 0 }).dispatchCount = 0 :=
  (C19_single_node_counters 7 markersAndDraw
    { drawCount := 0, dispatchCount := 0, diagnosticCount := 0 }).2.2.2
    (by decide) (by decide) (by decide)

theorem Reorder_refl : ∀ l : List DrawcallDescription, Reorder l l
  | [] => Reorder.nil
  | .mk e f cs :: ds => Reorder.node e f cs cs ds ds (Reorder_refl cs) (Reorder_refl ds)

/-- Every permutation of a list of trees is a reordering. -/
theorem Reorder_of_perm (l l2 : List DrawcallDescription) (h : l.Perm l2) : Reorder l l2 := by
  induction h with
  | nil => exact Reorder.nil
  | cons x _ ih =>
    cases x with
    | mk e f cs => exact Reorder.node e f cs cs _ _ (Reorder_refl cs) ih
  | swap x y l => exact Reorder.swap y x l
  | trans _ _ ih1 ih2 => exact Reorder.trans _ _ _ ih1 ih2

/-- Every permutation of the children of a node is a reordering of the node. -/
theorem Reorder_children (eventID : Nat) (flags : DrawFlags) (cs cs2 : List DrawcallDescription)
    (h : cs.Perm cs2) :
    Reorder [DrawcallDescription.mk eventID flags cs] [DrawcallDescription.mk eventID flags cs2] :=
  Reorder.node eventID flags cs cs2 [] [] (Reorder_of_perm cs cs2 h) Reorder.nil

/-- Reordering keeps the number of nodes with a given property. -/
theorem nodeCountList_reorder (p : DrawFlags → Bool) (l l2 : List DrawcallDescription)
    (h : Reorder l l2) : nodeCountList p l = nodeCountList p l2 := by
  induction h with
  | nil => rfl
  | node e f cs cs2 ds ds2 _ _ ih1 ih2 =>
    simp only [nodeCountList, nodeCount, ih1, ih2]
  | swap a b ds =>
    simp only [nodeCountList]
    omega
  | trans _ _ _ _ _ ih1 ih2 => rw [ih1, ih2]

theorem CountContributingEventsList_eq (ds : List DrawcallDescription) (c : EventCounts)
    (h1 : c.drawCount < 2 ^ 32) (h2 : c.dispatchCount < 2 ^ 32)
    (h3 : c.diagnosticCount < 2 ^ 32) :
    CountContributingEventsList ds c =
      advance c (nodeCountList (fun f => f.Drawcall) ds) (nodeCountList (fun f => f.Dispatch) ds)
        (nodeCountList isDiagnostic ds) := by
  have := CountContributingEventsList_advance ds c 0 0 0
  rw [advance_zero c h1 h2 h3] at this
  simpa using this

/-- C20: the counts do not depend on the order of traversal. For two lists of
drawcall trees that differ only in the order of the children of any nodes and
of the top-level trees, and for all initial `uint32_t` counters, the loop of
`CountContributingEvents` over the list gives the same three counters, a node
with one or the other list as children gives the same counters, and
`GenerateReport` computes the same draw, dispatch and diagnostic counts from
either list as top-level drawcalls. -/
theorem C20_counts_order_independent (ds ds2 : List DrawcallDescription) (c : EventCounts)
    (h1 : c.drawCount < 2 ^ 32) (h2 : c.dispatchCount < 2 ^ 32)
    (h3 : c.diagnosticCount < 2 ^ 32) (h : Reorder ds ds2) :
    CountContributingEventsList ds c = CountContributingEventsList ds2 c ∧
    (∀ eventID flags, CountContributingEvents (.mk eventID flags ds) c =
      CountContributingEvents (.mk eventID flags ds2) c) ∧
    countAllEvents ds = countAllEvents ds2 := by
  have hl : ∀ c : EventCounts, c.drawCount < 2 ^ 32 → c.dispatchCount < 2 ^ 32 →
      c.diagnosticCount < 2 ^ 32 →
      CountContributingEventsList ds c = CountContributingEventsList ds2 c := by
    intro c h1 h2 h3
    rw [CountContributingEventsList_eq ds c h1 h2 h3,
      CountContributingEventsList_eq ds2 c h1 h2 h3, nodeCountList_reorder _ ds ds2 h,
      nodeCountList_reorder _ ds ds2 h, nodeCountList_reorder _ ds ds2 h]
  refine ⟨hl c h1 h2 h3, ?_, ?_⟩
  · intro e f
    have hn := nodeCountList_reorder (fun f => f.Drawcall) _ _
      (Reorder.node e f ds ds2 [] [] h Reorder.nil)
    have hn2 := nodeCountList_reorder (fun f => f.Dispatch) _ _
      (Reorder.node e f ds ds2 [] [] h Reorder.nil)
    have hn3 := nodeCountList_reorder isDiagnostic _ _
      (Reorder.node e f ds ds2 [] [] h Reorder.nil)
    simp only [nodeCountList, Nat.add_zero] at hn hn2 hn3
    rw [CountContributingEvents_eq _ c h1 h2 h3, CountContributingEvents_eq _ c h1 h2 h3,
      hn, hn2, hn3]
  · unfold countAllEvents
    exact hl _ (by norm_num) (by norm_num) (by norm_num)

/-- Witness of C20: exchanging the two top-level trees and the two children
of the draw node leaves the counts of `GenerateReport` unchanged. -/
theorem C20_counts_order_independent_witness :
    countAllEvents orderedDraws = countAllEvents reorderedDraws :=
  (C20_counts_order_independent orderedDraws reorderedDraws
    { drawCount := 0, dispatchCount := 0, diagnosticCount := 0 }
    (by decide) (by decide) (by decide)
    (Reorder.trans _ _ _
      (Reorder.node _ _ _ _ _ _ (Reorder.swap _ _ []) (Reorder_refl _))
      (Reorder.swap _ _ []))).2.2

/-! ## Claims on termination and on the last event -/

theorem height_pos (d : DrawcallDescription) : 0 < height d := by
  cases d with
  | mk e f cs => rw [height]; omega

mutual
theorem CountContributingEventsDepth_eq (d : DrawcallDescription) :
    ∀ (depth : Nat) (c : EventCounts), height d ≤ depth →
      CountContributingEventsDepth depth d c = some (CountContributingEvents d c) := by
  cases d with
  | mk e f cs =>
    intro depth c h
    rw [height] at h
    cases depth with
    | zero => omega
    | succ n =>
      rw [CountContributingEventsDepth, CountContributingEvents]
      exact CountContributingEventsDepth_list cs n (countNode f c) (by omega)
theorem CountContributingEventsDepth_list (ds : List DrawcallDescription) :
    ∀ (depth : Nat) (c : EventCounts), heightList ds ≤ depth →
      ds.foldlM (fun (c : EventCounts) (d : DrawcallDescription) =>
        CountContributingEventsDepth depth d c) c = some (CountContributingEventsList ds c) := by
  cases ds with
  | nil =>
    intro depth c _
    rw [CountContributingEventsList]
    rfl
  | cons d ds =>
    intro depth c h
    rw [heightList] at h
    rw [List.foldlM_cons, CountContributingEventsDepth_eq d depth c (le_trans (le_max_left _ _) h),
      CountContributingEventsList]
    exact CountContributingEventsDepth_list ds depth _ (le_trans (le_max_right _ _) h)
end

mutual
theorem lastDrawLoop_eq (d : DrawcallDescription) :
    ∀ steps : Nat, height d ≤ steps → lastDrawLoop steps d = some (lastLeaf d) := by
  cases d with
  | mk e f cs =>
    intro steps h
    rw [height] at h
    cases steps with
    | zero => omega
    | succ n =>
      rw [lastDrawLoop, lastLeaf_eq]
      simp only [DrawcallDescription.children]
      cases hl : cs.getLast? with
      | none => rfl
      | some c => exact lastDrawLoop_back cs n c (by omega) hl
theorem lastDrawLoop_back (cs : List DrawcallDescription) :
    ∀ (steps : Nat) (c : DrawcallDescription), heightList cs ≤ steps → cs.getLast? = some c →
      lastDrawLoop steps c = some (lastLeaf c) := by
  cases cs with
  | nil => intro steps c _ hl; cases hl
  | cons d ds =>
    cases ds with
    | nil =>
      intro steps c h hl
      rw [heightList, heightList] at h
      cases hl
      exact lastDrawLoop_eq d steps (le_trans (le_max_left _ _) h)
    | cons a as =>
      intro steps c h hl
      rw [heightList] at h
      rw [List.getLast?_cons_cons] at hl
      exact lastDrawLoop_back (a :: as) steps c (le_trans (le_max_right _ _) h) hl
end

/-- C21: on every drawcall tree (a finite tree, so without cycles) the
recursion of `CountContributingEvents` ends: run with any bound on the
recursion depth that is at least the height of the tree it returns the
counters, and on a node without children the call returns after the three
tests, without a recursive call (depth 1). The last-child descent of
`GenerateReport` ends as well: with any bound on the number of loop tests
that is at least the height of the tree it returns a node, and that node has
no children. Neither function keeps a set of visited nodes. -/
theorem C21_tree_walks_end (d : DrawcallDescription) (c : EventCounts) (extra : Nat) :
    CountContributingEventsDepth (height d + extra) d c = some (CountContributingEvents d c) ∧
    (∀ eventID flags, CountContributingEventsDepth 1 (.mk eventID flags []) c =
      some (countNode flags c)) ∧
    lastDrawLoop (height d + extra) d = some (lastLeaf d) ∧
    (lastLeaf d).children = [] ∧
    (d.children = [] → lastDrawLoop 1 d = some d) := by
  refine ⟨CountContributingEventsDepth_eq d _ c (Nat.le_add_right _ _), fun e f => rfl,
    lastDrawLoop_eq d _ (Nat.le_add_right _ _), lastLeaf_children d, ?_⟩
  intro h
  rw [lastDrawLoop, h]
  rfl

/-- Witness of C21: on a tree of height 3 both walks end within three levels;
the recursion counts one draw, one dispatch and one marker, and the descent
reaches event 4. -/
theorem C21_tree_walks_end_witness :
    height exampleTree = 3 ∧
    CountContributingEventsDepth 3 exampleTree
        { drawCount := 0, dispatchCount := 0, diagnosticCount := 0 } =
      some { drawCount := 1, dispatchCount := 1, diagnosticCount := 1 } ∧
    (lastDrawLoop 3 exampleTree).map DrawcallDescription.eventID = some 4 ∧
    lastDrawLoop 1 (.mk 4 { NoFlags with Dispatch := true } []) =
      some (.mk 4 { NoFlags with Dispatch := true } []) :=
  ⟨by decide,
    (C21_tree_walks_end exampleTree
      { drawCount := 0, dispatchCount := 0, diagnosticCount := 0 } 0).1.trans (by decide),
    (congrArg (Option.map DrawcallDescription.eventID)
      (C21_tree_walks_end exampleTree
        { drawCount := 0, dispatchCount := 0, diagnosticCount := 0 } 0).2.2.1).trans (by decide),
    (C21_tree_walks_end (.mk 4 { NoFlags with Dispatch := true } [])
      { drawCount := 0, dispatchCount := 0, diagnosticCount := 0 } 0).2.2.2.2 rfl⟩

/-! ## Claims on the bars of the simple histogram -/

/-- The bar of a bucket that holds the scaling maximum has the full width. -/
theorem barSlice_self (m : Nat) (h0 : 0 < m) (hm : m < 2 ^ 32) : barSlice m m = 128 := by
  obtain ⟨_, h1, _⟩ := ofNat_u32 h0 hm
  have hne : f32Round (m : ℚ) ≠ 0 := by linarith
  unfold barSlice
  rw [if_neg (by omega)]
  unfold barProduct
  rw [div_self hne, f32Round_one, one_mul, f32Round_128]
  have : ⌊(128 : ℚ)⌋ = 128 := by simp
  rw [this]
  rfl

/-- C24: in the histogram that `CreateSimpleIntegerHistogram` renders for an
array of `uint32_t` counts with at least one non-zero count, the scaling
maximum is the largest count of the array, and the bar of every printed line
is a run of asterisks of the length `SliceForString` returns, which is at
most 128, is exactly 128 when the count of the bucket equals the maximum
count (such a bucket is always printed), and is 0 exactly when the count of
the bucket is 0. -/
theorem C24_bar_lengths (legend : String) (array : List Nat)
    (hw : ∀ x ∈ array, x < 2 ^ 32) (hpos : ∃ x ∈ array, 0 < x) :
    CreateSimpleIntegerHistogram legend array =
      some ("\n" ++ legend ++ ":\n" ++ String.join
        ((List.range ((scanResult array 0).2 + 1)).map
          (barLine array (scanResult array 0).1 indexLabel))) ∧
    (∀ x ∈ array, x ≤ (scanResult array 0).1) ∧
    (scanResult array 0).1 ∈ array ∧
    (∀ o, o < array.length → array.getD o 0 = (scanResult array 0).1 →
      o ≤ (scanResult array 0).2) ∧
    ∀ o, o ≤ (scanResult array 0).2 →
      SliceForString Stars (array.getD o 0) (scanResult array 0).1 =
        some (barSlice (array.getD o 0) (scanResult array 0).1) ∧
      barLine array (scanResult array 0).1 indexLabel o =
        indexLabel o ++ ": "
          ++ String.mk (List.replicate (barSlice (array.getD o 0) (scanResult array 0).1).toNat '*')
          ++ " " ++ CountOrEmpty (array.getD o 0) ++ "\n" ∧
      (barSlice (array.getD o 0) (scanResult array 0).1).toNat ≤ 128 ∧
      (array.getD o 0 = (scanResult array 0).1 →
        (barSlice (array.getD o 0) (scanResult array 0).1).toNat = 128) ∧
      ((barSlice (array.getD o 0) (scanResult array 0).1).toNat = 0 ↔ array.getD o 0 = 0) := by
  obtain ⟨x, hx, hx0⟩ := hpos
  obtain ⟨i, hi, hix⟩ := List.getElem_of_mem hx
  have hgi : array.getD i 0 = x := by
    rw [List.getD_eq_getElem?_getD, List.getElem?_eq_getElem hi, hix]; rfl
  have hne : array ≠ [] := List.ne_nil_of_mem hx
  obtain ⟨ha, hb, hc⟩ := scanResult_spec array 0
  obtain ⟨hmc, _⟩ := scanResult_max_pos array 0 i (Nat.zero_le _) hi (by rw [hgi]; exact hx0)
  have hlt := scanResult_max_lt array 0 hw
  have hmwlt : (scanResult array 0).2 < array.length := by
    rcases hc with ⟨h1, _⟩ | ⟨_, h2, _⟩
    · rw [h1]; exact List.length_pos.mpr hne
    · exact h2
  refine ⟨CreateSimpleIntegerHistogram_eq legend array hne hw, ?_, ?_, ?_, ?_⟩
  · intro y hy
    obtain ⟨j, hj, hjy⟩ := List.getElem_of_mem hy
    have := ha j (Nat.zero_le _) hj
    rw [List.getD_eq_getElem?_getD, List.getElem?_eq_getElem hj, hjy] at this
    exact this
  · rcases hb with hb | ⟨o, _, h2, h3⟩
    · omega
    · rw [← h3, List.getD_eq_getElem?_getD, List.getElem?_eq_getElem h2]
      exact List.getElem_mem _
  · intro o ho heq
    exact (scanResult_max_pos array 0 o (Nat.zero_le _) ho (by rw [heq]; exact hmc)).2
  · intro o ho
    have hle := ha o (Nat.zero_le _) (lt_of_le_of_lt ho hmwlt)
    obtain ⟨hb0, hb1, hb2, hb3⟩ :=
      barSlice_bounds (array.getD o 0) (scanResult array 0).1 hle hlt
    refine ⟨SliceForString_eq_barSlice hle hlt, ?_, by omega, ?_, ?_⟩
    · unfold barLine histogramLine
      rw [QStringLeft_Stars _ hb0 hb1]
    · intro heq
      rw [heq, barSlice_self _ hmc hlt]
      rfl
    · constructor
      · intro hz
        by_contra hc0
        have := hb2 (Nat.pos_of_ne_zero hc0)
        omega
      · intro hz
        rw [hb3 hz]
        rfl

/-- Witness of C24: in the histogram of `[3, 0, 3]` the buckets 0 and 2 hold
the maximum and have bars of 128 asterisks, and bucket 1 has an empty bar. -/
theorem C24_bar_lengths_witness :
    (barSlice (([3, 0, 3] : List Nat).getD 0 0) (scanResult [3, 0, 3] 0).1).toNat = 128 ∧
    ((barSlice (([3, 0, 3] : List Nat).getD 1 0) (scanResult [3, 0, 3] 0).1).toNat = 0 ↔
      ([3, 0, 3] : List Nat).getD 1 0 = 0) ∧
    (barSlice (([3, 0, 3] : List Nat).getD 2 0) (scanResult [3, 0, 3] 0).1).toNat = 128 :=
  ⟨((C24_bar_lengths "L" [3, 0, 3] (by intro x hx; simp at hx; omega)
      ⟨3, by simp, by decide⟩).2.2.2.2 0 (by decide)).2.2.2.1 (by decide),
    ((C24_bar_lengths "L" [3, 0, 3] (by intro x hx; simp at hx; omega)
      ⟨3, by simp, by decide⟩).2.2.2.2 1 (by decide)).2.2.2.2,
    ((C24_bar_lengths "L" [3, 0, 3] (by intro x hx; simp at hx; omega)
      ⟨3, by simp, by decide⟩).2.2.2.2 2 (by decide)).2.2.2.1 (by decide)⟩

/-! ## Claims on bucket 0 of the simple histograms -/

theorem AppendOutputStatistics_eq (log : String) (frameInfo : FrameDescription) :
    AppendOutputStatistics log frameInfo =
      (CreateSimpleIntegerHistogram "Outputs set" frameInfo.stats.outputs.bindslots).map
        (fun hist => log ++ outputHeading frameInfo.stats.outputs ++ hist) := by
  unfold AppendOutputStatistics outputHeading
  dsimp only
  simp only [bind, pure, String.append_assoc]
  cases CreateSimpleIntegerHistogram "Outputs set" frameInfo.stats.outputs.bindslots <;> rfl

theorem AppendInputAssemblerStatistics_eq (log : String) (frameInfo : FrameDescription) :
    AppendInputAssemblerStatistics log frameInfo =
      (CreateSimpleIntegerHistogram "Aggregate vertex slot counts per invocation"
        frameInfo.stats.vertices.bindslots).map
        (fun hist => log ++ inputAssemblerHeading frameInfo.stats ++ hist) := by
  unfold AppendInputAssemblerStatistics inputAssemblerHeading
  dsimp only
  simp only [bind, pure, String.append_assoc]
  cases CreateSimpleIntegerHistogram "Aggregate vertex slot counts per invocation"
    frameInfo.stats.vertices.bindslots <;> rfl

theorem AppendRasterizationStatistics_eq (log : String) (frameInfo : FrameDescription) :
    AppendRasterizationStatistics log frameInfo =
      (CreateSimpleIntegerHistogram "Viewports set" frameInfo.stats.rasters.viewports).bind
        (fun viewports =>
          (CreateSimpleIntegerHistogram "Scissors set" frameInfo.stats.rasters.rects).map
            (fun rects => log ++ rasterizationHeading frameInfo.stats.rasters
              ++ viewports ++ rects)) := by
  unfold AppendRasterizationStatistics rasterizationHeading
  dsimp only
  simp only [bind, pure, String.append_assoc]
  cases CreateSimpleIntegerHistogram "Viewports set" frameInfo.stats.rasters.viewports with
  | none => rfl
  | some v =>
    cases CreateSimpleIntegerHistogram "Scissors set" frameInfo.stats.rasters.rects <;> rfl

/-- The sampler section: stage lines and totals, then the histogram of the
slots of the all-stages totals. -/
theorem AppendSamplerBindStatistics_eq (F : Formatting) (log : String)
    (frameInfo : FrameDescription) (ps : List SlotBindStats) (t : SlotBindStats)
    (h1 : totalSamplersPerStage F frameInfo.stats = some ps)
    (h2 : totalSamplersForAllStages ps = some t) :
    ∃ before, AppendSamplerBindStatistics F log frameInfo =
      (CreateSimpleIntegerHistogram "Aggregate slot counts per invocation across all stages"
        t.bindslots).map (fun hist => log ++ before ++ hist) := by
  refine ⟨"\n*** Sampler Bind Statistics ***\n\n" ++
    ps.enum.foldl (fun (log : String) (sp : Nat × SlotBindStats) =>
      log ++ (F.Abbrev sp.1 ++ " calls: " ++ argNat sp.2.calls
        ++ ", non-null sampler sets: " ++ argNat sp.2.sets
        ++ ", null sampler sets: " ++ argNat sp.2.nulls ++ "\n")) "" ++
    ("Total calls: " ++ argNat t.calls ++ ", non-null sampler sets: " ++ argNat t.sets
      ++ ", null sampler sets: " ++ argNat t.nulls ++ "\n"), ?_⟩
  unfold AppendSamplerBindStatistics
  rw [h1]
  simp only [Option.some_bind, Option.bind_eq_bind]
  rw [h2]
  simp only [Option.some_bind]
  have e := foldl_append_extends (fun (sp : Nat × SlotBindStats) =>
      (F.Abbrev sp.1 ++ " calls: " ++ argNat sp.2.calls
        ++ ", non-null sampler sets: " ++ argNat sp.2.sets
        ++ ", null sampler sets: " ++ argNat sp.2.nulls ++ "\n")) ps.enum
      (log ++ "\n*** Sampler Bind Statistics ***\n\n") ""
  rw [String.append_empty] at e
  rw [e]
  simp only [String.append_assoc]
  cases CreateSimpleIntegerHistogram _ t.bindslots <;> rfl

/-- The constant section: stage lines and totals, the histogram of the slots
of the all-stages totals, then the histogram of the sizes. -/
theorem AppendConstantBindStatistics_eq (F : Formatting) (log : String)
    (frameInfo : FrameDescription) (ps : List ConstantBindStats) (t : ConstantBindStats)
    (h1 : totalConstantsPerStage F frameInfo.stats = some ps)
    (h2 : totalConstantsForAllStages ps = some t) :
    ∃ before, AppendConstantBindStatistics F log frameInfo =
      (CreateSimpleIntegerHistogram "Aggregate slot counts per invocation across all stages"
        t.bindslots).bind (fun hist =>
          appendHistogram (log ++ before ++ hist
            ++ "\nAggregate constant buffer sizes across all stages:\n") t.sizes 0
            (fun s => (Pow2IndexAsReadable F s).map (fun l => argWidth l 8))) := by
  refine ⟨"\n*** Constant Bind Statistics ***\n\n" ++
    ps.enum.foldl (fun (log : String) (sp : Nat × ConstantBindStats) =>
      log ++ (F.Abbrev sp.1 ++ " calls: " ++ argNat sp.2.calls
        ++ ", non-null buffer sets: " ++ argNat sp.2.sets
        ++ ", null buffer sets: " ++ argNat sp.2.nulls ++ "\n")) "" ++
    ("Total calls: " ++ argNat t.calls ++ ", non-null buffer sets: " ++ argNat t.sets
      ++ ", null buffer sets: " ++ argNat t.nulls ++ "\n"), ?_⟩
  unfold AppendConstantBindStatistics
  rw [h1]
  simp only [Option.some_bind, Option.bind_eq_bind]
  rw [h2]
  simp only [Option.some_bind]
  have e := foldl_append_extends (fun (sp : Nat × ConstantBindStats) =>
      (F.Abbrev sp.1 ++ " calls: " ++ argNat sp.2.calls
        ++ ", non-null buffer sets: " ++ argNat sp.2.sets
        ++ ", null buffer sets: " ++ argNat sp.2.nulls ++ "\n")) ps.enum
      (log ++ "\n*** Constant Bind Statistics ***\n\n") ""
  rw [String.append_empty] at e
  rw [e]
  simp only [String.append_assoc]

theorem QStringLeft_Stars_full : QStringLeft Stars 128 = Stars := by
  unfold QStringLeft
  rw [if_pos (Or.inr (by rw [Stars_length]; norm_num))]

theorem range_succ_eq_zero_cons (n : Nat) : List.range (n + 1) = 0 :: List.range' 1 n := by
  rw [List.range_eq_range']
  rfl

set_option maxRecDepth 100000 in
/-- C22, as the claim states it, fails: for the output slot histogram
`[2, 2]`, `AppendOutputStatistics` emits under "Outputs set" a line for
index 0, with a full bar and the count 2, before the line of index 1. -/
theorem C22_counterexample :
    AppendOutputStatistics "" outputsFrame =
      some ("\n*** Output Statistics ***\nOutput calls: 4 non-null sets: 4, null sets: 0\n"
        ++ "\nOutputs set:\n"
        ++ "   0: " ++ Stars ++ " (2)\n"
        ++ "   1: " ++ Stars ++ " (2)\n") := by
  have hs : scanResult [2, 2] 0 = (2, 1) := by decide
  have hb : barSlice 2 2 = 128 := barSlice_self 2 (by norm_num) (by norm_num)
  have h0 : barLine [2, 2] 2 indexLabel 0 = "   0: " ++ Stars ++ " (2)\n" := by
    unfold barLine histogramLine
    have hg : ([2, 2] : List Nat).getD 0 0 = 2 := rfl
    rw [hg, hb, QStringLeft_Stars_full]
    decide
  have h1 : barLine [2, 2] 2 indexLabel 1 = "   1: " ++ Stars ++ " (2)\n" := by
    unfold barLine histogramLine
    have hg : ([2, 2] : List Nat).getD 1 0 = 2 := rfl
    rw [hg, hb, QStringLeft_Stars_full]
    decide
  have hbs : outputsFrame.stats.outputs.bindslots = [2, 2] := rfl
  rw [AppendOutputStatistics_eq, hbs,
    CreateSimpleIntegerHistogram_eq "Outputs set" [2, 2] (List.cons_ne_nil _ _)
      (by intro x hx; simp at hx; omega), hs]
  have hr : List.range (1 + 1) = [0, 1] := rfl
  rw [hr, List.map_cons, List.map_cons, List.map_nil, h0, h1, join_cons, join_cons, join_nil]
  decide

/-- C22, amended: the histograms rendered through
`CreateSimpleIntegerHistogram` do not skip bucket 0. For every non-empty
array of `uint32_t` counts the text is the legend, then the line of index 0
(label `"   0"`, the bar and the count of bucket 0), then the lines of the
indices `1 .. maxWithValue`; and the vertex, output, viewport, scissor,
sampler, constant and resource slot histograms of the section builders are
this text for the slot array of the section (for the three multi-stage
sections, the slot array of the all-stages totals). -/
theorem C22_index_zero_printed (F : Formatting) (log : String) (frameInfo : FrameDescription)
    (legend : String) (array : List Nat) (hne : array ≠ [])
    (hw : ∀ x ∈ array, x < 2 ^ 32) :
    CreateSimpleIntegerHistogram legend array =
      some ("\n" ++ legend ++ ":\n"
        ++ String.join (barLine array (scanResult array 0).1 indexLabel 0 ::
          (List.range' 1 (scanResult array 0).2).map
            (barLine array (scanResult array 0).1 indexLabel))) ∧
    barLine array (scanResult array 0).1 indexLabel 0 =
      "   0" ++ ": " ++ QStringLeft Stars (barSlice (array.getD 0 0) (scanResult array 0).1)
        ++ " " ++ CountOrEmpty (array.getD 0 0) ++ "\n" ∧
    AppendInputAssemblerStatistics log frameInfo =
      (CreateSimpleIntegerHistogram "Aggregate vertex slot counts per invocation"
        frameInfo.stats.vertices.bindslots).map
        (fun hist => log ++ inputAssemblerHeading frameInfo.stats ++ hist) ∧
    AppendOutputStatistics log frameInfo =
      (CreateSimpleIntegerHistogram "Outputs set" frameInfo.stats.outputs.bindslots).map
        (fun hist => log ++ outputHeading frameInfo.stats.outputs ++ hist) ∧
    AppendRasterizationStatistics log frameInfo =
      (CreateSimpleIntegerHistogram "Viewports set" frameInfo.stats.rasters.viewports).bind
        (fun viewports =>
          (CreateSimpleIntegerHistogram "Scissors set" frameInfo.stats.rasters.rects).map
            (fun rects => log ++ rasterizationHeading frameInfo.stats.rasters
              ++ viewports ++ rects)) ∧
    (∀ ps t, totalSamplersPerStage F frameInfo.stats = some ps →
      totalSamplersForAllStages ps = some t →
      ∃ before, AppendSamplerBindStatistics F log frameInfo =
        (CreateSimpleIntegerHistogram "Aggregate slot counts per invocation across all stages"
          t.bindslots).map (fun hist => log ++ before ++ hist)) ∧
    (∀ ps t, totalConstantsPerStage F frameInfo.stats = some ps →
      totalConstantsForAllStages ps = some t →
      ∃ before, AppendConstantBindStatistics F log frameInfo =
        (CreateSimpleIntegerHistogram "Aggregate slot counts per invocation across all stages"
          t.bindslots).bind (fun hist =>
            appendHistogram (log ++ before ++ hist
              ++ "\nAggregate constant buffer sizes across all stages:\n") t.sizes 0
              (fun s => (Pow2IndexAsReadable F s).map (fun l => argWidth l 8)))) ∧
    (∀ ps t, totalResourcesPerStage F frameInfo.stats = some ps →
      totalResourcesForAllStages ps = some t →
      ∃ before, AppendResourceBindStatistics F log frameInfo =
        (appendHistogram (log ++ before ++ "\nResource types across all stages:\n") t.types 0
            (fun s => some (argWidth (F.ToQStr s) 20))).bind
          (fun l => (CreateSimpleIntegerHistogram
            "Aggregate slot counts per invocation across all stages" t.bindslots).map
              (fun hist => l ++ hist))) := by
  refine ⟨?_, ?_, AppendInputAssemblerStatistics_eq log frameInfo,
    AppendOutputStatistics_eq log frameInfo, AppendRasterizationStatistics_eq log frameInfo,
    fun ps t h1 h2 => AppendSamplerBindStatistics_eq F log frameInfo ps t h1 h2,
    fun ps t h1 h2 => AppendConstantBindStatistics_eq F log frameInfo ps t h1 h2,
    fun ps t h1 h2 => AppendResourceBindStatistics_eq F log frameInfo ps t h1 h2⟩
  · rw [CreateSimpleIntegerHistogram_eq legend array hne hw, range_succ_eq_zero_cons,
      List.map_cons]
  · unfold barLine histogramLine
    have : indexLabel 0 = "   0" := by decide
    rw [this]

set_option maxRecDepth 100000 in
/-- Witness of the amended C22: the histogram of `[0, 0, 5]` starts with the
line of index 0, which has an empty bar and no count. -/
theorem C22_index_zero_printed_witness :
    CreateSimpleIntegerHistogram "Viewports set" [0, 0, 5] =
      some ("\n" ++ "Viewports set" ++ ":\n"
        ++ String.join (barLine [0, 0, 5] (scanResult [0, 0, 5] 0).1 indexLabel 0 ::
          (List.range' 1 (scanResult [0, 0, 5] 0).2).map
            (barLine [0, 0, 5] (scanResult [0, 0, 5] 0).1 indexLabel))) ∧
    barLine [0, 0, 5] (scanResult [0, 0, 5] 0).1 indexLabel 0 = "   0:  \n" :=
  ⟨(C22_index_zero_printed (exampleFormatting 1) "" outputsFrame "Viewports set" [0, 0, 5]
      (List.cons_ne_nil _ _) (by intro x hx; simp at hx; omega)).1,
    ((C22_index_zero_printed (exampleFormatting 1) "" outputsFrame "Viewports set" [0, 0, 5]
      (List.cons_ne_nil _ _) (by intro x hx; simp at hx; omega)).2.1).trans (by decide)⟩

/-! ## Claims on the lookup of the last event -/

/-- C23: the lookup of the last event in `GenerateReport` is defined exactly
for a non-empty list of top-level drawcalls. For the empty list
`curDraws.back()` reads outside the array and no report is produced; for
every non-empty list it yields the last top-level drawcall, the descent
through the last children returns a node without children, and the report
is what `AppendDetailedInformation` makes of the summary computed with that
node (so it is produced whenever the statistics were not recorded). -/
theorem C23_last_event_lookup (F : Formatting) (ctx : ICaptureContext) :
    (ctx.CurDrawcalls = [] →
      ctx.CurDrawcalls.getLast? = none ∧ GenerateReport F ctx = none) ∧
    (ctx.CurDrawcalls ≠ [] →
      ∃ back, ctx.CurDrawcalls.getLast? = some back ∧ back ∈ ctx.CurDrawcalls ∧
        lastDrawLoop (height back) back = some (lastLeaf back) ∧
        (lastLeaf back).children = [] ∧
        GenerateReport F ctx =
          AppendDetailedInformation F (summaryLog F ctx (lastLeaf back)) ctx.FrameInfo ∧
        (ctx.FrameInfo.stats.recorded = false →
          GenerateReport F ctx = some (summaryLog F ctx (lastLeaf back)))) ∧
    (GenerateReport F ctx ≠ none → ctx.CurDrawcalls ≠ []) := by
  have hempty : ctx.CurDrawcalls = [] →
      ctx.CurDrawcalls.getLast? = none ∧ GenerateReport F ctx = none := by
    intro h
    have hl : ctx.CurDrawcalls.getLast? = none := by rw [h]; rfl
    refine ⟨hl, ?_⟩
    unfold GenerateReport
    rw [hl]
    rfl
  refine ⟨hempty, ?_, ?_⟩
  · intro hne
    obtain ⟨back, hb⟩ := getLast?_of_ne_nil ctx.CurDrawcalls hne
    refine ⟨back, hb, List.mem_of_mem_getLast? hb, lastDrawLoop_eq back _ (le_refl _),
      lastLeaf_children back, GenerateReport_of_back F ctx back hb, ?_⟩
    intro hrec
    rw [GenerateReport_of_back F ctx back hb, AppendDetailedInformation_not_recorded F _ _ hrec]
  · intro h hnil
    exact h (hempty hnil).2

/-- Witness of C23: no report for the capture without drawcalls, a report
for the capture with one drawcall. -/
theorem C23_last_event_lookup_witness :
    GenerateReport (exampleFormatting 1) emptyCapture = none ∧
    ∃ back, (exampleContext notRecorded).CurDrawcalls.getLast? = some back ∧
      GenerateReport (exampleFormatting 1) (exampleContext notRecorded) =
        some (summaryLog (exampleFormatting 1) (exampleContext notRecorded) (lastLeaf back)) :=
  ⟨((C23_last_event_lookup (exampleFormatting 1) emptyCapture).1 rfl).2,
    ((C23_last_event_lookup (exampleFormatting 1) (exampleContext notRecorded)).2.1
      (List.cons_ne_nil _ _)).elim
      (fun back h => ⟨back, h.1, h.2.2.2.2.2 rfl⟩)⟩

/-! ## Claims on the agreement of the summary with the detail sections -/

/-- The text of `AppendAPICallSummary` for recorded statistics, with the
four per-stage counters of the function. -/
theorem AppendAPICallSummary_counts (F : Formatting) (frameInfo : FrameDescription) (n : Nat)
    (h : frameInfo.stats.recorded = true) :
    AppendAPICallSummary F frameInfo n =
      "" ++ ("API calls: " ++ argNat n ++ "\n")
        ++ ("\tIndex/vertex bind calls: "
          ++ argNat (add32 (add32 frameInfo.stats.indices.calls frameInfo.stats.vertices.calls)
            frameInfo.stats.layouts.calls) ++ "\n")
        ++ ("\tConstant bind calls: " ++ argNat (numConstantSets F frameInfo.stats) ++ "\n")
        ++ ("\tSampler bind calls: " ++ argNat (numSamplerSets F frameInfo.stats) ++ "\n")
        ++ ("\tResource bind calls: " ++ argNat (numResourceSets F frameInfo.stats) ++ "\n")
        ++ ("\tShader set calls: " ++ argNat (numShaderSets F frameInfo.stats) ++ "\n")
        ++ ("\tBlend set calls: " ++ argNat frameInfo.stats.blends.calls ++ "\n")
        ++ ("\tDepth/stencil set calls: " ++ argNat frameInfo.stats.depths.calls ++ "\n")
        ++ ("\tRasterization set calls: " ++ argNat frameInfo.stats.rasters.calls ++ "\n")
        ++ ("\tResource update calls: " ++ argNat frameInfo.stats.updates.calls ++ "\n")
        ++ ("\tOutput set calls: " ++ argNat frameInfo.stats.outputs.calls ++ "\n") := by
  unfold AppendAPICallSummary
  rw [h]
  rfl

theorem numShaderSets_eq (F : Formatting) (stats : FrameStatistics) :
    (totalShadersPerStage F stats).calls = numShaderSets F stats := by
  rw [(totalShadersPerStage_fields F stats).1]
  unfold numShaderSets stageSum
  rw [foldl_add32 _ (fun s => (stats.shaders s).calls) 0 (by norm_num), Nat.zero_add]

/-- The constant totals, when they are computed, have the call count of the
summary. -/
theorem numConstantSets_eq (F : Formatting) (stats : FrameStatistics)
    (ps : List ConstantBindStats) (t : ConstantBindStats)
    (h1 : totalConstantsPerStage F stats = some ps)
    (h2 : totalConstantsForAllStages ps = some t) :
    t.calls = numConstantSets F stats := by
  have hN : 0 < F.stageCount := by
    by_contra hc
    have h0 : F.stageCount = 0 := by omega
    unfold totalConstantsPerStage at h1
    rw [h0] at h1
    have : ps = [] := by
      have h3 : some ([] : List ConstantBindStats) = some ps := h1
      cases h3
      rfl
    rw [this] at h2
    cases h2
  have hlen : ∀ s, s < F.stageCount →
      (stats.constants s).bindslots.length ≤ (stats.constants 0).bindslots.length ∧
      (stats.constants s).sizes.length ≤ (stats.constants 0).sizes.length := by
    intro s hs
    by_contra hc
    have hex : ∃ s, s < F.stageCount ∧
        ((stats.constants 0).bindslots.length < (stats.constants s).bindslots.length ∨
         (stats.constants 0).sizes.length < (stats.constants s).sizes.length) :=
      ⟨s, hs, by omega⟩
    rw [totalConstantsPerStage_none F stats hex] at h1
    cases h1
  obtain ⟨t2, e1, e2, e3, _⟩ := constantTotals_spec F stats hN hlen
  rw [e1] at h1
  cases h1
  rw [e2] at h2
  cases h2
  rw [e3]
  unfold numConstantSets stageSum
  rw [foldl_add32 _ (fun s => (stats.constants s).calls) 0 (by norm_num), Nat.zero_add]

/-- The sampler totals, when they are computed, have the call count of the
summary. -/
theorem numSamplerSets_eq (F : Formatting) (stats : FrameStatistics)
    (ps : List SlotBindStats) (t : SlotBindStats)
    (h1 : totalSamplersPerStage F stats = some ps)
    (h2 : totalSamplersForAllStages ps = some t) :
    t.calls = numSamplerSets F stats := by
  have hN : 0 < F.stageCount := by
    by_contra hc
    have h0 : F.stageCount = 0 := by omega
    unfold totalSamplersPerStage at h1
    rw [h0] at h1
    have : ps = [] := by
      have h3 : some ([] : List SlotBindStats) = some ps := h1
      cases h3
      rfl
    rw [this] at h2
    cases h2
  have hlen : ∀ s, s < F.stageCount →
      (stats.samplers s).bindslots.length ≤ (stats.samplers 0).bindslots.length := by
    intro s hs
    by_contra hc
    have hex : ∃ s, s < F.stageCount ∧
        (stats.samplers 0).bindslots.length < (stats.samplers s).bindslots.length :=
      ⟨s, hs, by omega⟩
    rw [totalSamplersPerStage_none F stats hex] at h1
    cases h1
  obtain ⟨t2, e1, e2, e3, _⟩ := samplerTotals_spec F stats hN hlen
  rw [e1] at h1
  cases h1
  rw [e2] at h2
  cases h2
  rw [e3]
  unfold numSamplerSets stageSum
  rw [foldl_add32 _ (fun s => (stats.samplers s).calls) 0 (by norm_num), Nat.zero_add]

/-- The resource totals, when they are computed, have the call count of the
summary. -/
theorem numResourceSets_eq (F : Formatting) (stats : FrameStatistics)
    (ps : List ResourceBindStats) (t : ResourceBindStats)
    (h1 : totalResourcesPerStage F stats = some ps)
    (h2 : totalResourcesForAllStages ps = some t) :
    t.calls = numResourceSets F stats := by
  have hN : 0 < F.stageCount := by
    by_contra hc
    have h0 : F.stageCount = 0 := by omega
    unfold totalResourcesPerStage at h1
    rw [h0] at h1
    have : ps = [] := by
      have h3 : some ([] : List ResourceBindStats) = some ps := h1
      cases h3
      rfl
    rw [this] at h2
    cases h2
  have hlen : ∀ s, s < F.stageCount →
      (stats.resources s).types.length ≤ (stats.resources 0).types.length ∧
      (stats.resources s).bindslots.length ≤ (stats.resources 0).bindslots.length := by
    intro s hs
    by_contra hc
    have hex : ∃ s, s < F.stageCount ∧
        ((stats.resources 0).types.length < (stats.resources s).types.length ∨
         (stats.resources 0).bindslots.length < (stats.resources s).bindslots.length) :=
      ⟨s, hs, by omega⟩
    rw [totalResourcesPerStage_none F stats hex] at h1
    cases h1
  obtain ⟨t2, e1, e2, e3, _⟩ := resourceTotals_spec F stats hN hlen
  rw [e1] at h1
  cases h1
  rw [e2] at h2
  cases h2
  rw [e3]
  unfold numResourceSets stageSum
  rw [foldl_add32 _ (fun s => (stats.resources s).calls) 0 (by norm_num), Nat.zero_add]

/-- The shader section: heading, stage lines, and the totals line with the
call count of `totalShadersPerStage`. -/
theorem AppendShaderStatistics_total (F : Formatting) (log : String)
    (frameInfo : FrameDescription) :
    ∃ lines, AppendShaderStatistics F log frameInfo =
      some (log ++ "\n*** Shader Set Statistics ***\n\n" ++ lines
        ++ "Total calls: " ++ argNat (totalShadersPerStage F frameInfo.stats).calls
        ++ ", non-null shader sets: " ++ argNat (totalShadersPerStage F frameInfo.stats).sets
        ++ ", null shader sets: " ++ argNat (totalShadersPerStage F frameInfo.stats).nulls
        ++ ", reundant shader sets: "
        ++ argNat (totalShadersPerStage F frameInfo.stats).redundants ++ "\n") := by
  refine ⟨(List.range F.stageCount).foldl
    (fun (log : String) (s : Nat) =>
      log ++ (F.Abbrev s ++ " calls: " ++ argNat (frameInfo.stats.shaders s).calls
        ++ ", non-null shader sets: " ++ argNat (frameInfo.stats.shaders s).sets
        ++ ", null shader sets: " ++ argNat (frameInfo.stats.shaders s).nulls
        ++ ", redundant shader sets: " ++ argNat (frameInfo.stats.shaders s).redundants
        ++ "\n")) "", ?_⟩
  unfold AppendShaderStatistics
  dsimp only
  have e := foldl_append_extends (fun (s : Nat) =>
      (F.Abbrev s ++ " calls: " ++ argNat (frameInfo.stats.shaders s).calls
        ++ ", non-null shader sets: " ++ argNat (frameInfo.stats.shaders s).sets
        ++ ", null shader sets: " ++ argNat (frameInfo.stats.shaders s).nulls
        ++ ", redundant shader sets: " ++ argNat (frameInfo.stats.shaders s).redundants
        ++ "\n")) (List.range F.stageCount) (log ++ "\n*** Shader Set Statistics ***\n\n") ""
  rw [String.append_empty] at e
  rw [e]
  simp only [String.append_assoc]

theorem appendHistogram_some (text out : String) (array : List Nat) (start : Nat)
    (label : Nat → Option String) (h : appendHistogram text array start label = some out) :
    ∃ r, out = text ++ r := by
  have e := appendHistogram_extends text "" array start label
  rw [String.append_empty] at e
  rw [e] at h
  cases hr : appendHistogram "" array start label with
  | none => rw [hr] at h; cases h
  | some r =>
    rw [hr] at h
    simp only [Option.map_some', Option.some.injEq] at h
    exact ⟨r, h.symm⟩

/-- The constant section, when it is produced: heading, stage lines, and the
totals line with the call count of the all-stages totals. -/
theorem AppendConstantBindStatistics_total (F : Formatting) (log out : String)
    (frameInfo : FrameDescription)
    (ho : AppendConstantBindStatistics F log frameInfo = some out) :
    ∃ ps t lines rest, totalConstantsPerStage F frameInfo.stats = some ps ∧
      totalConstantsForAllStages ps = some t ∧
      out = log ++ "\n*** Constant Bind Statistics ***\n\n" ++ lines
        ++ "Total calls: " ++ argNat t.calls ++ ", non-null buffer sets: " ++ rest := by
  cases h1 : totalConstantsPerStage F frameInfo.stats with
  | none => rw [AppendConstantBindStatistics_none F log frameInfo h1] at ho; cases ho
  | some ps =>
    unfold AppendConstantBindStatistics at ho
    rw [h1] at ho
    simp only [Option.some_bind, Option.bind_eq_bind] at ho
    cases h2 : totalConstantsForAllStages ps with
    | none => rw [h2] at ho; cases ho
    | some t =>
      rw [h2] at ho
      simp only [Option.some_bind] at ho
      cases hh : CreateSimpleIntegerHistogram
          "Aggregate slot counts per invocation across all stages" t.bindslots with
      | none => rw [hh] at ho; cases ho
      | some hist =>
        rw [hh] at ho
        simp only [Option.some_bind] at ho
        obtain ⟨r, hr⟩ := appendHistogram_some _ _ _ _ _ ho
        have e := foldl_append_extends (fun (sp : Nat × ConstantBindStats) =>
            (F.Abbrev sp.1 ++ " calls: " ++ argNat sp.2.calls
              ++ ", non-null buffer sets: " ++ argNat sp.2.sets
              ++ ", null buffer sets: " ++ argNat sp.2.nulls ++ "\n")) ps.enum
            (log ++ "\n*** Constant Bind Statistics ***\n\n") ""
        rw [String.append_empty] at e
        rw [e] at hr
        refine ⟨ps, t, (ps.enum.foldl (fun (log : String) (sp : Nat × ConstantBindStats) =>
            log ++ (F.Abbrev sp.1 ++ " calls: " ++ argNat sp.2.calls
              ++ ", non-null buffer sets: " ++ argNat sp.2.sets
              ++ ", null buffer sets: " ++ argNat sp.2.nulls ++ "\n")) ""),
          argNat t.sets ++ ", null buffer sets: " ++ argNat t.nulls ++ "\n"
          ++ hist ++ "\nAggregate constant buffer sizes across all stages:\n" ++ r, rfl, h2, ?_⟩
        rw [hr]
        simp only [String.append_assoc]

/-- The sampler section, when it is produced: heading, stage lines, and the
totals line with the call count of the all-stages totals. -/
theorem AppendSamplerBindStatistics_total (F : Formatting) (log out : String)
    (frameInfo : FrameDescription)
    (ho : AppendSamplerBindStatistics F log frameInfo = some out) :
    ∃ ps t lines rest, totalSamplersPerStage F frameInfo.stats = some ps ∧
      totalSamplersForAllStages ps = some t ∧
      out = log ++ "\n*** Sampler Bind Statistics ***\n\n" ++ lines
        ++ "Total calls: " ++ argNat t.calls ++ ", non-null sampler sets: " ++ rest := by
  cases h1 : totalSamplersPerStage F frameInfo.stats with
  | none => rw [AppendSamplerBindStatistics_none F log frameInfo h1] at ho; cases ho
  | some ps =>
    unfold AppendSamplerBindStatistics at ho
    rw [h1] at ho
    simp only [Option.some_bind, Option.bind_eq_bind] at ho
    cases h2 : totalSamplersForAllStages ps with
    | none => rw [h2] at ho; cases ho
    | some t =>
      rw [h2] at ho
      simp only [Option.some_bind] at ho
      cases hh : CreateSimpleIntegerHistogram
          "Aggregate slot counts per invocation across all stages" t.bindslots with
      | none => rw [hh] at ho; cases ho
      | some hist =>
        rw [hh] at ho
        simp only [Option.some_bind, Option.pure_def, Option.some.injEq] at ho
        have e := foldl_append_extends (fun (sp : Nat × SlotBindStats) =>
            (F.Abbrev sp.1 ++ " calls: " ++ argNat sp.2.calls
              ++ ", non-null sampler sets: " ++ argNat sp.2.sets
              ++ ", null sampler sets: " ++ argNat sp.2.nulls ++ "\n")) ps.enum
            (log ++ "\n*** Sampler Bind Statistics ***\n\n") ""
        rw [String.append_empty] at e
        rw [e] at ho
        refine ⟨ps, t, (ps.enum.foldl (fun (log : String) (sp : Nat × SlotBindStats) =>
            log ++ (F.Abbrev sp.1 ++ " calls: " ++ argNat sp.2.calls
              ++ ", non-null sampler sets: " ++ argNat sp.2.sets
              ++ ", null sampler sets: " ++ argNat sp.2.nulls ++ "\n")) ""),
          argNat t.sets ++ ", null sampler sets: " ++ argNat t.nulls ++ "\n"
          ++ hist, rfl, h2, ?_⟩
        rw [← ho]
        simp only [String.append_assoc]

/-- The resource section, when it is produced: heading, stage lines, and the
totals line with the call count of the all-stages totals. -/
theorem AppendResourceBindStatistics_total (F : Formatting) (log out : String)
    (frameInfo : FrameDescription)
    (ho : AppendResourceBindStatistics F log frameInfo = some out) :
    ∃ ps t lines rest, totalResourcesPerStage F frameInfo.stats = some ps ∧
      totalResourcesForAllStages ps = some t ∧
      out = log ++ "\n*** Resource Bind Statistics ***\n\n" ++ lines
        ++ "Total calls: " ++ argNat t.calls ++ " non-null resource sets: " ++ rest := by
  cases h1 : totalResourcesPerStage F frameInfo.stats with
  | none => rw [AppendResourceBindStatistics_none F log frameInfo h1] at ho; cases ho
  | some ps =>
    unfold AppendResourceBindStatistics at ho
    rw [h1] at ho
    simp only [Option.some_bind, Option.bind_eq_bind] at ho
    cases h2 : totalResourcesForAllStages ps with
    | none => rw [h2] at ho; cases ho
    | some t =>
      rw [h2] at ho
      simp only [Option.some_bind] at ho
      cases ha : appendHistogram
          (ps.enum.foldl (fun (log : String) (sp : Nat × ResourceBindStats) =>
            log ++ (F.Abbrev sp.1 ++ " calls: " ++ argNat sp.2.calls
              ++ " non-null resource sets: " ++ argNat sp.2.sets
              ++ " null resource sets: " ++ argNat sp.2.nulls ++ "\n"))
            (log ++ "\n*** Resource Bind Statistics ***\n\n")
            ++ ("Total calls: " ++ argNat t.calls ++ " non-null resource sets: "
              ++ argNat t.sets ++ " null resource sets: " ++ argNat t.nulls ++ "\n")
            ++ "\nResource types across all stages:\n") t.types 0
          (fun s => some (argWidth (F.ToQStr s) 20)) with
      | none => rw [ha] at ho; cases ho
      | some l =>
        rw [ha] at ho
        simp only [Option.some_bind] at ho
        obtain ⟨r, hr⟩ := appendHistogram_some _ _ _ _ _ ha
        cases hh : CreateSimpleIntegerHistogram
            "Aggregate slot counts per invocation across all stages" t.bindslots with
        | none => rw [hh] at ho; cases ho
        | some hist =>
          rw [hh] at ho
          simp only [Option.some_bind, Option.pure_def, Option.some.injEq] at ho
          have e := foldl_append_extends (fun (sp : Nat × ResourceBindStats) =>
              (F.Abbrev sp.1 ++ " calls: " ++ argNat sp.2.calls
                ++ " non-null resource sets: " ++ argNat sp.2.sets
                ++ " null resource sets: " ++ argNat sp.2.nulls ++ "\n")) ps.enum
              (log ++ "\n*** Resource Bind Statistics ***\n\n") ""
          rw [String.append_empty] at e
          rw [e] at hr
          refine ⟨ps, t, (ps.enum.foldl (fun (log : String) (sp : Nat × ResourceBindStats) =>
            log ++ (F.Abbrev sp.1 ++ " calls: " ++ argNat sp.2.calls
              ++ " non-null resource sets: " ++ argNat sp.2.sets
              ++ " null resource sets: " ++ argNat sp.2.nulls ++ "\n")) ""),
          argNat t.sets ++ " null resource sets: " ++ argNat t.nulls ++ "\n"
            ++ "\nResource types across all stages:\n" ++ r ++ hist, rfl, h2, ?_⟩
          rw [← ho, hr]
          simp only [String.append_assoc]

/-- C25: for recorded statistics the summary and the detail sections agree on
the call counts. `AppendAPICallSummary` prints the four counters it
accumulates over the stages; the "Total calls" of the shader section is the
shader counter, and whenever the constant, sampler or resource section is
produced, the call count of its all-stages totals, printed after
"Total calls: ", is the constant, sampler or resource counter of the
summary. -/
theorem C25_call_counts_agree (F : Formatting) (log : String) (frameInfo : FrameDescription)
    (n : Nat) (hrec : frameInfo.stats.recorded = true) :
    AppendAPICallSummary F frameInfo n =
      "" ++ ("API calls: " ++ argNat n ++ "\n")
        ++ ("\tIndex/vertex bind calls: "
          ++ argNat (add32 (add32 frameInfo.stats.indices.calls frameInfo.stats.vertices.calls)
            frameInfo.stats.layouts.calls) ++ "\n")
        ++ ("\tConstant bind calls: " ++ argNat (numConstantSets F frameInfo.stats) ++ "\n")
        ++ ("\tSampler bind calls: " ++ argNat (numSamplerSets F frameInfo.stats) ++ "\n")
        ++ ("\tResource bind calls: " ++ argNat (numResourceSets F frameInfo.stats) ++ "\n")
        ++ ("\tShader set calls: " ++ argNat (numShaderSets F frameInfo.stats) ++ "\n")
        ++ ("\tBlend set calls: " ++ argNat frameInfo.stats.blends.calls ++ "\n")
        ++ ("\tDepth/stencil set calls: " ++ argNat frameInfo.stats.depths.calls ++ "\n")
        ++ ("\tRasterization set calls: " ++ argNat frameInfo.stats.rasters.calls ++ "\n")
        ++ ("\tResource update calls: " ++ argNat frameInfo.stats.updates.calls ++ "\n")
        ++ ("\tOutput set calls: " ++ argNat frameInfo.stats.outputs.calls ++ "\n") ∧
    ((totalShadersPerStage F frameInfo.stats).calls = numShaderSets F frameInfo.stats ∧
      ∃ lines rest, AppendShaderStatistics F log frameInfo =
        some (log ++ "\n*** Shader Set Statistics ***\n\n" ++ lines
          ++ "Total calls: " ++ argNat (numShaderSets F frameInfo.stats)
          ++ ", non-null shader sets: " ++ rest)) ∧
    (∀ out, AppendConstantBindStatistics F log frameInfo = some out →
      ∃ ps t lines rest, totalConstantsPerStage F frameInfo.stats = some ps ∧
        totalConstantsForAllStages ps = some t ∧
        t.calls = numConstantSets F frameInfo.stats ∧
        out = log ++ "\n*** Constant Bind Statistics ***\n\n" ++ lines
          ++ "Total calls: " ++ argNat (numConstantSets F frameInfo.stats)
          ++ ", non-null buffer sets: " ++ rest) ∧
    (∀ out, AppendSamplerBindStatistics F log frameInfo = some out →
      ∃ ps t lines rest, totalSamplersPerStage F frameInfo.stats = some ps ∧
        totalSamplersForAllStages ps = some t ∧
        t.calls = numSamplerSets F frameInfo.stats ∧
        out = log ++ "\n*** Sampler Bind Statistics ***\n\n" ++ lines
          ++ "Total calls: " ++ argNat (numSamplerSets F frameInfo.stats)
          ++ ", non-null sampler sets: " ++ rest) ∧
    (∀ out, AppendResourceBindStatistics F log frameInfo = some out →
      ∃ ps t lines rest, totalResourcesPerStage F frameInfo.stats = some ps ∧
        totalResourcesForAllStages ps = some t ∧
        t.calls = numResourceSets F frameInfo.stats ∧
        out = log ++ "\n*** Resource Bind Statistics ***\n\n" ++ lines
          ++ "Total calls: " ++ argNat (numResourceSets F frameInfo.stats)
          ++ " non-null resource sets: " ++ rest) := by
  refine ⟨AppendAPICallSummary_counts F frameInfo n hrec,
    ⟨numShaderSets_eq F frameInfo.stats, ?_⟩, ?_, ?_, ?_⟩
  · obtain ⟨lines, hl⟩ := AppendShaderStatistics_total F log frameInfo
    refine ⟨lines, argNat (totalShadersPerStage F frameInfo.stats).sets
      ++ ", null shader sets: " ++ argNat (totalShadersPerStage F frameInfo.stats).nulls
      ++ ", reundant shader sets: "
      ++ argNat (totalShadersPerStage F frameInfo.stats).redundants ++ "\n", ?_⟩
    rw [hl, numShaderSets_eq]
    simp only [String.append_assoc]
  · intro out ho
    obtain ⟨ps, t, lines, rest, h1, h2, h3⟩ :=
      AppendConstantBindStatistics_total F log out frameInfo ho
    have hc := numConstantSets_eq F frameInfo.stats ps t h1 h2
    exact ⟨ps, t, lines, rest, h1, h2, hc, by rw [h3, hc]⟩
  · intro out ho
    obtain ⟨ps, t, lines, rest, h1, h2, h3⟩ :=
      AppendSamplerBindStatistics_total F log out frameInfo ho
    have hc := numSamplerSets_eq F frameInfo.stats ps t h1 h2
    exact ⟨ps, t, lines, rest, h1, h2, hc, by rw [h3, hc]⟩
  · intro out ho
    obtain ⟨ps, t, lines, rest, h1, h2, h3⟩ :=
      AppendResourceBindStatistics_total F log out frameInfo ho
    have hc := numResourceSets_eq F frameInfo.stats ps t h1 h2
    exact ⟨ps, t, lines, rest, h1, h2, hc, by rw [h3, hc]⟩

/-- Witness of C25: with shader call counts `2 ^ 32 - 1` and 1 the summary
counter and the total of the shader section are both 0; with sampler call
counts 3 and 4 the sampler section is produced and its total is the
counter 7 of the summary. -/
theorem C25_call_counts_agree_witness :
    ((totalShadersPerStage (exampleFormatting 2) overflowFrame.stats).calls =
        numShaderSets (exampleFormatting 2) overflowFrame.stats ∧
      numShaderSets (exampleFormatting 2) overflowFrame.stats = 0) ∧
    numSamplerSets (exampleFormatting 2) samplerCallsFrame.stats = 7 ∧
    ∃ out ps t lines rest,
      AppendSamplerBindStatistics (exampleFormatting 2) "" samplerCallsFrame = some out ∧
      totalSamplersPerStage (exampleFormatting 2) samplerCallsFrame.stats = some ps ∧
      totalSamplersForAllStages ps = some t ∧
      t.calls = numSamplerSets (exampleFormatting 2) samplerCallsFrame.stats ∧
      out = "" ++ "\n*** Sampler Bind Statistics ***\n\n" ++ lines
        ++ "Total calls: " ++ argNat (numSamplerSets (exampleFormatting 2) samplerCallsFrame.stats)
        ++ ", non-null sampler sets: " ++ rest := by
  refine ⟨⟨(C25_call_counts_agree (exampleFormatting 2) "" overflowFrame 0 rfl).2.1.1,
    by decide⟩, by decide, ?_⟩
  obtain ⟨out, ho⟩ := AppendSamplerBindStatistics_some (exampleFormatting 2) ""
    samplerCallsFrame (by decide) (fun _ _ => Nat.le_refl _) (by decide)
  obtain ⟨ps, t, lines, rest, h⟩ :=
    (C25_call_counts_agree (exampleFormatting 2) "" samplerCallsFrame 0 rfl).2.2.2.1 out ho
  exact ⟨out, ps, t, lines, rest, ho, h⟩

/-! ## Claims on the detail sections of the report -/

theorem exists_rest_of_assoc {log heading out x : String} (h : out = log ++ (heading ++ x)) :
    ∃ rest, out = log ++ heading ++ rest := ⟨x, by rw [h, String.append_assoc]⟩

theorem AppendDrawStatistics_starts :
    StartsSection AppendDrawStatistics "\n*** Draw Statistics ***\n\n" := by
  intro log out frameInfo h
  rw [AppendDrawStatistics_appends log frameInfo] at h
  cases hs : AppendDrawStatistics "" frameInfo with
  | none => rw [hs] at h; cases h
  | some sec =>
    rw [hs] at h
    simp only [Option.map_some', Option.some.injEq] at h
    obtain ⟨rest, hr⟩ := AppendDrawStatistics_heading frameInfo sec hs
    exact ⟨rest, by rw [← h, hr, String.append_assoc]⟩

theorem AppendDispatchStatistics_starts :
    StartsSection AppendDispatchStatistics "\n*** Dispatch Statistics ***\n\n" := by
  intro log out frameInfo h
  unfold AppendDispatchStatistics at h
  simp only [Option.some.injEq] at h
  exact ⟨_, h.symm⟩

theorem AppendBlendStatistics_starts :
    StartsSection AppendBlendStatistics "\n*** Blend Statistics ***\n" := by
  intro log out frameInfo h
  unfold AppendBlendStatistics at h
  simp only [Option.some.injEq] at h
  exact ⟨_, h.symm⟩

theorem AppendDepthStencilStatistics_starts :
    StartsSection AppendDepthStencilStatistics "\n*** Depth Stencil Statistics ***\n" := by
  intro log out frameInfo h
  unfold AppendDepthStencilStatistics at h
  simp only [Option.some.injEq] at h
  exact ⟨_, h.symm⟩

theorem AppendInputAssemblerStatistics_starts :
    StartsSection AppendInputAssemblerStatistics "\n*** Input Assembler Statistics ***\n\n" := by
  intro log out frameInfo h
  rw [AppendInputAssemblerStatistics_eq] at h
  cases hh : CreateSimpleIntegerHistogram "Aggregate vertex slot counts per invocation"
      frameInfo.stats.vertices.bindslots with
  | none => rw [hh] at h; cases h
  | some hist =>
    rw [hh] at h
    simp only [Option.map_some', Option.some.injEq] at h
    apply exists_rest_of_assoc
    rw [← h]
    unfold inputAssemblerHeading
    simp only [String.append_assoc]
    rfl

theorem AppendOutputStatistics_starts :
    StartsSection AppendOutputStatistics "\n*** Output Statistics ***\n" := by
  intro log out frameInfo h
  rw [AppendOutputStatistics_eq] at h
  cases hh : CreateSimpleIntegerHistogram "Outputs set" frameInfo.stats.outputs.bindslots with
  | none => rw [hh] at h; cases h
  | some hist =>
    rw [hh] at h
    simp only [Option.map_some', Option.some.injEq] at h
    apply exists_rest_of_assoc
    rw [← h]
    unfold outputHeading
    simp only [String.append_assoc]
    rfl

theorem AppendRasterizationStatistics_starts :
    StartsSection AppendRasterizationStatistics "\n*** Rasterization Statistics ***\n" := by
  intro log out frameInfo h
  rw [AppendRasterizationStatistics_eq] at h
  cases hv : CreateSimpleIntegerHistogram "Viewports set" frameInfo.stats.rasters.viewports with
  | none => rw [hv] at h; cases h
  | some v =>
    rw [hv] at h
    simp only [Option.some_bind] at h
    cases hr : CreateSimpleIntegerHistogram "Scissors set" frameInfo.stats.rasters.rects with
    | none => rw [hr] at h; cases h
    | some r =>
      rw [hr] at h
      simp only [Option.map_some', Option.some.injEq] at h
      apply exists_rest_of_assoc
      rw [← h]
      unfold rasterizationHeading
      simp only [String.append_assoc]
      rfl

theorem AppendShaderStatistics_starts (F : Formatting) :
    StartsSection (AppendShaderStatistics F) "\n*** Shader Set Statistics ***\n\n" := by
  intro log out frameInfo h
  obtain ⟨lines, hl⟩ := AppendShaderStatistics_total F log frameInfo
  rw [hl] at h
  simp only [Option.some.injEq] at h
  apply exists_rest_of_assoc
  rw [← h]
  simp only [String.append_assoc]
  rfl

theorem AppendConstantBindStatistics_starts (F : Formatting) :
    StartsSection (AppendConstantBindStatistics F) "\n*** Constant Bind Statistics ***\n\n" := by
  intro log out frameInfo h
  obtain ⟨ps, t, lines, rest, _, _, ho⟩ := AppendConstantBindStatistics_total F log out frameInfo h
  apply exists_rest_of_assoc
  rw [ho]
  simp only [String.append_assoc]
  rfl

theorem AppendSamplerBindStatistics_starts (F : Formatting) :
    StartsSection (AppendSamplerBindStatistics F) "\n*** Sampler Bind Statistics ***\n\n" := by
  intro log out frameInfo h
  obtain ⟨ps, t, lines, rest, _, _, ho⟩ := AppendSamplerBindStatistics_total F log out frameInfo h
  apply exists_rest_of_assoc
  rw [ho]
  simp only [String.append_assoc]
  rfl

theorem AppendResourceBindStatistics_starts (F : Formatting) :
    StartsSection (AppendResourceBindStatistics F) "\n*** Resource Bind Statistics ***\n\n" := by
  intro log out frameInfo h
  obtain ⟨ps, t, lines, rest, _, _, ho⟩ := AppendResourceBindStatistics_total F log out frameInfo h
  apply exists_rest_of_assoc
  rw [ho]
  simp only [String.append_assoc]
  rfl

theorem AppendUpdateStatistics_starts (F : Formatting) :
    StartsSection (AppendUpdateStatistics F) "\n*** Resource Update Statistics ***\n\n" := by
  intro log out frameInfo h
  unfold AppendUpdateStatistics at h
  dsimp only at h
  cases ht : addBuckets (createArray frameInfo.stats.updates.types.length)
      frameInfo.stats.updates.types with
  | none => rw [ht] at h; cases h
  | some types =>
    rw [ht] at h
    simp only [Option.some_bind, Option.bind_eq_bind] at h
    cases hz : addBuckets (createArray frameInfo.stats.updates.sizes.length)
        frameInfo.stats.updates.sizes with
    | none => rw [hz] at h; cases h
    | some sizes =>
      rw [hz] at h
      simp only [Option.some_bind] at h
      cases ha : appendHistogram (log ++ "\n*** Resource Update Statistics ***\n\n"
          ++ ("Total calls: " ++ argNat (add32 0 frameInfo.stats.updates.calls)
            ++ ", client-updated memory: " ++ argNat (add32 0 frameInfo.stats.updates.clients)
            ++ ", server-updated memory: " ++ argNat (add32 0 frameInfo.stats.updates.servers)
            ++ "\n")
          ++ "\nUpdated resource types:\n") types 1
          (fun s => some (argWidth (F.ToQStr s) 20)) with
      | none => rw [ha] at h; cases h
      | some l =>
        rw [ha] at h
        simp only [Option.some_bind] at h
        obtain ⟨r1, hr1⟩ := appendHistogram_some _ _ _ _ _ ha
        obtain ⟨r2, hr2⟩ := appendHistogram_some _ _ _ _ _ h
        apply exists_rest_of_assoc
        rw [hr2, hr1]
        simp only [String.append_assoc]
        rfl

/-- A chain of builders that start their sections with the given headings
returns the log followed by one text per builder, each starting with the
heading of its builder. -/
theorem runBuilders_headed (bs : List (String → FrameDescription → Option String))
    (hs : List String) (h : List.Forall₂ StartsSection bs hs) (frameInfo : FrameDescription)
    (log out : String) (ho : runBuilders bs frameInfo log = some out) :
    ∃ rests : List String, rests.length = hs.length ∧
      out = log ++ String.join (List.zipWith (fun heading rest => heading ++ rest) hs rests) := by
  induction h generalizing log with
  | nil =>
    refine ⟨[], rfl, ?_⟩
    have : runBuilders [] frameInfo log = some log := rfl
    rw [this] at ho
    simp only [Option.some.injEq] at ho
    rw [← ho, List.zipWith_nil_right, join_nil, String.append_empty]
  | cons hb _ ih =>
    rw [runBuilders_cons] at ho
    rename_i b heading bs hs _
    cases h1 : b log frameInfo with
    | none => rw [h1] at ho; cases ho
    | some o1 =>
      rw [h1] at ho
      simp only [Option.some_bind] at ho
      obtain ⟨r, hr⟩ := hb log o1 frameInfo h1
      obtain ⟨rests, hl, hout⟩ := ih o1 ho
      refine ⟨r :: rests, by simp [hl], ?_⟩
      rw [hout, hr, List.zipWith_cons_cons, join_cons]
      simp only [String.append_assoc]

theorem sectionBuilders_headed (F : Formatting) :
    List.Forall₂ StartsSection (sectionBuilders F) sectionHeadings := by
  unfold sectionBuilders sectionHeadings
  exact List.Forall₂.cons AppendDrawStatistics_starts
    (List.Forall₂.cons AppendDispatchStatistics_starts
    (List.Forall₂.cons AppendInputAssemblerStatistics_starts
    (List.Forall₂.cons (AppendShaderStatistics_starts F)
    (List.Forall₂.cons (AppendConstantBindStatistics_starts F)
    (List.Forall₂.cons (AppendSamplerBindStatistics_starts F)
    (List.Forall₂.cons (AppendResourceBindStatistics_starts F)
    (List.Forall₂.cons AppendBlendStatistics_starts
    (List.Forall₂.cons AppendDepthStencilStatistics_starts
    (List.Forall₂.cons AppendRasterizationStatistics_starts
    (List.Forall₂.cons (AppendUpdateStatistics_starts F)
    (List.Forall₂.cons AppendOutputStatistics_starts List.Forall₂.nil)))))))))))

/-- A text made of an asterisk-free part, the summary heading and another
asterisk-free part does not contain a title that starts with an asterisk,
holds six asterisks and begins differently from the summary title. -/
theorem no_section_title (P A B : String) (hA : starFree A) (hB : starFree B)
    (hcP : List.count '*' P.data = 6) (hstar : ∃ r, P.data = '*' :: r)
    (hlen : 6 ≤ P.data.length) (hne : P.data.take 6 ≠ "*** Su".data) :
    ¬ List.IsInfix P.data (A ++ "\n*** Summary ***\n\n" ++ B).data := by
  rintro ⟨s, t, hst⟩
  obtain ⟨r, hr⟩ := hstar
  rw [String.data_append, String.data_append] at hst
  have hcount := congrArg (List.count '*') hst
  simp only [List.count_append] at hcount
  have hcA : List.count '*' A.data = 0 := List.count_eq_zero.mpr hA
  have hcB : List.count '*' B.data = 0 := List.count_eq_zero.mpr hB
  have hcM : List.count '*' "\n*** Summary ***\n\n".data = 6 := by decide
  rw [hcA, hcB, hcP, hcM] at hcount
  have hcs : List.count '*' s = 0 := by omega
  have hs : ∀ c ∈ s, (fun c : Char => decide (c ≠ '*')) c = true := by
    intro c hc
    have : '*' ∉ s := List.count_eq_zero.mp hcs
    simp only [decide_eq_true_eq]
    intro h; rw [h] at hc; exact this hc
  have hA' : ∀ c ∈ A.data ++ ['\n'], (fun c : Char => decide (c ≠ '*')) c = true := by
    intro c hc
    simp only [decide_eq_true_eq]
    rcases List.mem_append.mp hc with h | h
    · intro hcs'; rw [hcs'] at h; exact hA h
    · simp only [List.mem_singleton] at h; rw [h]; decide
  have e1 : (s ++ P.data ++ t).takeWhile (fun c : Char => decide (c ≠ '*')) = s := by
    have : s ++ P.data ++ t = s ++ '*' :: (r ++ t) := by
      rw [List.append_assoc, hr]; rfl
    rw [this]
    exact takeWhile_append_of_all _ s _ '*' hs (by decide)
  have e2 : (A.data ++ "\n*** Summary ***\n\n".data ++ B.data).takeWhile
      (fun c : Char => decide (c ≠ '*')) = A.data ++ ['\n'] := by
    have : A.data ++ "\n*** Summary ***\n\n".data ++ B.data =
        (A.data ++ ['\n']) ++ '*' :: ("** Summary ***\n\n".data ++ B.data) := by
      rw [List.append_assoc, List.append_assoc]; rfl
    rw [this]
    exact takeWhile_append_of_all _ _ _ '*' hA' (by decide)
  have hsA : s = A.data ++ ['\n'] := by rw [← e1, hst, e2]
  rw [hsA] at hst
  have h3 : A.data ++ ['\n'] ++ P.data ++ t = A.data ++ ('\n' :: (P.data ++ t)) := by
    rw [List.append_assoc, List.append_assoc]; rfl
  have h4 : A.data ++ "\n*** Summary ***\n\n".data ++ B.data =
      A.data ++ ('\n' :: ("*** Summary ***\n\n".data ++ B.data)) := by
    rw [List.append_assoc]; rfl
  rw [h3, h4] at hst
  have h5 := (List.cons.inj (List.append_cancel_left hst)).2
  have h6 := congrArg (List.take 6) h5
  rw [List.take_append_of_le_length hlen] at h6
  exact hne h6

theorem infix_join_of_mem (x : String) (l : List String) (h : x ∈ l) :
    List.IsInfix x.data (String.join l).data := by
  induction l with
  | nil => cases h
  | cons a l ih =>
    rw [join_cons, String.data_append]
    rcases List.mem_cons.mp h with h1 | h1
    · rw [h1]
      exact ⟨[], (String.join l).data, by simp⟩
    · obtain ⟨s, t, hst⟩ := ih h1
      exact ⟨a.data ++ s, t, by rw [← hst]; simp [List.append_assoc]⟩

/-- Every heading occurs in the text of the sections. -/
theorem heading_in_sections (hs rests : List String) (hl : rests.length = hs.length)
    (heading : String) (hh : heading ∈ hs) :
    List.IsInfix heading.data
      (String.join (List.zipWith (fun heading rest => heading ++ rest) hs rests)).data := by
  induction hs generalizing rests with
  | nil => cases hh
  | cons a hs ih =>
    cases rests with
    | nil => simp at hl
    | cons r rests =>
      rw [List.zipWith_cons_cons, join_cons, String.data_append, String.data_append]
      rcases List.mem_cons.mp hh with h1 | h1
      · rw [h1]
        exact ⟨[], r.data ++ (String.join (List.zipWith (fun heading rest => heading ++ rest)
          hs rests)).data, by simp [List.append_assoc]⟩
      · obtain ⟨s, t, hst⟩ := ih rests (by simpa using hl) h1
        exact ⟨a.data ++ r.data ++ s, t, by rw [← hst]; simp [List.append_assoc]⟩

set_option maxRecDepth 100000 in
theorem title_in_heading :
    ∀ title ∈ sectionTitles, ∃ heading ∈ sectionHeadings,
      ∃ tail : List Char, heading.data = '\n' :: (title.data ++ tail) := by
  intro title ht
  simp only [sectionTitles, List.mem_cons, List.mem_singleton, List.not_mem_nil, or_false] at ht
  rcases ht with h | h | h | h | h | h | h | h | h | h | h | h <;> subst h
  · exact ⟨"\n*** Draw Statistics ***\n\n", by simp [sectionHeadings], ['\n', '\n'], rfl⟩
  · exact ⟨"\n*** Dispatch Statistics ***\n\n", by simp [sectionHeadings], ['\n', '\n'], rfl⟩
  · exact ⟨"\n*** Input Assembler Statistics ***\n\n", by simp [sectionHeadings],
      ['\n', '\n'], rfl⟩
  · exact ⟨"\n*** Shader Set Statistics ***\n\n", by simp [sectionHeadings], ['\n', '\n'], rfl⟩
  · exact ⟨"\n*** Constant Bind Statistics ***\n\n", by simp [sectionHeadings],
      ['\n', '\n'], rfl⟩
  · exact ⟨"\n*** Sampler Bind Statistics ***\n\n", by simp [sectionHeadings],
      ['\n', '\n'], rfl⟩
  · exact ⟨"\n*** Resource Bind Statistics ***\n\n", by simp [sectionHeadings],
      ['\n', '\n'], rfl⟩
  · exact ⟨"\n*** Blend Statistics ***\n", by simp [sectionHeadings], ['\n'], rfl⟩
  · exact ⟨"\n*** Depth Stencil Statistics ***\n", by simp [sectionHeadings], ['\n'], rfl⟩
  · exact ⟨"\n*** Rasterization Statistics ***\n", by simp [sectionHeadings], ['\n'], rfl⟩
  · exact ⟨"\n*** Resource Update Statistics ***\n\n", by simp [sectionHeadings],
      ['\n', '\n'], rfl⟩
  · exact ⟨"\n*** Output Statistics ***\n", by simp [sectionHeadings], ['\n'], rfl⟩

set_option maxRecDepth 100000 in
theorem sectionTitles_shape :
    ∀ title ∈ sectionTitles, List.count '*' title.data = 6 ∧ (∃ r, title.data = '*' :: r) ∧
      6 ≤ title.data.length ∧ title.data.take 6 ≠ "*** Su".data := by
  intro title ht
  simp only [sectionTitles, List.mem_cons, List.mem_singleton, List.not_mem_nil, or_false] at ht
  rcases ht with h | h | h | h | h | h | h | h | h | h | h | h <;> subst h <;>
    exact ⟨by decide, ⟨_, rfl⟩, by decide, by decide⟩

set_option maxRecDepth 100000 in
/-- C8, as the claim states it, fails: for a capture without recorded
statistics whose file is named `*** Draw Statistics ***.rdc`, the report is
the header and the summary alone, and it does contain the text
`*** Draw Statistics ***`, in its first line. -/
theorem C8_counterexample :
    headingNamedCapture.FrameInfo.stats.recorded = false ∧
    GenerateReport (exampleFormatting 1) headingNamedCapture =
      some ("Stats for " ++ "*** Draw Statistics ***"
        ++ (".rdc.\n\nFile size: 0.00MB (0.00MB uncompressed, "
        ++ "compression ratio 0.00:1)\nPersistent Data (approx): 0.00MB, "
        ++ "Frame-initial data (approx): 0.00MB\n\n*** Summary ***\n\n"
        ++ "Draw calls: 1\nDispatch calls: 0\nAPI:Draw/Dispatch call ratio: 0\n\n"
        ++ "0 Textures - 0.00 MB (0.00 MB over 32x32), 0 RTs - 0.00 MB.\n"
        ++ "Avg. tex dimension: 0x0 (0x0 over 32x32)\n"
        ++ "0 Buffers - 0.00 MB total 0.00 MB IBs 0.00 MB VBs.\n"
        ++ "0.00 MB - Grand total GPU buffer + texture load.\n")) ∧
    ∀ report, GenerateReport (exampleFormatting 1) headingNamedCapture = some report →
      List.IsInfix "*** Draw Statistics ***".data report.data := by
  have hrep : GenerateReport (exampleFormatting 1) headingNamedCapture =
      some ("Stats for " ++ "*** Draw Statistics ***"
        ++ (".rdc.\n\nFile size: 0.00MB (0.00MB uncompressed, "
        ++ "compression ratio 0.00:1)\nPersistent Data (approx): 0.00MB, "
        ++ "Frame-initial data (approx): 0.00MB\n\n*** Summary ***\n\n"
        ++ "Draw calls: 1\nDispatch calls: 0\nAPI:Draw/Dispatch call ratio: 0\n\n"
        ++ "0 Textures - 0.00 MB (0.00 MB over 32x32), 0 RTs - 0.00 MB.\n"
        ++ "Avg. tex dimension: 0x0 (0x0 over 32x32)\n"
        ++ "0 Buffers - 0.00 MB total 0.00 MB IBs 0.00 MB VBs.\n"
        ++ "0.00 MB - Grand total GPU buffer + texture load.\n")) := by decide
  refine ⟨rfl, hrep, ?_⟩
  intro report h
  rw [hrep] at h
  simp only [Option.some.injEq] at h
  rw [← h, String.data_append, String.data_append]
  exact ⟨_, _, rfl⟩

/-- C8, amended: the detail sections are appended if and only if statistics
were recorded. When `stats.recorded` is false, `AppendDetailedInformation`
leaves the log unchanged and a report of `GenerateReport` is the header, the
summary heading and the summary strings alone; it contains the summary title
and, provided the header (which holds the file name) and the formatted
numbers hold no asterisk, none of the twelve section titles. When
`stats.recorded` is true, `AppendDetailedInformation` runs the twelve section
builders in order and whatever it returns is the log followed by twelve
texts, each starting with the heading of its section, in the order draw,
dispatch, input assembler, shader, constant, sampler, resource, blend, depth
stencil, rasterization, resource update, output; a report that is produced is
the summary followed by these twelve texts and contains the summary title and
all twelve section titles. -/
theorem C8_details_iff_recorded (F : Formatting) (ctx : ICaptureContext) :
    (ctx.FrameInfo.stats.recorded = false →
      (∀ log, AppendDetailedInformation F log ctx.FrameInfo = some log) ∧
      GenerateReport F ctx =
        ctx.CurDrawcalls.getLast?.map (fun back => summaryLog F ctx (lastLeaf back)) ∧
      ∀ report, GenerateReport F ctx = some report →
        (∃ back, ctx.CurDrawcalls.getLast? = some back ∧
          report = reportHeader F ctx ++ "\n*** Summary ***\n\n"
            ++ String.join (summaryParts F ctx (lastLeaf back))) ∧
        List.IsInfix "*** Summary ***".data report.data ∧
        (starFree (reportHeader F ctx) → (∀ x, starFree (F.argFixed x)) →
          (∀ x, starFree (F.argFloat x)) →
          ∀ title ∈ sectionTitles, ¬ List.IsInfix title.data report.data)) ∧
    (ctx.FrameInfo.stats.recorded = true →
      (∀ log, AppendDetailedInformation F log ctx.FrameInfo =
        runBuilders (sectionBuilders F) ctx.FrameInfo log) ∧
      (∀ log out, AppendDetailedInformation F log ctx.FrameInfo = some out →
        ∃ rests : List String, rests.length = 12 ∧
          out = log ++ String.join
            (List.zipWith (fun heading rest => heading ++ rest) sectionHeadings rests)) ∧
      ∀ report, GenerateReport F ctx = some report →
        ∃ back, ∃ rests : List String, ctx.CurDrawcalls.getLast? = some back ∧
          rests.length = 12 ∧
          report = summaryLog F ctx (lastLeaf back) ++ String.join
            (List.zipWith (fun heading rest => heading ++ rest) sectionHeadings rests) ∧
          List.IsInfix "*** Summary ***".data report.data ∧
          ∀ title ∈ sectionTitles, List.IsInfix title.data report.data) := by
  constructor
  · intro hr
    have hgen : GenerateReport F ctx =
        ctx.CurDrawcalls.getLast?.map (fun back => summaryLog F ctx (lastLeaf back)) := by
      unfold GenerateReport
      cases ctx.CurDrawcalls.getLast? with
      | none => rfl
      | some back =>
        simp only [Option.some_bind, Option.bind_eq_bind, Option.map_some']
        exact AppendDetailedInformation_not_recorded F _ _ hr
    refine ⟨fun log => AppendDetailedInformation_not_recorded F log _ hr, hgen, ?_⟩
    intro report hrep
    rw [hgen] at hrep
    cases hb : ctx.CurDrawcalls.getLast? with
    | none => rw [hb] at hrep; cases hrep
    | some back =>
      rw [hb] at hrep
      simp only [Option.map_some', Option.some.injEq] at hrep
      rw [summaryLog_eq] at hrep
      refine ⟨⟨back, rfl, hrep.symm⟩, ?_, ?_⟩
      · rw [← hrep]
        exact summary_heading_contained _ _
      · intro h1 h2 h3 title ht
        obtain ⟨c1, c2, c3, c4⟩ := sectionTitles_shape title ht
        rw [← hrep]
        exact no_section_title title _ _ h1
          (starFree_join _ (summaryParts_starFree F ctx _ hr h2 h3)) c1 c2 c3 c4
  · intro hr
    have hsec : ∀ log out, AppendDetailedInformation F log ctx.FrameInfo = some out →
        ∃ rests : List String, rests.length = 12 ∧
          out = log ++ String.join
            (List.zipWith (fun heading rest => heading ++ rest) sectionHeadings rests) := by
      intro log out ho
      rw [AppendDetailedInformation_recorded F log _ hr] at ho
      exact runBuilders_headed _ _ (sectionBuilders_headed F) _ _ _ ho
    refine ⟨fun log => AppendDetailedInformation_recorded F log _ hr, hsec, ?_⟩
    intro report hrep
    unfold GenerateReport at hrep
    cases hb : ctx.CurDrawcalls.getLast? with
    | none => rw [hb] at hrep; cases hrep
    | some back =>
      rw [hb] at hrep
      simp only [Option.some_bind, Option.bind_eq_bind] at hrep
      obtain ⟨rests, hl, hout⟩ := hsec _ _ hrep
      refine ⟨back, rests, rfl, hl, hout, ?_, ?_⟩
      · rw [hout, summaryLog_eq, String.append_assoc]
        exact summary_heading_contained _ _
      · intro title ht
        obtain ⟨heading, hh, tail, htail⟩ := title_in_heading title ht
        obtain ⟨s, t, hst⟩ := heading_in_sections sectionHeadings rests hl heading hh
        rw [hout, String.data_append, ← hst, htail]
        exact ⟨(summaryLog F ctx (lastLeaf back)).data ++ s ++ ['\n'], tail ++ t,
          by simp [List.append_assoc]⟩

set_option maxRecDepth 100000 in
/-- Witness of the amended C8: a capture without recorded statistics, whose
report has the summary title and none of the section titles, and a capture
with recorded statistics, whose report is the summary followed by the twelve
sections and has all twelve section titles. -/
theorem C8_details_iff_recorded_witness :
    (∃ report, GenerateReport (exampleFormatting 1) (exampleContext notRecorded) = some report ∧
      List.IsInfix "*** Summary ***".data report.data ∧
      ∀ title ∈ sectionTitles, ¬ List.IsInfix title.data report.data) ∧
    (∃ report back, ∃ rests : List String,
      GenerateReport (exampleFormatting 1) (exampleContext oneBucketStatistics) = some report ∧
      (exampleContext oneBucketStatistics).CurDrawcalls.getLast? = some back ∧
      rests.length = 12 ∧
      report = summaryLog (exampleFormatting 1) (exampleContext oneBucketStatistics)
        (lastLeaf back) ++ String.join
          (List.zipWith (fun heading rest => heading ++ rest) sectionHeadings rests) ∧
      ∀ title ∈ sectionTitles, List.IsInfix title.data report.data) := by
  constructor
  · have h := (C8_details_iff_recorded (exampleFormatting 1) (exampleContext notRecorded)).1 rfl
    have hrep : GenerateReport (exampleFormatting 1) (exampleContext notRecorded) =
        some (summaryLog (exampleFormatting 1) (exampleContext notRecorded)
          (lastLeaf (.mk 1 { NoFlags with Drawcall := true } []))) := by
      rw [h.2.1]; rfl
    obtain ⟨_, h1, h2⟩ := h.2.2 _ hrep
    have hhead : starFree (reportHeader (exampleFormatting 1) (exampleContext notRecorded)) := by
      unfold starFree; decide
    have hfix : starFree "0.00" := by unfold starFree; decide
    have hflt : starFree "0" := by unfold starFree; decide
    exact ⟨_, hrep, h1, h2 hhead (fun _ => hfix) (fun _ => hflt)⟩
  · have h := (C8_details_iff_recorded (exampleFormatting 1)
      (exampleContext oneBucketStatistics)).2 rfl
    have hsome : (GenerateReport (exampleFormatting 1)
        (exampleContext oneBucketStatistics)).isSome = true := by decide
    obtain ⟨report, hrep⟩ := Option.isSome_iff_exists.mp hsome
    obtain ⟨back, rests, h1, h2, h3, _, h5⟩ := h.2.2 report hrep
    exact ⟨report, back, rests, hrep, h1, h2, h3, h5⟩

/-! ## Claims on stage arrays of different lengths -/

/-- The counters of the constant totals, when the totals are computed: the
sums over the stages modulo `2 ^ 32`. -/
theorem constantTotals_counters (F : Formatting) (stats : FrameStatistics)
    (ps : List ConstantBindStats) (t : ConstantBindStats)
    (h1 : totalConstantsPerStage F stats = some ps)
    (h2 : totalConstantsForAllStages ps = some t) :
    t.calls = stageSum F (fun s => (stats.constants s).calls) % 2 ^ 32 ∧
    t.sets = stageSum F (fun s => (stats.constants s).sets) % 2 ^ 32 ∧
    t.nulls = stageSum F (fun s => (stats.constants s).nulls) % 2 ^ 32 := by
  have hN : 0 < F.stageCount := by
    by_contra hc
    have h0 : F.stageCount = 0 := by omega
    unfold totalConstantsPerStage at h1
    rw [h0] at h1
    have : ps = [] := by
      have h3 : some ([] : List ConstantBindStats) = some ps := h1
      cases h3
      rfl
    rw [this] at h2
    cases h2
  have hlen : ∀ s, s < F.stageCount →
      (stats.constants s).bindslots.length ≤ (stats.constants 0).bindslots.length ∧
      (stats.constants s).sizes.length ≤ (stats.constants 0).sizes.length := by
    intro s hs
    by_contra hc
    have hex : ∃ s, s < F.stageCount ∧
        ((stats.constants 0).bindslots.length < (stats.constants s).bindslots.length ∨
         (stats.constants 0).sizes.length < (stats.constants s).sizes.length) :=
      ⟨s, hs, by omega⟩
    rw [totalConstantsPerStage_none F stats hex] at h1
    cases h1
  obtain ⟨t2, e1, e2, e3, e4, e5, _⟩ := constantTotals_spec F stats hN hlen
  rw [e1] at h1
  cases h1
  rw [e2] at h2
  cases h2
  exact ⟨e3, e4, e5⟩

/-- The counters of the sampler totals, when the totals are computed: the
sums over the stages modulo `2 ^ 32`. -/
theorem samplerTotals_counters (F : Formatting) (stats : FrameStatistics)
    (ps : List SlotBindStats) (t : SlotBindStats)
    (h1 : totalSamplersPerStage F stats = some ps)
    (h2 : totalSamplersForAllStages ps = some t) :
    t.calls = stageSum F (fun s => (stats.samplers s).calls) % 2 ^ 32 ∧
    t.sets = stageSum F (fun s => (stats.samplers s).sets) % 2 ^ 32 ∧
    t.nulls = stageSum F (fun s => (stats.samplers s).nulls) % 2 ^ 32 := by
  have hN : 0 < F.stageCount := by
    by_contra hc
    have h0 : F.stageCount = 0 := by omega
    unfold totalSamplersPerStage at h1
    rw [h0] at h1
    have : ps = [] := by
      have h3 : some ([] : List SlotBindStats) = some ps := h1
      cases h3
      rfl
    rw [this] at h2
    cases h2
  have hlen : ∀ s, s < F.stageCount →
      (stats.samplers s).bindslots.length ≤ (stats.samplers 0).bindslots.length := by
    intro s hs
    by_contra hc
    have hex : ∃ s, s < F.stageCount ∧
        (stats.samplers 0).bindslots.length < (stats.samplers s).bindslots.length :=
      ⟨s, hs, by omega⟩
    rw [totalSamplersPerStage_none F stats hex] at h1
    cases h1
  obtain ⟨t2, e1, e2, e3, e4, e5, _⟩ := samplerTotals_spec F stats hN hlen
  rw [e1] at h1
  cases h1
  rw [e2] at h2
  cases h2
  exact ⟨e3, e4, e5⟩

/-- The counters of the resource totals, when the totals are computed: the
sums over the stages modulo `2 ^ 32`. -/
theorem resourceTotals_counters (F : Formatting) (stats : FrameStatistics)
    (ps : List ResourceBindStats) (t : ResourceBindStats)
    (h1 : totalResourcesPerStage F stats = some ps)
    (h2 : totalResourcesForAllStages ps = some t) :
    t.calls = stageSum F (fun s => (stats.resources s).calls) % 2 ^ 32 ∧
    t.sets = stageSum F (fun s => (stats.resources s).sets) % 2 ^ 32 ∧
    t.nulls = stageSum F (fun s => (stats.resources s).nulls) % 2 ^ 32 := by
  have hN : 0 < F.stageCount := by
    by_contra hc
    have h0 : F.stageCount = 0 := by omega
    unfold totalResourcesPerStage at h1
    rw [h0] at h1
    have : ps = [] := by
      have h3 : some ([] : List ResourceBindStats) = some ps := h1
      cases h3
      rfl
    rw [this] at h2
    cases h2
  have hlen : ∀ s, s < F.stageCount →
      (stats.resources s).types.length ≤ (stats.resources 0).types.length ∧
      (stats.resources s).bindslots.length ≤ (stats.resources 0).bindslots.length := by
    intro s hs
    by_contra hc
    have hex : ∃ s, s < F.stageCount ∧
        ((stats.resources 0).types.length < (stats.resources s).types.length ∨
         (stats.resources 0).bindslots.length < (stats.resources s).bindslots.length) :=
      ⟨s, hs, by omega⟩
    rw [totalResourcesPerStage_none F stats hex] at h1
    cases h1
  obtain ⟨t2, e1, e2, e3, e4, e5, _⟩ := resourceTotals_spec F stats hN hlen
  rw [e1] at h1
  cases h1
  rw [e2] at h2
  cases h2
  exact ⟨e3, e4, e5⟩

/-- The constant section, when it is produced: heading, stage lines, the
whole totals line, and the histograms. -/
theorem AppendConstantBindStatistics_totalLine (F : Formatting) (log out : String)
    (frameInfo : FrameDescription)
    (ho : AppendConstantBindStatistics F log frameInfo = some out) :
    ∃ ps t lines rest, totalConstantsPerStage F frameInfo.stats = some ps ∧
      totalConstantsForAllStages ps = some t ∧
      out = log ++ "\n*** Constant Bind Statistics ***\n\n" ++ lines
        ++ ("Total calls: " ++ argNat t.calls ++ ", non-null buffer sets: " ++ argNat t.sets
          ++ ", null buffer sets: " ++ argNat t.nulls ++ "\n") ++ rest := by
  cases h1 : totalConstantsPerStage F frameInfo.stats with
  | none => rw [AppendConstantBindStatistics_none F log frameInfo h1] at ho; cases ho
  | some ps =>
    unfold AppendConstantBindStatistics at ho
    rw [h1] at ho
    simp only [Option.some_bind, Option.bind_eq_bind] at ho
    cases h2 : totalConstantsForAllStages ps with
    | none => rw [h2] at ho; cases ho
    | some t =>
      rw [h2] at ho
      simp only [Option.some_bind] at ho
      cases hh : CreateSimpleIntegerHistogram
          "Aggregate slot counts per invocation across all stages" t.bindslots with
      | none => rw [hh] at ho; cases ho
      | some hist =>
        rw [hh] at ho
        simp only [Option.some_bind] at ho
        obtain ⟨r, hr⟩ := appendHistogram_some _ _ _ _ _ ho
        have e := foldl_append_extends (fun (sp : Nat × ConstantBindStats) =>
            (F.Abbrev sp.1 ++ " calls: " ++ argNat sp.2.calls
              ++ ", non-null buffer sets: " ++ argNat sp.2.sets
              ++ ", null buffer sets: " ++ argNat sp.2.nulls ++ "\n")) ps.enum
            (log ++ "\n*** Constant Bind Statistics ***\n\n") ""
        rw [String.append_empty] at e
        rw [e] at hr
        refine ⟨ps, t, (ps.enum.foldl (fun (log : String) (sp : Nat × ConstantBindStats) =>
            log ++ (F.Abbrev sp.1 ++ " calls: " ++ argNat sp.2.calls
              ++ ", non-null buffer sets: " ++ argNat sp.2.sets
              ++ ", null buffer sets: " ++ argNat sp.2.nulls ++ "\n")) ""),
          hist ++ "\nAggregate constant buffer sizes across all stages:\n" ++ r, rfl, h2, ?_⟩
        rw [hr]
        simp only [String.append_assoc]

/-- The sampler section, when it is produced: heading, stage lines, the
whole totals line, and the histogram. -/
theorem AppendSamplerBindStatistics_totalLine (F : Formatting) (log out : String)
    (frameInfo : FrameDescription)
    (ho : AppendSamplerBindStatistics F log frameInfo = some out) :
    ∃ ps t lines rest, totalSamplersPerStage F frameInfo.stats = some ps ∧
      totalSamplersForAllStages ps = some t ∧
      out = log ++ "\n*** Sampler Bind Statistics ***\n\n" ++ lines
        ++ ("Total calls: " ++ argNat t.calls ++ ", non-null sampler sets: " ++ argNat t.sets
          ++ ", null sampler sets: " ++ argNat t.nulls ++ "\n") ++ rest := by
  cases h1 : totalSamplersPerStage F frameInfo.stats with
  | none => rw [AppendSamplerBindStatistics_none F log frameInfo h1] at ho; cases ho
  | some ps =>
    unfold AppendSamplerBindStatistics at ho
    rw [h1] at ho
    simp only [Option.some_bind, Option.bind_eq_bind] at ho
    cases h2 : totalSamplersForAllStages ps with
    | none => rw [h2] at ho; cases ho
    | some t =>
      rw [h2] at ho
      simp only [Option.some_bind] at ho
      cases hh : CreateSimpleIntegerHistogram
          "Aggregate slot counts per invocation across all stages" t.bindslots with
      | none => rw [hh] at ho; cases ho
      | some hist =>
        rw [hh] at ho
        simp only [Option.some_bind, Option.pure_def, Option.some.injEq] at ho
        have e := foldl_append_extends (fun (sp : Nat × SlotBindStats) =>
            (F.Abbrev sp.1 ++ " calls: " ++ argNat sp.2.calls
              ++ ", non-null sampler sets: " ++ argNat sp.2.sets
              ++ ", null sampler sets: " ++ argNat sp.2.nulls ++ "\n")) ps.enum
            (log ++ "\n*** Sampler Bind Statistics ***\n\n") ""
        rw [String.append_empty] at e
        rw [e] at ho
        refine ⟨ps, t, (ps.enum.foldl (fun (log : String) (sp : Nat × SlotBindStats) =>
            log ++ (F.Abbrev sp.1 ++ " calls: " ++ argNat sp.2.calls
              ++ ", non-null sampler sets: " ++ argNat sp.2.sets
              ++ ", null sampler sets: " ++ argNat sp.2.nulls ++ "\n")) ""),
          hist, rfl, h2, ?_⟩
        rw [← ho]

/-- The resource section, when it is produced: heading, stage lines, the
whole totals line, and the histograms. -/
theorem AppendResourceBindStatistics_totalLine (F : Formatting) (log out : String)
    (frameInfo : FrameDescription)
    (ho : AppendResourceBindStatistics F log frameInfo = some out) :
    ∃ ps t lines rest, totalResourcesPerStage F frameInfo.stats = some ps ∧
      totalResourcesForAllStages ps = some t ∧
      out = log ++ "\n*** Resource Bind Statistics ***\n\n" ++ lines
        ++ ("Total calls: " ++ argNat t.calls ++ " non-null resource sets: " ++ argNat t.sets
          ++ " null resource sets: " ++ argNat t.nulls ++ "\n") ++ rest := by
  cases h1 : totalResourcesPerStage F frameInfo.stats with
  | none => rw [AppendResourceBindStatistics_none F log frameInfo h1] at ho; cases ho
  | some ps =>
    unfold AppendResourceBindStatistics at ho
    rw [h1] at ho
    simp only [Option.some_bind, Option.bind_eq_bind] at ho
    cases h2 : totalResourcesForAllStages ps with
    | none => rw [h2] at ho; cases ho
    | some t =>
      rw [h2] at ho
      simp only [Option.some_bind] at ho
      cases ha : appendHistogram
          (ps.enum.foldl (fun (log : String) (sp : Nat × ResourceBindStats) =>
            log ++ (F.Abbrev sp.1 ++ " calls: " ++ argNat sp.2.calls
              ++ " non-null resource sets: " ++ argNat sp.2.sets
              ++ " null resource sets: " ++ argNat sp.2.nulls ++ "\n"))
            (log ++ "\n*** Resource Bind Statistics ***\n\n")
            ++ ("Total calls: " ++ argNat t.calls ++ " non-null resource sets: "
              ++ argNat t.sets ++ " null resource sets: " ++ argNat t.nulls ++ "\n")
            ++ "\nResource types across all stages:\n") t.types 0
          (fun s => some (argWidth (F.ToQStr s) 20)) with
      | none => rw [ha] at ho; cases ho
      | some l =>
        rw [ha] at ho
        simp only [Option.some_bind] at ho
        obtain ⟨r, hr⟩ := appendHistogram_some _ _ _ _ _ ha
        cases hh : CreateSimpleIntegerHistogram
            "Aggregate slot counts per invocation across all stages" t.bindslots with
        | none => rw [hh] at ho; cases ho
        | some hist =>
          rw [hh] at ho
          simp only [Option.some_bind, Option.pure_def, Option.some.injEq] at ho
          have e := foldl_append_extends (fun (sp : Nat × ResourceBindStats) =>
              (F.Abbrev sp.1 ++ " calls: " ++ argNat sp.2.calls
                ++ " non-null resource sets: " ++ argNat sp.2.sets
                ++ " null resource sets: " ++ argNat sp.2.nulls ++ "\n")) ps.enum
              (log ++ "\n*** Resource Bind Statistics ***\n\n") ""
          rw [String.append_empty] at e
          rw [e] at hr
          refine ⟨ps, t, (ps.enum.foldl (fun (log : String) (sp : Nat × ResourceBindStats) =>
              log ++ (F.Abbrev sp.1 ++ " calls: " ++ argNat sp.2.calls
                ++ " non-null resource sets: " ++ argNat sp.2.sets
                ++ " null resource sets: " ++ argNat sp.2.nulls ++ "\n")) ""),
            "\nResource types across all stages:\n" ++ r ++ hist, rfl, h2, ?_⟩
          rw [← ho, hr]
          simp only [String.append_assoc]

/-- The function `Pow2IndexAsReadable` gives a label for every index below
64. -/
theorem Pow2IndexAsReadable_some (F : Formatting) (index : Nat) (h : index < 64) :
    ∃ l, Pow2IndexAsReadable F index = some l := by
  unfold Pow2IndexAsReadable
  rw [if_neg (by omega)]
  dsimp only
  split
  · exact ⟨_, rfl⟩
  · split
    · exact ⟨_, rfl⟩
    · exact ⟨_, rfl⟩

/-- Buckets that are sums modulo `2 ^ 32` fit `uint32_t`. -/
theorem buckets_width (l : List Nat) (g : Nat → Nat)
    (h : ∀ i, i < l.length → l.getD i 0 = g i % 2 ^ 32) : ∀ x ∈ l, x < 2 ^ 32 := by
  intro x hx
  obtain ⟨i, hi, rfl⟩ := List.getElem_of_mem hx
  have := h i hi
  rw [List.getD_eq_getElem?_getD, List.getElem?_eq_getElem hi] at this
  simp only [Option.getD_some] at this
  rw [this]
  exact Nat.mod_lt _ (by norm_num)

/-- The constant section is produced when no stage has more buckets than
stage 0 and stage 0 has at least one slot bucket and between one and 64 size
buckets. -/
theorem AppendConstantBindStatistics_some (F : Formatting) (log : String)
    (frameInfo : FrameDescription) (hN : 0 < F.stageCount)
    (h : ∀ s, s < F.stageCount →
      (frameInfo.stats.constants s).bindslots.length ≤
        (frameInfo.stats.constants 0).bindslots.length ∧
      (frameInfo.stats.constants s).sizes.length ≤
        (frameInfo.stats.constants 0).sizes.length)
    (hB : 0 < (frameInfo.stats.constants 0).bindslots.length)
    (hS : 0 < (frameInfo.stats.constants 0).sizes.length)
    (hS64 : (frameInfo.stats.constants 0).sizes.length ≤ 64) :
    ∃ out, AppendConstantBindStatistics F log frameInfo = some out := by
  obtain ⟨t, h1, h2, _, _, _, h6, h7, h8, h9⟩ := constantTotals_spec F frameInfo.stats hN h
  have hne : t.bindslots ≠ [] := by
    intro hc; rw [hc] at h6; simp at h6; omega
  have hne2 : t.sizes ≠ [] := by
    intro hc; rw [hc] at h7; simp at h7; omega
  have hw : ∀ x ∈ t.bindslots, x < 2 ^ 32 :=
    buckets_width _ _ (fun i hi => h8 i (by omega))
  have hw2 : ∀ x ∈ t.sizes, x < 2 ^ 32 :=
    buckets_width _ _ (fun i hi => h9 i (by omega))
  obtain ⟨before, hb⟩ := AppendConstantBindStatistics_eq F log frameInfo _ t h1 h2
  rw [hb, CreateSimpleIntegerHistogram_eq _ _ hne hw]
  simp only [Option.some_bind, Option.bind_eq_bind]
  have hmw : (scanResult t.sizes 0).2 < 64 := by
    obtain ⟨_, _, hc⟩ := scanResult_spec t.sizes 0
    rcases hc with ⟨hz, _⟩ | ⟨_, hlt, _⟩
    · omega
    · omega
  rw [appendHistogram_eq _ t.sizes 0 _
    (fun o => argWidth ((Pow2IndexAsReadable F o).getD "") 8) hw2 (fun _ => hne2)
    (fun o _ ho => by
      obtain ⟨l, hl⟩ := Pow2IndexAsReadable_some F o (by omega)
      show Option.map (fun l => argWidth l 8) (Pow2IndexAsReadable F o) =
        some (argWidth ((Pow2IndexAsReadable F o).getD "") 8)
      rw [hl]
      rfl)]
  exact ⟨_, rfl⟩

/-- The resource section is produced when no stage has more buckets than
stage 0 and stage 0 has at least one type bucket and one slot bucket. -/
theorem AppendResourceBindStatistics_some (F : Formatting) (log : String)
    (frameInfo : FrameDescription) (hN : 0 < F.stageCount)
    (h : ∀ s, s < F.stageCount →
      (frameInfo.stats.resources s).types.length ≤
        (frameInfo.stats.resources 0).types.length ∧
      (frameInfo.stats.resources s).bindslots.length ≤
        (frameInfo.stats.resources 0).bindslots.length)
    (hT : 0 < (frameInfo.stats.resources 0).types.length)
    (hB : 0 < (frameInfo.stats.resources 0).bindslots.length) :
    ∃ out, AppendResourceBindStatistics F log frameInfo = some out := by
  obtain ⟨t, h1, h2, _, _, _, h6, h7, h8, h9⟩ := resourceTotals_spec F frameInfo.stats hN h
  have hne : t.types ≠ [] := by
    intro hc; rw [hc] at h6; simp at h6; omega
  have hne2 : t.bindslots ≠ [] := by
    intro hc; rw [hc] at h7; simp at h7; omega
  have hw : ∀ x ∈ t.types, x < 2 ^ 32 :=
    buckets_width _ _ (fun i hi => h8 i (by omega))
  have hw2 : ∀ x ∈ t.bindslots, x < 2 ^ 32 :=
    buckets_width _ _ (fun i hi => h9 i (by omega))
  unfold AppendResourceBindStatistics
  rw [h1]
  simp only [Option.some_bind, Option.bind_eq_bind]
  rw [h2]
  simp only [Option.some_bind]
  rw [appendHistogram_eq _ t.types 0 _ (fun s => argWidth (F.ToQStr s) 20) hw (fun _ => hne)
    (fun o _ _ => rfl)]
  simp only [Option.some_bind]
  rw [CreateSimpleIntegerHistogram_eq _ _ hne2 hw2]
  exact ⟨_, rfl⟩

set_option maxRecDepth 100000 in
/-- C5, as the claim states it, fails: with two stages whose shader call
counts are `2 ^ 32 - 1` and 1, the grand-total line of the shader section
reads "Total calls: 0", while the exact sum of the call counts of the stages
is `2 ^ 32`. -/
theorem C5_counterexample :
    AppendShaderStatistics (exampleFormatting 2) "" overflowFrame =
      some ("\n*** Shader Set Statistics ***\n\n"
        ++ "VS calls: 4294967295, non-null shader sets: 0, null shader sets: 0, "
        ++ "redundant shader sets: 0\n"
        ++ "VS calls: 1, non-null shader sets: 0, null shader sets: 0, "
        ++ "redundant shader sets: 0\n"
        ++ "Total calls: 0, non-null shader sets: 0, null shader sets: 0, "
        ++ "reundant shader sets: 0\n") ∧
    stageSum (exampleFormatting 2) (fun s => (overflowFrame.stats.shaders s).calls) =
      4294967296 := by
  constructor
  · decide
  · decide

/-- C5, amended: the grand-total line of each multi-stage section prints the
sums over all shader stages of the counters of the stages, reduced modulo
`2 ^ 32`. The shader section reads no bucket array: it is always the log, the
heading, the stage lines and the line of calls, non-null sets, null sets and
redundant sets. A run of the constant, sampler or resource builder in which
every bucket access stays inside its array gives the log, the heading, the
stage lines, the totals line of calls, non-null sets and null sets, and the
histograms. Every access of a builder stays inside its array when there is a
stage, no stage has a bucket array longer than that of stage 0, and the
arrays of stage 0 are not empty (at most 64 size buckets for the constants,
whose labels shift `1ULL` by the index). -/
theorem C5_grand_totals_modulo (F : Formatting) (log : String) (frameInfo : FrameDescription) :
    (∃ lines, AppendShaderStatistics F log frameInfo =
      some (log ++ "\n*** Shader Set Statistics ***\n\n" ++ lines
        ++ ("Total calls: "
          ++ argNat (stageSum F (fun s => (frameInfo.stats.shaders s).calls) % 2 ^ 32)
          ++ ", non-null shader sets: "
          ++ argNat (stageSum F (fun s => (frameInfo.stats.shaders s).sets) % 2 ^ 32)
          ++ ", null shader sets: "
          ++ argNat (stageSum F (fun s => (frameInfo.stats.shaders s).nulls) % 2 ^ 32)
          ++ ", reundant shader sets: "
          ++ argNat (stageSum F (fun s => (frameInfo.stats.shaders s).redundants) % 2 ^ 32)
          ++ "\n"))) ∧
    (∀ out, AppendConstantBindStatistics F log frameInfo = some out →
      ∃ lines rest, out = log ++ "\n*** Constant Bind Statistics ***\n\n" ++ lines
        ++ ("Total calls: "
          ++ argNat (stageSum F (fun s => (frameInfo.stats.constants s).calls) % 2 ^ 32)
          ++ ", non-null buffer sets: "
          ++ argNat (stageSum F (fun s => (frameInfo.stats.constants s).sets) % 2 ^ 32)
          ++ ", null buffer sets: "
          ++ argNat (stageSum F (fun s => (frameInfo.stats.constants s).nulls) % 2 ^ 32)
          ++ "\n") ++ rest) ∧
    (∀ out, AppendSamplerBindStatistics F log frameInfo = some out →
      ∃ lines rest, out = log ++ "\n*** Sampler Bind Statistics ***\n\n" ++ lines
        ++ ("Total calls: "
          ++ argNat (stageSum F (fun s => (frameInfo.stats.samplers s).calls) % 2 ^ 32)
          ++ ", non-null sampler sets: "
          ++ argNat (stageSum F (fun s => (frameInfo.stats.samplers s).sets) % 2 ^ 32)
          ++ ", null sampler sets: "
          ++ argNat (stageSum F (fun s => (frameInfo.stats.samplers s).nulls) % 2 ^ 32)
          ++ "\n") ++ rest) ∧
    (∀ out, AppendResourceBindStatistics F log frameInfo = some out →
      ∃ lines rest, out = log ++ "\n*** Resource Bind Statistics ***\n\n" ++ lines
        ++ ("Total calls: "
          ++ argNat (stageSum F (fun s => (frameInfo.stats.resources s).calls) % 2 ^ 32)
          ++ " non-null resource sets: "
          ++ argNat (stageSum F (fun s => (frameInfo.stats.resources s).sets) % 2 ^ 32)
          ++ " null resource sets: "
          ++ argNat (stageSum F (fun s => (frameInfo.stats.resources s).nulls) % 2 ^ 32)
          ++ "\n") ++ rest) ∧
    (0 < F.stageCount →
      (∀ s, s < F.stageCount →
        (frameInfo.stats.constants s).bindslots.length ≤
          (frameInfo.stats.constants 0).bindslots.length ∧
        (frameInfo.stats.constants s).sizes.length ≤
          (frameInfo.stats.constants 0).sizes.length) →
      0 < (frameInfo.stats.constants 0).bindslots.length →
      0 < (frameInfo.stats.constants 0).sizes.length →
      (frameInfo.stats.constants 0).sizes.length ≤ 64 →
      ∃ out, AppendConstantBindStatistics F log frameInfo = some out) ∧
    (0 < F.stageCount →
      (∀ s, s < F.stageCount → (frameInfo.stats.samplers s).bindslots.length ≤
        (frameInfo.stats.samplers 0).bindslots.length) →
      0 < (frameInfo.stats.samplers 0).bindslots.length →
      ∃ out, AppendSamplerBindStatistics F log frameInfo = some out) ∧
    (0 < F.stageCount →
      (∀ s, s < F.stageCount →
        (frameInfo.stats.resources s).types.length ≤
          (frameInfo.stats.resources 0).types.length ∧
        (frameInfo.stats.resources s).bindslots.length ≤
          (frameInfo.stats.resources 0).bindslots.length) →
      0 < (frameInfo.stats.resources 0).types.length →
      0 < (frameInfo.stats.resources 0).bindslots.length →
      ∃ out, AppendResourceBindStatistics F log frameInfo = some out) := by
  refine ⟨?_, ?_, ?_, ?_, ?_, ?_, ?_⟩
  · obtain ⟨lines, hl⟩ := AppendShaderStatistics_total F log frameInfo
    obtain ⟨e1, e2, e3, e4⟩ := totalShadersPerStage_fields F frameInfo.stats
    rw [e1, e2, e3, e4] at hl
    refine ⟨lines, ?_⟩
    rw [hl]
    simp only [String.append_assoc]
  · intro out ho
    obtain ⟨ps, t, lines, rest, h1, h2, he⟩ :=
      AppendConstantBindStatistics_totalLine F log out frameInfo ho
    obtain ⟨e1, e2, e3⟩ := constantTotals_counters F frameInfo.stats ps t h1 h2
    rw [e1, e2, e3] at he
    exact ⟨lines, rest, he⟩
  · intro out ho
    obtain ⟨ps, t, lines, rest, h1, h2, he⟩ :=
      AppendSamplerBindStatistics_totalLine F log out frameInfo ho
    obtain ⟨e1, e2, e3⟩ := samplerTotals_counters F frameInfo.stats ps t h1 h2
    rw [e1, e2, e3] at he
    exact ⟨lines, rest, he⟩
  · intro out ho
    obtain ⟨ps, t, lines, rest, h1, h2, he⟩ :=
      AppendResourceBindStatistics_totalLine F log out frameInfo ho
    obtain ⟨e1, e2, e3⟩ := resourceTotals_counters F frameInfo.stats ps t h1 h2
    rw [e1, e2, e3] at he
    exact ⟨lines, rest, he⟩
  · exact fun hN h hB hS hS64 =>
      AppendConstantBindStatistics_some F log frameInfo hN h hB hS hS64
  · exact fun hN h hL => AppendSamplerBindStatistics_some F log frameInfo hN h hL
  · exact fun hN h hT hB => AppendResourceBindStatistics_some F log frameInfo hN h hT hB

set_option maxRecDepth 100000 in
/-- Witness of the amended C5: two stages of sampler binds with 3 and 4
calls, 2 and 1 non-null sets, 1 and 3 null sets. The section is produced and
its grand-total line reads "Total calls: 7, non-null sampler sets: 3, null
sampler sets: 4". -/
theorem C5_grand_totals_modulo_witness :
    AppendSamplerBindStatistics (exampleFormatting 2) "" samplerTotalsFrame =
      some ("\n*** Sampler Bind Statistics ***\n\n"
        ++ "VS calls: 3, non-null sampler sets: 2, null sampler sets: 1\n"
        ++ "VS calls: 4, non-null sampler sets: 1, null sampler sets: 3\n"
        ++ "Total calls: 7, non-null sampler sets: 3, null sampler sets: 4\n"
        ++ "\nAggregate slot counts per invocation across all stages:\n"
        ++ "   0:  \n") ∧
    ("Total calls: "
      ++ argNat (stageSum (exampleFormatting 2)
        (fun s => (samplerTotalsFrame.stats.samplers s).calls) % 2 ^ 32)
      ++ ", non-null sampler sets: "
      ++ argNat (stageSum (exampleFormatting 2)
        (fun s => (samplerTotalsFrame.stats.samplers s).sets) % 2 ^ 32)
      ++ ", null sampler sets: "
      ++ argNat (stageSum (exampleFormatting 2)
        (fun s => (samplerTotalsFrame.stats.samplers s).nulls) % 2 ^ 32)
      ++ "\n") = "Total calls: 7, non-null sampler sets: 3, null sampler sets: 4\n" ∧
    (∃ out, AppendSamplerBindStatistics (exampleFormatting 2) "" samplerTotalsFrame = some out) ∧
    (∃ lines rest, ("\n*** Sampler Bind Statistics ***\n\n"
        ++ "VS calls: 3, non-null sampler sets: 2, null sampler sets: 1\n"
        ++ "VS calls: 4, non-null sampler sets: 1, null sampler sets: 3\n"
        ++ "Total calls: 7, non-null sampler sets: 3, null sampler sets: 4\n"
        ++ "\nAggregate slot counts per invocation across all stages:\n"
        ++ "   0:  \n") =
      "" ++ "\n*** Sampler Bind Statistics ***\n\n" ++ lines
        ++ ("Total calls: "
          ++ argNat (stageSum (exampleFormatting 2)
            (fun s => (samplerTotalsFrame.stats.samplers s).calls) % 2 ^ 32)
          ++ ", non-null sampler sets: "
          ++ argNat (stageSum (exampleFormatting 2)
            (fun s => (samplerTotalsFrame.stats.samplers s).sets) % 2 ^ 32)
          ++ ", null sampler sets: "
          ++ argNat (stageSum (exampleFormatting 2)
            (fun s => (samplerTotalsFrame.stats.samplers s).nulls) % 2 ^ 32)
          ++ "\n") ++ rest) :=
  ⟨by decide, by decide,
    (C5_grand_totals_modulo (exampleFormatting 2) "" samplerTotalsFrame).2.2.2.2.2.1
      (by decide) (by decide) (by decide),
    (C5_grand_totals_modulo (exampleFormatting 2) "" samplerTotalsFrame).2.2.1 _ (by decide)⟩

end StatisticsViewer
